import Mathlib

/-!
# rgProject: a verification development for `src/main.cpp`

The development embeds the parts of `main.cpp` that carry behaviour one can state:

* the bloom post-processing tail of the render loop (blur ping-pong loop and composite),
  run against a small model of the OpenGL binding state;
* the input handlers `processInput`, `key_callback`, `mouse_callback`;
* `ProgramState::SaveToFile` / `ProgramState::LoadFromFile`, run against a character-level
  model of the text stream;
* the texture loaders `loadTexture` and `loadCubemap` and the failure paths of the set-up of
  `main`, as the record of the calls they issue and the text they write.

Definitions come first, theorems after them.
-/

namespace RgProject

/-! ## OpenGL object names and binding state -/

/-- Texture objects. `glGenTextures` hands out pairwise distinct unused names, so a texture is
identified by the program variable that holds its name; `zero` is texture name `0`. -/
inductive Tex
  | zero
  | colorBuffers (i : Nat)
  | pingpongColorbuffers (i : Nat)
  | grassTexture
  | grassTextureSpec
  | cubemapTexture
  deriving DecidableEq, Repr

/-- Framebuffer objects; `default` is framebuffer `0`, the window. -/
inductive Fbo
  | default
  | hdrFBO
  | pingpongFBO (i : Nat)
  deriving DecidableEq, Repr

/-- Shader programs created in `main`. -/
inductive Shader
  | ourShader
  | skyboxShader
  | blendingShader
  | hdrShader
  | blurShader
  | bloomShader
  deriving DecidableEq, Repr

/-- Vertex arrays used by the post-processing tail. -/
inductive Vao
  | zero
  | quadVAO
  | skyboxVAO
  | grassVAO
  deriving DecidableEq, Repr

/-- Value of a uniform set through `Shader::setInt` / `Shader::setFloat`. A float uniform keeps
the literal of the source. -/
inductive UVal
  | int (v : Int)
  | floatLit (s : String)
  deriving DecidableEq, Repr

/-- The part of the OpenGL context state that the post-processing code reads or writes. -/
@[ext]
structure GLState where
  /-- binding of `GL_FRAMEBUFFER` -/
  framebuffer : Fbo
  /-- selected texture unit: `k` stands for `GL_TEXTURE0 + k` -/
  activeTexture : Nat
  /-- `GL_TEXTURE_2D` binding of every texture unit -/
  texture2D : Nat → Tex
  /-- `GL_TEXTURE_CUBE_MAP` binding of every texture unit -/
  textureCube : Nat → Tex
  /-- program in use -/
  program : Option Shader
  /-- uniform values per program -/
  uniform : Shader → String → Option UVal
  /-- bound vertex array -/
  vertexArray : Vao
  /-- colour attachment points of every framebuffer object: `(fbo, k, tex)` says that `tex`
  is attached to `GL_COLOR_ATTACHMENT0 + k` of `fbo` -/
  attachments : List (Fbo × Nat × Tex)
  /-- attachment points a draw writes (`glDrawBuffers`); a framebuffer object without an entry
  writes `GL_COLOR_ATTACHMENT0` only, the GL default -/
  drawBuffers : List (Fbo × List Nat)
  /-- depth comparison function, by name -/
  depthFunc : String

/-- One recorded `glDrawArrays`: the context state it ran in. -/
@[ext]
structure Draw where
  state : GLState
  mode : String
  first : Nat
  count : Nat

/-- The context together with the draws and clears issued so far, newest first. -/
structure Ctx where
  st : GLState
  draws : List Draw
  clears : List Fbo

/-- Attachment points written by a draw into `fbo`. -/
def GLState.drawBuffersOf (s : GLState) (fbo : Fbo) : List Nat :=
  match s.drawBuffers.find? (fun e => e.1 = fbo) with
  | some e => e.2
  | none => [0]

/-- Textures a draw into `fbo` writes: those attached to its enabled colour attachment points. -/
def GLState.colorTargets (s : GLState) (fbo : Fbo) : List Tex :=
  (s.attachments.filter (fun a => a.1 = fbo ∧ a.2.1 ∈ s.drawBuffersOf fbo)).map (fun a => a.2.2)

/-- Textures the draw writes. -/
def Draw.writes (d : Draw) : List Tex := d.state.colorTargets d.state.framebuffer

/-- The `GL_TEXTURE_2D` texture the draw has on texture unit `k`. -/
def Draw.sampled (d : Draw) (k : Nat) : Tex := d.state.texture2D k

/-- Integer uniform `name` of the program the draw runs. -/
def Draw.uniformOf (d : Draw) (name : String) : Option UVal :=
  match d.state.program with
  | some p => d.state.uniform p name
  | none => none

def glBindFramebuffer (fbo : Fbo) (g : Ctx) : Ctx :=
  { g with st := { g.st with framebuffer := fbo } }

def glActiveTexture (k : Nat) (g : Ctx) : Ctx :=
  { g with st := { g.st with activeTexture := k } }

/-- `glBindTexture(GL_TEXTURE_2D, t)`: binds on the selected unit. -/
def glBindTexture2D (t : Tex) (g : Ctx) : Ctx :=
  { g with st := { g.st with
      texture2D := fun k => if k = g.st.activeTexture then t else g.st.texture2D k } }

/-- `glBindTexture(GL_TEXTURE_CUBE_MAP, t)`: binds on the selected unit. -/
def glBindTextureCube (t : Tex) (g : Ctx) : Ctx :=
  { g with st := { g.st with
      textureCube := fun k => if k = g.st.activeTexture then t else g.st.textureCube k } }

def glBindVertexArray (v : Vao) (g : Ctx) : Ctx :=
  { g with st := { g.st with vertexArray := v } }

def glDepthFunc (f : String) (g : Ctx) : Ctx :=
  { g with st := { g.st with depthFunc := f } }

def glDrawArrays (mode : String) (first count : Nat) (g : Ctx) : Ctx :=
  { g with draws := { state := g.st, mode := mode, first := first, count := count } :: g.draws }

/-- `glClear` on the bound framebuffer. -/
def glClear (g : Ctx) : Ctx :=
  { g with clears := g.st.framebuffer :: g.clears }

/-- `glFramebufferTexture2D(GL_FRAMEBUFFER, GL_COLOR_ATTACHMENT0 + k, GL_TEXTURE_2D, t, 0)`:
replaces what attachment point `k` of the bound framebuffer held. -/
def glFramebufferTexture2D (k : Nat) (t : Tex) (g : Ctx) : Ctx :=
  { g with st := { g.st with
      attachments :=
        (g.st.attachments.filter (fun a => ¬ (a.1 = g.st.framebuffer ∧ a.2.1 = k)))
          ++ [(g.st.framebuffer, k, t)] } }

/-- `glDrawBuffers(n, bufs)` on the bound framebuffer, `bufs` given as attachment indices. -/
def glDrawBuffers (bufs : List Nat) (g : Ctx) : Ctx :=
  { g with st := { g.st with
      drawBuffers :=
        (g.st.drawBuffers.filter (fun e => ¬ (e.1 = g.st.framebuffer)))
          ++ [(g.st.framebuffer, bufs)] } }

/-- `Shader::use()` of `learnopengl/shader.h`: `glUseProgram(ID)`. -/
def Shader.use (sh : Shader) (g : Ctx) : Ctx :=
  { g with st := { g.st with program := some sh } }

/-- Uniform update behind `Shader::setInt` / `Shader::setFloat` of `learnopengl/shader.h`
(`glUniform1i(glGetUniformLocation(ID, name), value)`): the location is looked up in `sh` and the
value lands in the program in use, so the named uniform of `sh` is set when `sh` is in use;
with another program in use no uniform of `sh` changes. -/
def Shader.setUniform (sh : Shader) (name : String) (v : UVal) (g : Ctx) : Ctx :=
  if g.st.program = some sh then
    { g with st := { g.st with
        uniform := fun p n => if p = sh ∧ n = name then some v else g.st.uniform p n } }
  else g

/-- Conversion `bool → int` of C++. -/
def boolToInt (b : Bool) : Int := if b then 1 else 0

/-- Conversion `bool → array index` of C++ (`pingpongFBO[horizontal]`). -/
def boolToIdx (b : Bool) : Nat := if b then 1 else 0

def Shader.setInt (sh : Shader) (name : String) (v : Int) (g : Ctx) : Ctx :=
  sh.setUniform name (UVal.int v) g

def Shader.setFloat (sh : Shader) (name : String) (lit : String) (g : Ctx) : Ctx :=
  sh.setUniform name (UVal.floatLit lit) g

/-! ## Framebuffer set-up in `main` (lines 272-322) -/

/-- Creation of the HDR framebuffer: both colour buffers attached, both enabled for drawing. -/
def setupHdrFBO (g : Ctx) : Ctx :=
  let g := glBindFramebuffer Fbo.hdrFBO g
  let g := (List.range 2).foldl (fun g i =>
    let g := glBindTexture2D (Tex.colorBuffers i) g
    glFramebufferTexture2D i (Tex.colorBuffers i) g) g
  let g := glDrawBuffers [0, 1] g
  glBindFramebuffer Fbo.default g

/-- Creation of the two ping-pong framebuffers: `pingpongColorbuffers[i]` is the one colour
attachment of `pingpongFBO[i]`. -/
def setupPingpong (g : Ctx) : Ctx :=
  (List.range 2).foldl (fun g i =>
    let g := glBindFramebuffer (Fbo.pingpongFBO i) g
    let g := glBindTexture2D (Tex.pingpongColorbuffers i) g
    glFramebufferTexture2D 0 (Tex.pingpongColorbuffers i) g) g

/-- The context as `glfwMakeContextCurrent` delivers it: nothing bound, no objects. -/
def Ctx.initial : Ctx :=
  { st := { framebuffer := Fbo.default, activeTexture := 0, texture2D := fun _ => Tex.zero,
            textureCube := fun _ => Tex.zero, program := none, uniform := fun _ _ => none,
            vertexArray := Vao.zero, attachments := [], drawBuffers := [], depthFunc := "GL_LESS" },
    draws := [], clears := [] }

/-- The framebuffer set-up of `main`, from a fresh context. -/
def Ctx.afterSetup : Ctx := setupPingpong (setupHdrFBO Ctx.initial)

/-! ## The post-processing tail of a frame (lines 701-747) -/

/-- Skybox draw that ends the scene pass; it leaves texture unit 0 selected and the default
framebuffer bound. -/
def skyboxPass (g : Ctx) : Ctx :=
  let g := glDepthFunc "GL_LEQUAL" g
  let g := Shader.skyboxShader.use g
  let g := Shader.skyboxShader.setInt "skybox" 0 g
  let g := glBindVertexArray Vao.skyboxVAO g
  let g := glActiveTexture 0 g
  let g := glBindTextureCube Tex.cubemapTexture g
  let g := glDrawArrays "GL_TRIANGLES" 0 36 g
  let g := glDepthFunc "GL_LESS" g
  glBindFramebuffer Fbo.default g

/-- Local variables of the blur loop. -/
structure BlurVars where
  horizontal : Bool
  first_iteration : Bool
  deriving DecidableEq, Repr

/-- Body of the blur loop. -/
def blurBody (s : Ctx × BlurVars) : Ctx × BlurVars :=
  let g := s.1
  let v := s.2
  let g := glBindFramebuffer (Fbo.pingpongFBO (boolToIdx v.horizontal)) g
  let g := Shader.blurShader.setInt "horizontal" (boolToInt v.horizontal) g
  let g := glBindTexture2D
    (if v.first_iteration then Tex.colorBuffers 1
     else Tex.pingpongColorbuffers (boolToIdx (!v.horizontal))) g
  let g := glBindVertexArray Vao.quadVAO g
  let g := glDrawArrays "GL_TRIANGLE_STRIP" 0 4 g
  let g := glBindVertexArray Vao.zero g
  let horizontal := !v.horizontal
  let first_iteration := if v.first_iteration then false else v.first_iteration
  (g, { horizontal := horizontal, first_iteration := first_iteration })

/-- The loop `for (unsigned int i = 0; i < amount; i++)`: the body never reads `i`, so the loop
is `amount` runs of the body. -/
def blurLoop : Nat → Ctx × BlurVars → Ctx × BlurVars
  | 0, s => s
  | n + 1, s => blurLoop n (blurBody s)

/-- The constant `amount` of the render loop. -/
def amount : Nat := 10

/-- Blur stage: the loop with its initialisation, then the default framebuffer is bound again. -/
def blurStage (g : Ctx) : Ctx × BlurVars :=
  let v : BlurVars := { horizontal := true, first_iteration := true }
  let g := Shader.blurShader.use g
  let r := blurLoop amount (g, v)
  (glBindFramebuffer Fbo.default r.1, r.2)

/-- Composite stage: `horizontal` is the loop variable as the loop left it, `bBloom` the
global flag. -/
def compositeStage (bBloom : Bool) (horizontal : Bool) (g : Ctx) : Ctx :=
  let g := glClear g
  let g := Shader.bloomShader.use g
  let g := glActiveTexture 0 g
  let g := glBindTexture2D (Tex.colorBuffers 0) g
  let g := glActiveTexture 1 g
  let g := glBindTexture2D (Tex.pingpongColorbuffers (boolToIdx (!horizontal))) g
  let g := Shader.bloomShader.setInt "bloom" (boolToInt bBloom) g
  let g := Shader.bloomShader.setFloat "exposure" "0.1f" g
  let g := glBindVertexArray Vao.quadVAO g
  let g := glDrawArrays "GL_TRIANGLE_STRIP" 0 4 g
  glBindVertexArray Vao.zero g

/-- The tail of one frame, from the skybox draw to the composite draw. -/
def postProcess (bBloom : Bool) (g : Ctx) : Ctx :=
  let g := skyboxPass g
  let r := blurStage g
  compositeStage bBloom r.2.horizontal r.1

/-- The draws of a frame tail started in `g`, in the order in which they are issued: the log
the tail leaves when it starts from an empty one. -/
def tailDraws (bBloom : Bool) (g : Ctx) : List Draw :=
  (postProcess bBloom { g with draws := [] }).draws.reverse

/-- The blur draws of a frame tail started in `g`: the draws after the skybox draw and before
the composite draw. -/
def blurDraws (bBloom : Bool) (g : Ctx) : List Draw :=
  ((tailDraws bBloom g).drop 1).take amount

/-- The composite draw of a frame tail started in `g`: its last draw. -/
def compositeDraw (bBloom : Bool) (g : Ctx) : Option Draw :=
  (tailDraws bBloom g).getLast?

/-! ## Binary floating point

`float` and `double` are IEEE-754 binary32 and binary64. A datum is its three bit fields, so that
equality of data is equality bit for bit. Values are handled exactly, as a natural numerator over
a natural denominator; every rounding is to nearest, ties to even (the default rounding mode). -/

/-- Field widths of a binary interchange format. -/
structure FloatFormat where
  fracBits : Nat
  expBits : Nat
  deriving DecidableEq, Repr

def binary32 : FloatFormat := { fracBits := 23, expBits := 8 }

def binary64 : FloatFormat := { fracBits := 52, expBits := 11 }

/-- Largest value of the exponent field; it marks infinities and NaNs. -/
def FloatFormat.expMax (f : FloatFormat) : Nat := 2 ^ f.expBits - 1

/-- Exponent bias. -/
def FloatFormat.bias (f : FloatFormat) : Nat := 2 ^ (f.expBits - 1) - 1

/-- The least positive datum of the format is `2 ^ (-f.minExp)`. -/
def FloatFormat.minExp (f : FloatFormat) : Nat := f.bias - 1 + f.fracBits

/-- A floating-point datum: sign bit, exponent field, fraction field. -/
structure Fp (f : FloatFormat) where
  sign : Bool
  expo : Nat
  frac : Nat
  deriving DecidableEq, Repr

abbrev F32 := Fp binary32

abbrev F64 := Fp binary64

namespace Fp

variable {f : FloatFormat}

/-- The fields fit their widths. -/
def WF (x : Fp f) : Prop := x.expo < 2 ^ f.expBits ∧ x.frac < 2 ^ f.fracBits

instance (x : Fp f) : Decidable x.WF := by unfold WF; infer_instance

def isFinite (x : Fp f) : Bool := x.expo < f.expMax

def isNaN (x : Fp f) : Bool := x.expo = f.expMax ∧ x.frac ≠ 0

def isInf (x : Fp f) : Bool := x.expo = f.expMax ∧ x.frac = 0

def zero (f : FloatFormat) (sign : Bool) : Fp f := { sign := sign, expo := 0, frac := 0 }

def inf (f : FloatFormat) (sign : Bool) : Fp f := { sign := sign, expo := f.expMax, frac := 0 }

/-- The quiet NaN an invalid operation delivers. -/
def nan (f : FloatFormat) : Fp f :=
  { sign := false, expo := f.expMax, frac := 2 ^ (f.fracBits - 1) }

/-- Largest finite datum of the format (`numeric_limits<T>::max()`). -/
def maxFinite (f : FloatFormat) (sign : Bool) : Fp f :=
  { sign := sign, expo := f.expMax - 1, frac := 2 ^ f.fracBits - 1 }

/-- Significand of a finite datum as an integer: the magnitude is `mant * 2 ^ (scale - minExp)`. -/
def mant (x : Fp f) : Nat := if x.expo = 0 then x.frac else 2 ^ f.fracBits + x.frac

/-- Binary scale of a finite datum above the least one. -/
def scale (x : Fp f) : Nat := x.expo - 1

/-- Numerator of the magnitude of a finite datum over the denominator `2 ^ f.minExp`. -/
def num (x : Fp f) : Nat := x.mant * 2 ^ x.scale

/-- Denominator that goes with `num`. -/
def den (_x : Fp f) : Nat := 2 ^ f.minExp

end Fp

/-- Floor of the binary logarithm, `0` at `0`; `fuel` bounds the number of halvings. -/
def log2Floor : Nat → Nat → Nat
  | 0, _ => 0
  | fuel + 1, n => if n < 2 then 0 else log2Floor fuel (n / 2) + 1

/-- Quotient `num / den` rounded to the nearest integer, ties to the even one. -/
def divRoundEven (num den : Nat) : Nat :=
  let q := num / den
  let r := num % den
  if 2 * r < den then q
  else if den < 2 * r then q + 1
  else if q % 2 = 0 then q else q + 1

namespace Fp

/-- The normal datum with significand `m` (of `fracBits + 1` bits) at binary scale `sh`, or an
infinity when the scale is beyond the format. -/
def normal (f : FloatFormat) (sign : Bool) (m sh : Nat) : Fp f :=
  if sh + 1 < f.expMax then { sign := sign, expo := sh + 1, frac := m - 2 ^ f.fracBits }
  else inf f sign

/-- The datum of format `f` nearest to `num / (den * 2 ^ f.minExp)`, ties to even, with the given
sign; a magnitude that rounds beyond the largest finite datum gives an infinity.
With `t = num / den` in units of the least datum and `e = ⌊log2 t⌋`, the significand keeps
`fracBits + 1` bits when `t` is in the normal range and the spacing is one unit below it; a
significand that rounds up to `2 ^ (fracBits + 1)` moves to the next scale. -/
def ofUnits (f : FloatFormat) (sign : Bool) (num den : Nat) : Fp f :=
  let e := log2Floor (num + 1) (num / den)
  let sh := e - f.fracBits
  let m := divRoundEven num (den * 2 ^ sh)
  if m < 2 ^ f.fracBits then { sign := sign, expo := 0, frac := m }
  else if m < 2 ^ (f.fracBits + 1) then normal f sign m sh
  else normal f sign (m / 2) (sh + 1)

/-- The datum of format `f` nearest to `num / den`. -/
def ofRatio (f : FloatFormat) (sign : Bool) (num den : Nat) : Fp f :=
  ofUnits f sign (num * 2 ^ f.minExp) den

/-- Conversion between formats (`float → double` is exact, `double → float` rounds). -/
def convert {a : FloatFormat} (b : FloatFormat) (x : Fp a) : Fp b :=
  if x.isNaN then { nan b with sign := x.sign }
  else if x.isInf then inf b x.sign
  else ofRatio b x.sign x.num x.den

/-- Difference `x - y` in format `f`. -/
def sub (x y : Fp f) : Fp f :=
  if x.isNaN ∨ y.isNaN then nan f
  else if x.isInf then (if y.isInf ∧ y.sign = x.sign then nan f else x)
  else if y.isInf then inf f (!y.sign)
  else
    -- exact signed difference of the numerators, over the common denominator
    let a := x.num
    let b := y.num
    if x.sign = y.sign then
      if a = b then zero f (x.sign && !y.sign)
      else if b < a then ofUnits f x.sign (a - b) 1
      else ofUnits f (!x.sign) (b - a) 1
    else if a + b = 0 then zero f (x.sign && !y.sign)
    else ofUnits f x.sign (a + b) 1

end Fp

/-! ## Program state and globals -/

/-- Three floats (`glm::vec3`). -/
structure Vec3 where
  x : F32
  y : F32
  z : F32
  deriving DecidableEq, Repr

structure PointLight where
  position : Vec3
  ambient : Vec3
  diffuse : Vec3
  specular : Vec3
  constant : F32
  linear : F32
  quadratic : F32
  deriving DecidableEq, Repr

/-- The data members of `Camera` (`learnopengl/camera.h`) that `main.cpp` names. -/
structure Camera where
  Position : Vec3
  Front : Vec3
  Yaw : F32
  Pitch : F32
  Zoom : F32
  deriving DecidableEq, Repr

structure ProgramState where
  clearColor : Vec3
  ImGuiEnabled : Bool
  camera : Camera
  CameraMouseMovementUpdateEnabled : Bool
  backpackPosition : Vec3
  backpackScale : F32
  pointLight : PointLight
  deriving DecidableEq, Repr

/-- Values of `enum Camera_Movement`. -/
inductive Camera_Movement
  | FORWARD
  | BACKWARD
  | LEFT
  | RIGHT
  | UP
  | DOWN
  deriving DecidableEq, Repr

/-- A call of a `Camera` member function, with its arguments. -/
inductive CameraCall
  | ProcessKeyboard (direction : Camera_Movement) (deltaTime : F32)
  | ProcessMouseMovement (xoffset yoffset : F32)
  | ProcessMouseScroll (yoffset : F32)
  deriving DecidableEq, Repr

/-- What a `Camera` member function does to the camera. The class is not part of `main.cpp`, so
its behaviour is a parameter of everything that calls it. -/
abbrev CameraApi := CameraCall → Camera → Camera

/-- The camera API that changes nothing, for evaluating concrete runs. -/
def CameraApi.inert : CameraApi := fun _ c => c

/-- Literal `0.0f`. -/
def F32.zero : F32 := Fp.zero binary32 false

/-- A small integer as a `float` (exact below `2 ^ 24`). -/
def F32.ofNat (n : Nat) : F32 := Fp.ofRatio binary32 false n 1

def Vec3.splat (v : F32) : Vec3 := { x := v, y := v, z := v }

/-- The `ProgramState` constructor: the in-class initialisers, and `camera(glm::vec3(0, 0, 3))`.
`camera` hands in what the `Camera` constructor computes for the members other than `Position`
(only its `Position` is replaced), and `pointLight`, which has no initialiser, is whatever the
allocation holds. -/
def ProgramState.new (camera : Camera) (pointLight : PointLight) : ProgramState :=
  { clearColor := Vec3.splat F32.zero
    ImGuiEnabled := false
    camera := { camera with Position := { x := F32.zero, y := F32.zero, z := F32.ofNat 3 } }
    CameraMouseMovementUpdateEnabled := true
    backpackPosition := Vec3.splat F32.zero
    backpackScale := F32.ofNat 1
    pointLight := pointLight }

/-! ### GLFW constants (`GLFW/glfw3.h`) -/

def GLFW_RELEASE : Int := 0
def GLFW_PRESS : Int := 1
def GLFW_REPEAT : Int := 2
def GLFW_KEY_SPACE : Int := 32
def GLFW_KEY_A : Int := 65
def GLFW_KEY_D : Int := 68
def GLFW_KEY_H : Int := 72
def GLFW_KEY_S : Int := 83
def GLFW_KEY_W : Int := 87
def GLFW_KEY_X : Int := 88
def GLFW_KEY_ESCAPE : Int := 256
def GLFW_KEY_F1 : Int := 290
def GLFW_CURSOR_NORMAL : Int := 0x00034001
def GLFW_CURSOR_HIDDEN : Int := 0x00034002
def GLFW_CURSOR_DISABLED : Int := 0x00034003

/-- The globals of `main.cpp`, the window state the handlers set, and the record of the camera
calls issued so far (newest last). -/
structure World where
  programState : ProgramState
  lastX : F32
  lastY : F32
  firstMouse : Bool
  deltaTime : F32
  lastFrame : F32
  bBloom : Bool
  /-- value of the window's `GLFW_CURSOR` input mode -/
  cursorMode : Int
  /-- the window's close flag -/
  shouldClose : Bool
  cameraCalls : List CameraCall
  deriving DecidableEq, Repr

/-- A statement `programState->camera.f(args)`. -/
def World.callCamera (api : CameraApi) (c : CameraCall) (w : World) : World :=
  { w with
    programState := { w.programState with camera := api c w.programState.camera }
    cameraCalls := w.cameraCalls ++ [c] }

/-- `glfwSetInputMode(window, GLFW_CURSOR, mode)`. -/
def World.setCursorMode (mode : Int) (w : World) : World := { w with cursorMode := mode }

/-! ## Input handlers -/

/-- The statement `if (glfwGetKey(window, key) == GLFW_PRESS)
programState->camera.ProcessKeyboard(direction, deltaTime);` of `processInput`. -/
def World.keyMove (api : CameraApi) (getKey : Int → Int) (key : Int)
    (direction : Camera_Movement) (w : World) : World :=
  if getKey key = GLFW_PRESS then
    w.callCamera api (CameraCall.ProcessKeyboard direction w.deltaTime)
  else w

/-- `processInput`; `glfwGetKey` is the key-state table `getKey` of the window. -/
def processInput (api : CameraApi) (getKey : Int → Int) (w : World) : World :=
  let w := if getKey GLFW_KEY_ESCAPE = GLFW_PRESS then { w with shouldClose := true } else w
  let w := w.keyMove api getKey GLFW_KEY_W Camera_Movement.FORWARD
  let w := w.keyMove api getKey GLFW_KEY_S Camera_Movement.BACKWARD
  let w := w.keyMove api getKey GLFW_KEY_A Camera_Movement.LEFT
  let w := w.keyMove api getKey GLFW_KEY_D Camera_Movement.RIGHT
  let w := w.keyMove api getKey GLFW_KEY_SPACE Camera_Movement.UP
  let w := w.keyMove api getKey GLFW_KEY_X Camera_Movement.DOWN
  if getKey GLFW_KEY_H = GLFW_PRESS then
    (if w.bBloom then { w with bBloom := false } else { w with bBloom := true })
  else w

/-- `mouse_callback`. `xpos` and `ypos` are `double`; the stores into the `float` globals and
locals narrow, and the differences are taken in `double`. -/
def mouse_callback (api : CameraApi) (xpos ypos : F64) (w : World) : World :=
  let w := if w.firstMouse then
    { w with lastX := xpos.convert binary32, lastY := ypos.convert binary32, firstMouse := false }
    else w
  let xoffset : F32 := (xpos.sub (w.lastX.convert binary64)).convert binary32
  let yoffset : F32 := ((w.lastY.convert binary64).sub ypos).convert binary32
  let w := { w with lastX := xpos.convert binary32, lastY := ypos.convert binary32 }
  if w.programState.CameraMouseMovementUpdateEnabled then
    w.callCamera api (CameraCall.ProcessMouseMovement xoffset yoffset)
  else w

/-- `scroll_callback`. -/
def scroll_callback (api : CameraApi) (_xoffset yoffset : F64) (w : World) : World :=
  w.callCamera api (CameraCall.ProcessMouseScroll (yoffset.convert binary32))

/-- `key_callback`. -/
def key_callback (key _scancode action _mods : Int) (w : World) : World :=
  if key = GLFW_KEY_F1 ∧ action = GLFW_PRESS then
    let w := { w with programState :=
      { w.programState with ImGuiEnabled := !w.programState.ImGuiEnabled } }
    if w.programState.ImGuiEnabled then
      let w := { w with programState :=
        { w.programState with CameraMouseMovementUpdateEnabled := false } }
      w.setCursorMode GLFW_CURSOR_NORMAL
    else
      w.setCursorMode GLFW_CURSOR_DISABLED
  else w

/-- An event that `glfwPollEvents` delivers to a callback of `main.cpp`. -/
inductive Event
  | key (key scancode action mods : Int)
  | cursorPos (xpos ypos : F64)
  | scroll (xoffset yoffset : F64)
  deriving DecidableEq, Repr

/-- Dispatch of one event to its callback. -/
def Event.handle (api : CameraApi) (e : Event) (w : World) : World :=
  match e with
  | Event.key k s a m => key_callback k s a m w
  | Event.cursorPos x y => mouse_callback api x y w
  | Event.scroll x y => scroll_callback api x y w

/-- Dispatch of a sequence of events, oldest first. -/
def handleEvents (api : CameraApi) (es : List Event) (w : World) : World :=
  es.foldl (fun w e => e.handle api w) w

/-- The globals as their initialisers leave them (`SCR_WIDTH / 2.0f = 640`,
`SCR_HEIGHT / 2.0f = 480`), with `programState` still to be allocated by `main`. -/
def World.globals (ps : ProgramState) : World :=
  { programState := ps
    lastX := F32.ofNat 640
    lastY := F32.ofNat 480
    firstMouse := true
    deltaTime := F32.zero
    lastFrame := F32.zero
    bBloom := true
    cursorMode := GLFW_CURSOR_NORMAL
    shouldClose := false
    cameraCalls := [] }

/-! ## Text streams

The persisted state goes through `std::ofstream` / `std::ifstream` with their default flags
(`dec`, `skipws`, precision 6, no `boolalpha`) in the "C" locale. The functions below give the
characters the inserters write and the values the extractors read, as the GNU C++ library does
on top of the C library's `printf("%.6g")` and `strtof`. A text is a list of characters. -/

def isDigitC (c : Char) : Bool := 48 ≤ c.toNat ∧ c.toNat ≤ 57

/-- The six characters `isspace` accepts in the "C" locale: tab, LF, VT, FF, CR, blank. -/
def isSpaceC (c : Char) : Bool := (9 ≤ c.toNat ∧ c.toNat ≤ 13) ∨ c.toNat = 32

def digitChar (d : Nat) : Char := Char.ofNat (48 + d)

def digitVal (c : Char) : Nat := c.toNat - 48

/-- The line feed `'\n'`. -/
def newline : Char := Char.ofNat 10

/-- Value of a string of decimal digits, most significant first. -/
def digitsToNat (ds : List Char) : Nat := ds.foldl (fun acc c => 10 * acc + digitVal c) 0

/-- The `k` low decimal digits of `n`, most significant first. -/
def fixedDigits : Nat → Nat → List Char
  | 0, _ => []
  | k + 1, n => fixedDigits k (n / 10) ++ [digitChar (n % 10)]

/-- Floor of the decimal logarithm, `0` below `10`; `fuel` bounds the number of divisions. -/
def log10Floor : Nat → Nat → Nat
  | 0, _ => 0
  | fuel + 1, n => if n < 10 then 0 else log10Floor fuel (n / 10) + 1

/-- Decimal digits of `n` without leading zeros (`"0"` for `0`). -/
def natDigits (n : Nat) : List Char := fixedDigits (log10Floor n n + 1) n

/-- Least `k` with `den ≤ num * 10 ^ k`, for `0 < num`; `fuel` bounds the search. -/
def negDecExp : Nat → Nat → Nat → Nat
  | 0, _, _ => 0
  | fuel + 1, num, den => if den ≤ num then 0 else negDecExp fuel (num * 10) den + 1

/-- Decimal exponent `X` of a positive `num / den`: `10 ^ X ≤ num / den < 10 ^ (X + 1)`. -/
def decExp (num den : Nat) : Int :=
  if den ≤ num then (log10Floor num (num / den) : Int) else - (negDecExp den num den : Int)

/-- Rounding of a positive `num / den` to `p` significant decimal digits, ties to even: the pair
`(D, X)` with `10 ^ (p - 1) ≤ D < 10 ^ p` stands for `D * 10 ^ (X - (p - 1))`. -/
def roundSig (p : Nat) (num den : Nat) : Nat × Int :=
  let X := decExp num den
  let s : Int := (p : Int) - 1 - X
  let D := if 0 ≤ s then divRoundEven (num * 10 ^ s.toNat) den
           else divRoundEven num (den * 10 ^ (-s).toNat)
  if D = 10 ^ p then (10 ^ (p - 1), X + 1) else (D, X)

/-- Removal of trailing `'0'` characters. -/
def stripZeros (ds : List Char) : List Char :=
  (ds.reverse.dropWhile (fun c => c = digitChar 0)).reverse

/-- The digits `ds` with the decimal point after the first `k`; zeros at the end of the fraction
are dropped, and so is the point when nothing follows it. -/
def pointAfter (k : Nat) (ds : List Char) : List Char :=
  let fr := stripZeros (ds.drop k)
  ds.take k ++ (if fr = [] then [] else '.' :: fr)

/-- Exponent suffix of the `e` style: sign and at least two digits. -/
def expSuffix (X : Int) : List Char :=
  let a := X.natAbs
  'e' :: (if X < 0 then '-' else '+') :: (if a < 10 then digitChar 0 :: natDigits a else natDigits a)

/-- The conversion `%.{p}g` of a positive `num / den`. With `X` the decimal exponent after
rounding to `p` significant digits, the style is `f` when `-4 ≤ X < p` and `e` otherwise. -/
def fmtG (p : Nat) (num den : Nat) : List Char :=
  let (D, X) := roundSig p num den
  let ds := fixedDigits p D
  if X < -4 ∨ (p : Int) ≤ X then pointAfter 1 ds ++ expSuffix X
  else if X < 0 then digitChar 0 :: '.' :: (List.replicate ((-X).toNat - 1) (digitChar 0) ++ stripZeros ds)
  else pointAfter (X.toNat + 1) ds

/-- Stream precision in force (`ios_base` default). -/
def precision : Nat := 6

/-- Characters written by `out << x` for a `float`. -/
def putFloat (x : F32) : List Char :=
  (if x.sign then ['-'] else []) ++
    (if x.isNaN then ['n', 'a', 'n']
     else if x.isInf then ['i', 'n', 'f']
     else if x.mant = 0 then [digitChar 0]
     else fmtG precision x.num x.den)

/-- Characters written by `out << b` for a `bool`. -/
def putBool (b : Bool) : List Char := [digitChar (if b then 1 else 0)]

/-- Input stream: the characters not yet consumed and the two state bits that matter. -/
structure IStream where
  buf : List Char
  eofbit : Bool
  failbit : Bool
  deriving DecidableEq, Repr

/-- The test `is.good()`. -/
def IStream.good (s : IStream) : Bool := !s.eofbit && !s.failbit

/-- The `sentry` every formatted extraction starts with: it skips white space, and reports
whether the extraction may go on. A stream that is not good, or that ends while skipping,
gets `failbit`. -/
def IStream.sentry (s : IStream) : IStream × Bool :=
  if s.good then
    let rest := s.buf.dropWhile isSpaceC
    if rest = [] then ({ buf := [], eofbit := true, failbit := true }, false)
    else ({ s with buf := rest }, true)
  else ({ s with failbit := true }, false)

/-- Accumulation loop of `num_get::_M_extract_float` after the sign and the leading zeros:
`x` is the text accumulated so far, the flags are `__found_mantissa`, `__found_dec` and
`__found_sci`, and `sg` says that the character before was the `e` of the exponent, after which
the loop takes a sign. It returns the accumulated text and the characters left in the stream. -/
def scanFloatLoop : List Char → List Char → Bool → Bool → Bool → Bool → List Char × List Char
  | [], x, _, _, _, _ => (x, [])
  | c :: r, x, fm, fd, fs, sg =>
    if sg ∧ (c = '+' ∨ c = '-') then scanFloatLoop r (x ++ [c]) fm fd fs false
    else if isDigitC c then scanFloatLoop r (x ++ [c]) true fd fs false
    else if c = '.' ∧ !fd ∧ !fs then scanFloatLoop r (x ++ ['.']) fm true fs false
    else if (c = 'e' ∨ c = 'E') ∧ !fs ∧ fm then scanFloatLoop r (x ++ ['e']) fm fd true true
    else (x, c :: r)

/-- An optional sign at the front of the stream, as `_M_extract_float` takes it: the sign
accumulated and the characters after it. -/
def takeSign (buf : List Char) : List Char × List Char :=
  match buf with
  | [] => ([], [])
  | c :: r => if c = '+' ∨ c = '-' then ([c], r) else ([], c :: r)

/-- `num_get::_M_extract_float`: an optional sign, the leading zeros (kept as one `'0'`), then
the accumulation loop. -/
def scanFloat (buf : List Char) : List Char × List Char :=
  let x := (takeSign buf).1
  let b := (takeSign buf).2
  let zs := b.takeWhile (fun c => c = '0')
  let b := b.dropWhile (fun c => c = '0')
  scanFloatLoop b (if zs = [] then x else x ++ ['0']) (zs ≠ []) false false false

/-- A decimal floating constant as `strtof` reads it: sign, digits of the mantissa with the
point removed, and the power of ten that scales them. -/
structure Decimal where
  neg : Bool
  digits : Nat
  exp10 : Int
  deriving DecidableEq, Repr

/-- An optional sign at the front of a text: whether it is `-`, and the text after it. -/
def readSign (t : List Char) : Bool × List Char :=
  match t with
  | [] => (false, [])
  | c :: r => if c = '-' then (true, r) else if c = '+' then (false, r) else (false, c :: r)

/-- Exponent part of a floating constant: `e`, optional sign, at least one digit, up to the end
of the text. -/
def parseExpPart (t : List Char) : Option Int :=
  match t with
  | [] => some 0
  | c :: r =>
    if c = 'e' ∨ c = 'E' then
      let neg := (readSign r).1
      let ds := (readSign r).2
      if ds ≠ [] ∧ ds.all isDigitC then
        some (if neg then - (digitsToNat ds : Int) else (digitsToNat ds : Int))
      else none
    else none

/-- An optional fraction at the front of a text: the digits after the point, and the text after
them. -/
def readFraction (t : List Char) : List Char × List Char :=
  match t with
  | [] => ([], [])
  | c :: r => if c = '.' then (r.takeWhile isDigitC, r.dropWhile isDigitC) else ([], c :: r)

/-- The whole text `t` as a decimal floating constant of C, if it is one. -/
def parseDecimal (t : List Char) : Option Decimal :=
  let neg := (readSign t).1
  let t := (readSign t).2
  let ip := t.takeWhile isDigitC
  let t := t.dropWhile isDigitC
  let fp := (readFraction t).1
  let t := (readFraction t).2
  if ip = [] ∧ fp = [] then none
  else
    match parseExpPart t with
    | none => none
    | some e => some { neg := neg, digits := digitsToNat (ip ++ fp), exp10 := e - (fp.length : Int) }

/-- The `float` nearest to a decimal constant (`strtof`); an infinity on overflow. -/
def Decimal.toF32 (d : Decimal) : F32 :=
  if d.digits = 0 then Fp.zero binary32 d.neg
  else if 0 ≤ d.exp10 then Fp.ofRatio binary32 d.neg (d.digits * 10 ^ d.exp10.toNat) 1
  else Fp.ofRatio binary32 d.neg d.digits (10 ^ (-d.exp10).toNat)

/-- `__convert_to_v` for `float`: the value of the accumulated text and whether the conversion
failed. A text that is no floating constant gives `0` and fails; an overflow gives the largest
finite `float` of that sign and fails. -/
def convertToFloat (xtrc : List Char) : F32 × Bool :=
  match parseDecimal xtrc with
  | none => (F32.zero, true)
  | some d =>
    let v := d.toF32
    if v.isInf then (Fp.maxFinite binary32 v.sign, true) else (v, false)

/-- `in >> x` for a `float`: `old` is the value of `x` before. When the sentry lets the
extraction go on, the accumulated text is converted and stored; the stream keeps what the
scan left, has `eofbit` when the scan ran into the end, and `failbit` when the conversion
failed. -/
def IStream.getFloat (s : IStream) (old : F32) : F32 × IStream :=
  if s.sentry.2 then
    let sc := scanFloat s.sentry.1.buf
    let cv := convertToFloat sc.1
    (cv.1, { buf := sc.2, eofbit := (sc.2 = []), failbit := cv.2 })
  else (old, s.sentry.1)

/-- Largest `long` (64 bits). -/
def LONG_MAX : Nat := 2 ^ 63 - 1

/-- `num_get::_M_extract_int<long>` in base 10: optional sign, then digits. It returns the
value, whether it failed, and the characters left. Without a digit the value is `0` and the
extraction fails; out of range gives the nearest limit and fails. -/
def scanLong (buf : List Char) : Int × Bool × List Char :=
  let neg := (readSign buf).1
  let b := (readSign buf).2
  let ds := b.takeWhile isDigitC
  let rest := b.dropWhile isDigitC
  let n := digitsToNat ds
  if ds = [] then (0, true, rest)
  else if neg then
    (if LONG_MAX + 1 < n then (- (LONG_MAX + 1 : Int), true, rest) else (- (n : Int), false, rest))
  else (if LONG_MAX < n then ((LONG_MAX : Int), true, rest) else ((n : Int), false, rest))

/-- `in >> b` for a `bool` (no `boolalpha`): a `long` is read; `0` and `1` give the flag, any
other value gives `true` and fails. -/
def IStream.getBool (s : IStream) (old : Bool) : Bool × IStream :=
  if s.sentry.2 then
    let sc := scanLong s.sentry.1.buf
    if sc.1 = 0 then (false, { buf := sc.2.2, eofbit := (sc.2.2 = []), failbit := sc.2.1 })
    else if sc.1 = 1 then (true, { buf := sc.2.2, eofbit := (sc.2.2 = []), failbit := sc.2.1 })
    else (true, { buf := sc.2.2, eofbit := (sc.2.2 = []), failbit := true })
  else (old, s.sentry.1)

/-! ## `ProgramState::SaveToFile` and `ProgramState::LoadFromFile` -/

/-- `SaveToFile`: the characters written to the file (once it is open for writing). -/
def ProgramState.SaveToFile (s : ProgramState) : List Char :=
  putFloat s.clearColor.x ++ [newline]
    ++ putFloat s.clearColor.y ++ [newline]
    ++ putFloat s.clearColor.z ++ [newline]
    ++ putBool s.ImGuiEnabled ++ [newline]
    ++ putFloat s.camera.Position.x ++ [newline]
    ++ putFloat s.camera.Position.y ++ [newline]
    ++ putFloat s.camera.Position.z ++ [newline]
    ++ putFloat s.camera.Front.x ++ [newline]
    ++ putFloat s.camera.Front.y ++ [newline]
    ++ putFloat s.camera.Front.z ++ [newline]

/-- `LoadFromFile`: `file` is the content of the named file, `none` when it cannot be opened.
Each extraction returns the value stored and the stream it leaves for the next one. -/
def ProgramState.LoadFromFile (file : Option (List Char)) (s : ProgramState) : ProgramState :=
  match file with
  | none => s
  | some content =>
    let i : IStream := { buf := content, eofbit := false, failbit := false }
    let r := i.getFloat s.clearColor.x
    let g := r.2.getFloat s.clearColor.y
    let b := g.2.getFloat s.clearColor.z
    let en := b.2.getBool s.ImGuiEnabled
    let px := en.2.getFloat s.camera.Position.x
    let py := px.2.getFloat s.camera.Position.y
    let pz := py.2.getFloat s.camera.Position.z
    let fx := pz.2.getFloat s.camera.Front.x
    let fy := fx.2.getFloat s.camera.Front.y
    let fz := fy.2.getFloat s.camera.Front.z
    { s with
      clearColor := { x := r.1, y := g.1, z := b.1 }
      ImGuiEnabled := en.1
      camera := { s.camera with
        Position := { x := px.1, y := py.1, z := pz.1 }
        Front := { x := fx.1, y := fy.1, z := fz.1 } } }

/-! ## The shape of a floating constant

A view of the text of a floating constant by its parts, used to follow the scanners through the
text the inserter writes. -/

/-- Parts of a decimal floating constant: sign, digits before the point, digits after the point
(none: no point), exponent (its sign, `true` for `-`, and its digits). -/
structure FloatText where
  neg : Bool
  ip : List Char
  fp : List Char
  ex : Option (Bool × List Char)

/-- Text of the exponent part. -/
def FloatText.expText : Option (Bool × List Char) → List Char
  | none => []
  | some (n, ds) => 'e' :: (if n then '-' else '+') :: ds

/-- Text of the constant after the sign. -/
def FloatText.body (t : FloatText) : List Char :=
  t.ip ++ ((if t.fp = [] then [] else '.' :: t.fp) ++ FloatText.expText t.ex)

/-- Text of the constant. -/
def FloatText.text (t : FloatText) : List Char :=
  (if t.neg then ['-'] else []) ++ t.body

/-- The parts are digit strings, there is a digit before the point and no needless leading zero,
and an exponent has a digit. -/
def FloatText.WF (t : FloatText) : Prop :=
  (∃ c r, t.ip = c :: r ∧ (c ≠ digitChar 0 ∨ r = [])) ∧
  (∀ c ∈ t.ip, isDigitC c = true) ∧
  (∀ c ∈ t.fp, isDigitC c = true) ∧
  (∀ n ds, t.ex = some (n, ds) → ds ≠ [] ∧ ∀ c ∈ ds, isDigitC c = true)

/-- Value of the exponent part. -/
def FloatText.expVal : Option (Bool × List Char) → Int
  | none => 0
  | some (n, ds) => if n then - (digitsToNat ds : Int) else (digitsToNat ds : Int)

/-- The decimal the constant denotes. -/
def FloatText.decimal (t : FloatText) : Decimal :=
  { neg := t.neg, digits := digitsToNat (t.ip ++ t.fp),
    exp10 := FloatText.expVal t.ex - (t.fp.length : Int) }

/-- Digits of the exponent of the `e` style: at least two. -/
def expDigits (a : Nat) : List Char :=
  if a < 10 then digitChar 0 :: natDigits a else natDigits a

/-- The parts of `fmtG p num den`. -/
def fmtGText (p : Nat) (num den : Nat) : FloatText :=
  let ds := fixedDigits p (roundSig p num den).1
  let X := (roundSig p num den).2
  if X < -4 ∨ (p : Int) ≤ X then
    { neg := false, ip := ds.take 1, fp := stripZeros (ds.drop 1),
      ex := some (decide (X < 0), expDigits X.natAbs) }
  else if X < 0 then
    { neg := false, ip := [digitChar 0],
      fp := List.replicate ((-X).toNat - 1) (digitChar 0) ++ stripZeros ds, ex := none }
  else
    { neg := false, ip := ds.take (X.toNat + 1), fp := stripZeros (ds.drop (X.toNat + 1)),
      ex := none }

/-- The parts of `putFloat x` for a finite `x`. -/
def putFloatText (x : F32) : FloatText :=
  if x.mant = 0 then { neg := x.sign, ip := [digitChar 0], fp := [], ex := none }
  else { fmtGText precision x.num x.den with neg := x.sign }

/-- Numerator of the largest finite `float` over the denominator `1`. -/
def fltMax : Nat := (2 ^ 24 - 1) * 2 ^ 104

/-- A character at which the scan of a floating constant stops. -/
def isFloatStop (c : Char) : Bool :=
  !isDigitC c && c != '.' && c != 'e' && c != 'E' && c != '+' && c != '-'

/-- The rest of a stream after a constant: empty, or starting with a stop character. -/
def StopsScan (rest : List Char) : Prop :=
  ∀ c r, rest = c :: r → isFloatStop c = true

/-- The `float` that the text written for `x` converts to when it is read. -/
def readBack (x : F32) : F32 := (convertToFloat (putFloat x)).1

/-- A finite `float` with fields of the right widths. -/
def F32.Finite (x : F32) : Prop := x.WF ∧ x.isFinite = true

instance (x : F32) : Decidable (F32.Finite x) := by unfold F32.Finite; infer_instance

/-- The nine persisted `float` members are finite. -/
def ProgramState.PersistedFinite (s : ProgramState) : Prop :=
  F32.Finite s.clearColor.x ∧ F32.Finite s.clearColor.y ∧ F32.Finite s.clearColor.z ∧
  F32.Finite s.camera.Position.x ∧ F32.Finite s.camera.Position.y ∧
  F32.Finite s.camera.Position.z ∧
  F32.Finite s.camera.Front.x ∧ F32.Finite s.camera.Front.y ∧ F32.Finite s.camera.Front.z

instance (s : ProgramState) : Decidable s.PersistedFinite := by
  unfold ProgramState.PersistedFinite; infer_instance

/-- A non-empty run of white space. -/
def IsSeparator (w : List Char) : Prop := w ≠ [] ∧ ∀ c ∈ w, isSpaceC c = true

/-- A text that `in >> x` takes whole as a `float` without failing: a floating constant of the
shape above whose conversion does not overflow. -/
def FloatToken (tok : List Char) : Prop :=
  ∃ t : FloatText, t.WF ∧ tok = t.text ∧ (convertToFloat tok).2 = false

/-- A file of ten fields: `lead` in front, then field `i` (from 0) followed by `sep i`. -/
def fileLayout (lead : List Char) (tok sep : Nat → List Char) : List Char :=
  lead ++ (tok 0 ++ (sep 0 ++ (tok 1 ++ (sep 1 ++ (tok 2 ++ (sep 2 ++ (tok 3 ++ (sep 3 ++
    (tok 4 ++ (sep 4 ++ (tok 5 ++ (sep 5 ++ (tok 6 ++ (sep 6 ++ (tok 7 ++ (sep 7 ++
    (tok 8 ++ (sep 8 ++ (tok 9 ++ sep 9)))))))))))))))))))

/-- The text `SaveToFile` writes for its `i`-th inserted member (from 0). -/
def ProgramState.fieldText (s : ProgramState) : Nat → List Char
  | 0 => putFloat s.clearColor.x
  | 1 => putFloat s.clearColor.y
  | 2 => putFloat s.clearColor.z
  | 3 => putBool s.ImGuiEnabled
  | 4 => putFloat s.camera.Position.x
  | 5 => putFloat s.camera.Position.y
  | 6 => putFloat s.camera.Position.z
  | 7 => putFloat s.camera.Front.x
  | 8 => putFloat s.camera.Front.y
  | 9 => putFloat s.camera.Front.z
  | _ => []

/-- The state `t` with the ten persisted members replaced: the flag by that of `s`, each
`float` by what the text of the member of `s` reads back as. -/
def ProgramState.restored (s t : ProgramState) : ProgramState :=
  { t with
    clearColor := { x := readBack s.clearColor.x, y := readBack s.clearColor.y,
                    z := readBack s.clearColor.z }
    ImGuiEnabled := s.ImGuiEnabled
    camera := { t.camera with
      Position := { x := readBack s.camera.Position.x, y := readBack s.camera.Position.y,
                    z := readBack s.camera.Position.z }
      Front := { x := readBack s.camera.Front.x, y := readBack s.camera.Front.y,
                 z := readBack s.camera.Front.z } } }

instance (w : List Char) : Decidable (IsSeparator w) := by unfold IsSeparator; infer_instance

/-- Each of the nine persisted `float` members is finite and is the `float` its own written
text reads back as. -/
def ProgramState.SixDigitExact (s : ProgramState) : Prop :=
  s.PersistedFinite ∧
  readBack s.clearColor.x = s.clearColor.x ∧ readBack s.clearColor.y = s.clearColor.y ∧
  readBack s.clearColor.z = s.clearColor.z ∧
  readBack s.camera.Position.x = s.camera.Position.x ∧
  readBack s.camera.Position.y = s.camera.Position.y ∧
  readBack s.camera.Position.z = s.camera.Position.z ∧
  readBack s.camera.Front.x = s.camera.Front.x ∧ readBack s.camera.Front.y = s.camera.Front.y ∧
  readBack s.camera.Front.z = s.camera.Front.z

instance (s : ProgramState) : Decidable s.SixDigitExact := by
  unfold ProgramState.SixDigitExact; infer_instance

/-! ## Texture loaders and the failure paths of `main`

`loadTexture` and `loadCubemap` act on the OpenGL context, the image loader `stbi_load` and the
standard streams. Their effect is the record of the calls they issue, with the arguments, and of
the text they write, each in program order. What the outside delivers (the image a path loads
to, the texture name `glGenTextures` hands out, the result of a status query) is a parameter. -/

/-- The two standard output streams the program writes to. -/
inductive OStream
  | cout
  | cerr
  deriving DecidableEq, Repr

/-- An image `stbi_load` delivers: its size and component count, and a tag for the pixel data. -/
structure Image where
  width : Int
  height : Int
  nrComponents : Int
  pixels : Nat
  deriving DecidableEq, Repr

/-! ### OpenGL constants (`glad/glad.h`) -/

def GL_TEXTURE_2D : Nat := 0x0DE1
def GL_UNSIGNED_BYTE : Nat := 0x1401
def GL_RED : Nat := 0x1903
def GL_RGB : Nat := 0x1907
def GL_RGBA : Nat := 0x1908
def GL_LINEAR : Nat := 0x2601
def GL_LINEAR_MIPMAP_LINEAR : Nat := 0x2703
def GL_TEXTURE_MAG_FILTER : Nat := 0x2800
def GL_TEXTURE_MIN_FILTER : Nat := 0x2801
def GL_TEXTURE_WRAP_S : Nat := 0x2802
def GL_TEXTURE_WRAP_T : Nat := 0x2803
def GL_REPEAT : Nat := 0x2901
def GL_TEXTURE_WRAP_R : Nat := 0x8072
def GL_CLAMP_TO_EDGE : Nat := 0x812F
def GL_TEXTURE_CUBE_MAP : Nat := 0x8513
def GL_TEXTURE_CUBE_MAP_POSITIVE_X : Nat := 0x8515

/-- A call the loaders issue. An argument of type `Option Nat` is a value read from the local
`format` of `loadTexture`, which is declared without initialiser: `none` stands for the
indeterminate value it has when no branch assigned it. -/
inductive LoaderCall
  | glGenTextures (name : Nat)
  | glBindTexture (target name : Nat)
  | stbi_load (path : String)
  | glTexImage2D (target : Nat) (level : Int) (internalformat : Option Nat) (width height : Int)
      (border : Int) (format : Option Nat) (type : Nat) (data : Image)
  | glGenerateMipmap (target : Nat)
  | glTexParameteri (target pname : Nat) (param : Option Nat)
  | stbi_image_free (data : Option Image)
  deriving DecidableEq, Repr

/-- What the outside delivers to the set-up of `main`. -/
structure Env where
  /-- whether `glfwCreateWindow` returns a window -/
  windowCreated : Bool
  /-- result of `gladLoadGLLoader` -/
  gladLoaded : Bool
  /-- whether `glCheckFramebufferStatus` reports the HDR framebuffer complete -/
  hdrComplete : Bool
  /-- whether it reports ping-pong framebuffer `i` complete -/
  pingpongComplete : Nat → Bool
  /-- the image `stbi_load` delivers for a path, `none` for a null pointer -/
  stbi_load : String → Option Image
  /-- the name the `k`-th call of `glGenTextures` by a loader (from 0) stores -/
  texName : Nat → Nat
  /-- the function `FileSystem::getPath` -/
  getPath : String → String

/-- The record of what has happened: calls and written text, oldest first, and the number of
texture names generated so far. -/
structure Sys where
  calls : List LoaderCall
  out : List (OStream × String)
  generated : Nat
  deriving DecidableEq, Repr

def Sys.initial : Sys := { calls := [], out := [], generated := 0 }

def Sys.call (c : LoaderCall) (s : Sys) : Sys := { s with calls := s.calls ++ [c] }

/-- The insertion `stream << text`; `std::endl` is the line feed at the end of a text. -/
def Sys.write (stream : OStream) (text : String) (s : Sys) : Sys :=
  { s with out := s.out ++ [(stream, text)] }

/-- The statement `glGenTextures(1, &textureID)`: the name stored, and the record after it. -/
def Sys.genTexture (env : Env) (s : Sys) : Nat × Sys :=
  (env.texName s.generated,
    { s with calls := s.calls ++ [LoaderCall.glGenTextures (env.texName s.generated)],
             generated := s.generated + 1 })

/-- The `if` / `else if` chain of `loadTexture` that assigns `format`; no branch is taken for
a component count other than 1, 3 and 4. -/
def textureFormat (nrComponents : Int) : Option Nat :=
  if nrComponents = 1 then some GL_RED
  else if nrComponents = 3 then some GL_RGB
  else if nrComponents = 4 then some GL_RGBA
  else none

/-- The expression `format == GL_RGBA ? GL_CLAMP_TO_EDGE : GL_REPEAT`. -/
def wrapMode (format : Option Nat) : Option Nat :=
  format.map (fun f => if f = GL_RGBA then GL_CLAMP_TO_EDGE else GL_REPEAT)

/-- `loadTexture`: the value returned and the record after the call. -/
def loadTexture (env : Env) (path : String) (s : Sys) : Nat × Sys :=
  let textureID := (s.genTexture env).1
  let s := (s.genTexture env).2
  let s := s.call (LoaderCall.stbi_load path)
  match env.stbi_load path with
  | some data =>
    let format := textureFormat data.nrComponents
    let s := s.call (LoaderCall.glBindTexture GL_TEXTURE_2D textureID)
    let s := s.call (LoaderCall.glTexImage2D GL_TEXTURE_2D 0 format data.width data.height 0
      format GL_UNSIGNED_BYTE data)
    let s := s.call (LoaderCall.glGenerateMipmap GL_TEXTURE_2D)
    let s := s.call (LoaderCall.glTexParameteri GL_TEXTURE_2D GL_TEXTURE_WRAP_S (wrapMode format))
    let s := s.call (LoaderCall.glTexParameteri GL_TEXTURE_2D GL_TEXTURE_WRAP_T (wrapMode format))
    let s := s.call (LoaderCall.glTexParameteri GL_TEXTURE_2D GL_TEXTURE_MIN_FILTER
      (some GL_LINEAR_MIPMAP_LINEAR))
    let s := s.call (LoaderCall.glTexParameteri GL_TEXTURE_2D GL_TEXTURE_MAG_FILTER
      (some GL_LINEAR))
    let s := s.call (LoaderCall.stbi_image_free (some data))
    (textureID, s)
  | none =>
    let s := s.write OStream.cout ("Texture failed to load at path: " ++ path ++ "\n")
    let s := s.call (LoaderCall.stbi_image_free none)
    (textureID, s)

/-- The value of `return -1;` in a function returning `unsigned int` (32 bits). -/
def minusOneUnsigned : Nat := ((-1 : Int) % 2 ^ 32).toNat

/-- The loop of `loadCubemap` from index `i` on, `faces` being the paths not yet visited:
`some v` when the loop leaves the function with `return v`, `none` when it runs to its end.
The index is an `int`; it stays far below the largest one for any vector that fits in memory,
so the sum `GL_TEXTURE_CUBE_MAP_POSITIVE_X + i` is exact. -/
def loadCubemapLoop (env : Env) : List String → Nat → Sys → Option Nat × Sys
  | [], _, s => (none, s)
  | face :: faces, i, s =>
    let s := s.call (LoaderCall.stbi_load face)
    match env.stbi_load face with
    | some data =>
      let s := s.call (LoaderCall.glTexImage2D (GL_TEXTURE_CUBE_MAP_POSITIVE_X + i) 0
        (some GL_RGB) data.width data.height 0 (some GL_RGB) GL_UNSIGNED_BYTE data)
      let s := s.call (LoaderCall.stbi_image_free (some data))
      loadCubemapLoop env faces (i + 1) s
    | none =>
      (some minusOneUnsigned, s.write OStream.cerr "Failed to load cube map texture face\n")

/-- The five `glTexParameteri` calls at the end of `loadCubemap`. -/
def cubemapParameters (s : Sys) : Sys :=
  let s := s.call (LoaderCall.glTexParameteri GL_TEXTURE_CUBE_MAP GL_TEXTURE_MAG_FILTER
    (some GL_LINEAR))
  let s := s.call (LoaderCall.glTexParameteri GL_TEXTURE_CUBE_MAP GL_TEXTURE_MIN_FILTER
    (some GL_LINEAR))
  let s := s.call (LoaderCall.glTexParameteri GL_TEXTURE_CUBE_MAP GL_TEXTURE_WRAP_S
    (some GL_CLAMP_TO_EDGE))
  let s := s.call (LoaderCall.glTexParameteri GL_TEXTURE_CUBE_MAP GL_TEXTURE_WRAP_T
    (some GL_CLAMP_TO_EDGE))
  s.call (LoaderCall.glTexParameteri GL_TEXTURE_CUBE_MAP GL_TEXTURE_WRAP_R
    (some GL_CLAMP_TO_EDGE))

/-- `loadCubemap`: the value returned and the record after the call. -/
def loadCubemap (env : Env) (faces : List String) (s : Sys) : Nat × Sys :=
  let textureID := (s.genTexture env).1
  let s := (s.genTexture env).2
  let s := s.call (LoaderCall.glBindTexture GL_TEXTURE_CUBE_MAP textureID)
  match (loadCubemapLoop env faces 0 s).1 with
  | some v => (v, (loadCubemapLoop env faces 0 s).2)
  | none => (textureID, cubemapParameters (loadCubemapLoop env faces 0 s).2)

/-- The statement `if (glCheckFramebufferStatus(GL_FRAMEBUFFER) != GL_FRAMEBUFFER_COMPLETE)
std::cout << "Framebuffer not complete!" << std::endl;`. -/
def checkFramebuffer (complete : Bool) (s : Sys) : Sys :=
  if complete then s else s.write OStream.cout "Framebuffer not complete!\n"

/-- The skybox faces `main` hands to `loadCubemap`. -/
def skyboxFaces : List String :=
  ["resources/textures/skybox/newSkyBox/right.jpg",
   "resources/textures/skybox/newSkyBox/left.jpg",
   "resources/textures/skybox/newSkyBox/top.jpg",
   "resources/textures/skybox/newSkyBox/bottom.jpg",
   "resources/textures/skybox/newSkyBox/front.jpg",
   "resources/textures/skybox/newSkyBox/back.jpg"]

/-- The set-up of `main` before the render loop, as far as its detected failures go: the exit
status when `main` returns early (`none` when it goes on to the render loop) and the record of
what `main.cpp` itself wrote and loaded. The constructors of `Shader` and `Model` are not part
of `main.cpp` and leave no trace here. -/
def mainSetup (env : Env) : Option Int × Sys :=
  if !env.windowCreated then
    (some (-1), Sys.initial.write OStream.cout "Failed to create GLFW window\n")
  else if !env.gladLoaded then
    (some (-1), Sys.initial.write OStream.cout "Failed to initialize GLAD\n")
  else
    let s := checkFramebuffer env.hdrComplete Sys.initial
    let s := checkFramebuffer (env.pingpongComplete 0) s
    let s := checkFramebuffer (env.pingpongComplete 1) s
    let s := (loadTexture env (env.getPath "resources/textures/grass/grass-min.png") s).2
    let s := (loadTexture env
      (env.getPath "resources/textures/grass/grass-min_specular.png") s).2
    let s := (loadCubemap env skyboxFaces s).2
    (none, s)

/-- The uploads among a sequence of calls: target and image of each `glTexImage2D`, in order. -/
def uploadsOf : List LoaderCall → List (Nat × Image)
  | [] => []
  | LoaderCall.glTexImage2D target _ _ _ _ _ _ _ data :: cs => (target, data) :: uploadsOf cs
  | _ :: cs => uploadsOf cs

/-- The paths handed to `stbi_load` among a sequence of calls, in order. -/
def loadsOf : List LoaderCall → List String
  | [] => []
  | LoaderCall.stbi_load path :: cs => path :: loadsOf cs
  | _ :: cs => loadsOf cs

/-- The `glTexParameteri` calls among a sequence of calls, in order. -/
def parametersOf : List LoaderCall → List LoaderCall
  | [] => []
  | LoaderCall.glTexParameteri target pname param :: cs =>
    LoaderCall.glTexParameteri target pname param :: parametersOf cs
  | _ :: cs => parametersOf cs

/-- The three calls the loop of `loadCubemap` issues for face `i` when it loads to `data`. -/
def faceCalls (i : Nat) (face : String) (data : Image) : List LoaderCall :=
  [LoaderCall.stbi_load face,
   LoaderCall.glTexImage2D (GL_TEXTURE_CUBE_MAP_POSITIVE_X + i) 0 (some GL_RGB) data.width
     data.height 0 (some GL_RGB) GL_UNSIGNED_BYTE data,
   LoaderCall.stbi_image_free (some data)]

/-- The calls of the loop of `loadCubemap` for a run of faces that load, the first of them
being face `i`. -/
def okCalls (env : Env) : List String → Nat → List LoaderCall
  | [], _ => []
  | face :: faces, i =>
    (match env.stbi_load face with
      | some data => faceCalls i face data
      | none => []) ++ okCalls env faces (i + 1)

/-- The text `loadTexture` writes for a path that fails to load. -/
def textureMessage (path : String) : String := "Texture failed to load at path: " ++ path ++ "\n"

/-- What a framebuffer check writes. -/
def framebufferReport (complete : Bool) : List (OStream × String) :=
  if complete then [] else [(OStream.cout, "Framebuffer not complete!\n")]

/-- What a call of `loadTexture` writes. -/
def textureReport (env : Env) (path : String) : List (OStream × String) :=
  match env.stbi_load path with
  | some _ => []
  | none => [(OStream.cout, textureMessage path)]

/-- What a call of `loadCubemap` writes. -/
def cubemapReport (env : Env) (faces : List String) : List (OStream × String) :=
  if faces.all (fun f => (env.stbi_load f).isSome) then []
  else [(OStream.cerr, "Failed to load cube map texture face\n")]

/-! ## Start-up and the render loop -/

/-- `main` from the window creation to the cursor-mode fix-up after the state file is loaded, as
far as the globals and the window state go. `file` is the content of
`resources/program_state.txt` (`none` when it cannot be opened); `camera` and `pointLight` are
what the `ProgramState` constructor is handed (see `ProgramState.new`). -/
def startup (file : Option (List Char)) (camera : Camera) (pointLight : PointLight) : World :=
  let w := World.globals (ProgramState.new camera pointLight)
  let w := w.setCursorMode GLFW_CURSOR_DISABLED
  let w := { w with programState := w.programState.LoadFromFile file }
  if w.programState.ImGuiEnabled then w.setCursorMode GLFW_CURSOR_NORMAL else w

/-- `DrawImGui`, as far as the program state goes: the widgets are bound to `clearColor`,
`backpackPosition`, `backpackScale`, the three attenuation members of `pointLight` and
`CameraMouseMovementUpdateEnabled`, and `edit` is what the user does with them in this frame.
No other member is written. -/
def DrawImGui (edit : ProgramState → ProgramState) (ps : ProgramState) : ProgramState :=
  let e := edit ps
  { ps with
    clearColor := e.clearColor
    backpackPosition := e.backpackPosition
    backpackScale := e.backpackScale
    pointLight := { ps.pointLight with
      constant := e.pointLight.constant
      linear := e.pointLight.linear
      quadratic := e.pointLight.quadratic }
    CameraMouseMovementUpdateEnabled := e.CameraMouseMovementUpdateEnabled }

/-- What one pass of the render loop receives from outside. -/
structure FrameInput where
  /-- value of `glfwGetTime()` at the per-frame time logic -/
  time : F64
  /-- key states `glfwGetKey` reports during `processInput` -/
  getKey : Int → Int
  /-- the scene pass between the clear of the HDR framebuffer and the skybox draw -/
  scene : Ctx → Ctx
  /-- what the user does with the overlay widgets -/
  edit : ProgramState → ProgramState
  /-- events `glfwPollEvents` delivers at the end of the pass, oldest first -/
  events : List Event

/-- One pass of the render loop (the window-title bookkeeping left out). -/
def frame (api : CameraApi) (inp : FrameInput) (s : World × Ctx) : World × Ctx :=
  let w := s.1
  let g := s.2
  let currentFrame : F32 := inp.time.convert binary32
  let w := { w with deltaTime := currentFrame.sub w.lastFrame, lastFrame := currentFrame }
  let w := processInput api inp.getKey w
  let g := glBindFramebuffer Fbo.hdrFBO g
  let g := glClear g
  let g := inp.scene g
  let g := postProcess w.bBloom g
  let w := if w.programState.ImGuiEnabled then
    { w with programState := DrawImGui inp.edit w.programState } else w
  let w := handleEvents api inp.events w
  (w, g)

/-- Framebuffer attachments and draw buffers as the set-up of `main` leaves them; nothing in the
render loop changes them. -/
def Ctx.attachedAsSetup (g : Ctx) : Prop :=
  g.st.attachments = Ctx.afterSetup.st.attachments ∧
    g.st.drawBuffers = Ctx.afterSetup.st.drawBuffers

/-- Whether some `F1` press in `es` opens the overlay, `enabled` being `ImGuiEnabled` before
the first event. -/
def overlayOpened : Bool → List Event → Bool
  | _, [] => false
  | enabled, Event.key k _ a _ :: es =>
    if k = GLFW_KEY_F1 ∧ a = GLFW_PRESS then
      (if enabled then overlayOpened false es else true)
    else overlayOpened enabled es
  | enabled, _ :: es => overlayOpened enabled es

/-- The cursor mode fits the overlay: `NORMAL` while it is shown, `DISABLED` while hidden. -/
def World.CursorFitsOverlay (w : World) : Prop :=
  w.cursorMode = (if w.programState.ImGuiEnabled then GLFW_CURSOR_NORMAL else GLFW_CURSOR_DISABLED)

instance (w : World) : Decidable w.CursorFitsOverlay := by
  unfold World.CursorFitsOverlay; infer_instance

/-- A finite `double` that narrowing to `float` and widening back leaves as it is. -/
def F64.IsFloat (x : F64) : Prop :=
  x.isFinite = true ∧ (x.convert binary32).convert binary64 = x

instance (x : F64) : Decidable (F64.IsFloat x) := by unfold F64.IsFloat; infer_instance

/-- The position `mouse_callback` takes the offsets against: the stored one, or on the first
event the event's own position narrowed to `float`. -/
def World.refX (w : World) (xpos : F64) : F32 :=
  if w.firstMouse then xpos.convert binary32 else w.lastX

def World.refY (w : World) (ypos : F64) : F32 :=
  if w.firstMouse then ypos.convert binary32 else w.lastY

/-- The key tests of `processInput` that move the camera, in program order. -/
def movementKeys : List (Int × Camera_Movement) :=
  [(GLFW_KEY_W, Camera_Movement.FORWARD), (GLFW_KEY_S, Camera_Movement.BACKWARD),
   (GLFW_KEY_A, Camera_Movement.LEFT), (GLFW_KEY_D, Camera_Movement.RIGHT),
   (GLFW_KEY_SPACE, Camera_Movement.UP), (GLFW_KEY_X, Camera_Movement.DOWN)]

/-! ## Concrete data for evaluating runs -/

/-- A concrete camera: at the origin, looking down the negative z axis. -/
def sampleCamera : Camera :=
  { Position := Vec3.splat F32.zero
    Front := { x := F32.zero, y := F32.zero, z := { F32.ofNat 1 with sign := true } }
    Yaw := { F32.ofNat 90 with sign := true }
    Pitch := F32.zero
    Zoom := F32.ofNat 45 }

/-- A concrete point light, all members zero. -/
def sampleLight : PointLight :=
  { position := Vec3.splat F32.zero, ambient := Vec3.splat F32.zero
    diffuse := Vec3.splat F32.zero, specular := Vec3.splat F32.zero
    constant := F32.zero, linear := F32.zero, quadratic := F32.zero }

/-- The state of the globals after a start-up without state file. -/
def sampleWorld : World := startup none sampleCamera sampleLight

/-- The key event of pressing `F1`. -/
def f1Press : Event := Event.key GLFW_KEY_F1 0 GLFW_PRESS 0

/-- The cursor position `(100, 200)`. -/
def sampleX : F64 := Fp.ofRatio binary64 false 100 1

def sampleY : F64 := Fp.ofRatio binary64 false 200 1

/-- The `float` nearest to `n / d`, negated when `neg`. -/
def F32.ofFrac (neg : Bool) (n d : Nat) : F32 := Fp.ofRatio binary32 neg n d

/-- A fresh `ProgramState`. -/
def freshState : ProgramState := ProgramState.new sampleCamera sampleLight

/-- The `float` nearest to one third. -/
def third : F32 := F32.ofFrac false 1 3

/-- A fresh `ProgramState` after the camera moved to `x = 1/3`. -/
def movedState : ProgramState :=
  { freshState with
    camera := { freshState.camera with Position := { freshState.camera.Position with x := third } } }

/-- A fresh `ProgramState` whose backpack was scaled to `2` in the overlay. -/
def scaledState : ProgramState := { freshState with backpackScale := F32.ofNat 2 }

/-- A state with ten different persisted values, each with few decimal digits: clear colour
`(0.5, 0.25, 0.1)`, overlay open, camera at `(1.5, -2, 3)` looking along `(0, 0.6, -0.8)`. -/
def tidyState : ProgramState :=
  { freshState with
    clearColor := { x := F32.ofFrac false 1 2, y := F32.ofFrac false 1 4, z := F32.ofFrac false 1 10 }
    ImGuiEnabled := true
    camera := { freshState.camera with
      Position := { x := F32.ofFrac false 3 2, y := F32.ofFrac true 2 1, z := F32.ofNat 3 }
      Front := { x := F32.zero, y := F32.ofFrac false 3 5, z := F32.ofFrac true 4 5 } } }

/-- Ten field texts written by hand: the flag is field 3, the even ones are `12.5`, the odd
ones `-2e+1`. -/
def sampleTok (i : Nat) : List Char :=
  if i = 3 then ['1'] else if i % 2 = 0 then ['1', '2', '.', '5'] else ['-', '2', 'e', '+', '1']

/-- Separators of different kinds: a blank after the even fields, a line feed and a tab after
the odd ones; nothing after the last field. -/
def sampleSep (i : Nat) : List Char :=
  if i = 9 then [] else if i % 2 = 0 then [' '] else [newline, Char.ofNat 9]

/-- A key table with `H`, `W` and `D` down and every other key up. -/
def keysHWD (key : Int) : Int :=
  if key = GLFW_KEY_H ∨ key = GLFW_KEY_W ∨ key = GLFW_KEY_D then GLFW_PRESS else GLFW_RELEASE

/-- A pass of the render loop at time 1 with `keysHWD`, an empty scene, no edit and no event. -/
def sampleInput : FrameInput :=
  { time := Fp.ofRatio binary64 false 1 1, getKey := keysHWD, scene := fun g => g,
    edit := fun ps => ps, events := [] }

/-- The cursor position `x = 640.1`, which is no `float`. -/
def subPixelX : F64 := Fp.ofRatio binary64 false 6401 10

/-- The cursor position `y = 480`. -/
def centreY : F64 := Fp.ofRatio binary64 false 480 1

/-- An image of `n` components, 4 by 4 pixels. -/
def sampleImage (n : Int) : Image := { width := 4, height := 4, nrComponents := n, pixels := 0 }

/-- An outside in which everything succeeds except the loading of `missing.jpg`; the file
`grey_alpha.png` is an image with two components (grey and alpha), every other file one with
three. -/
def sampleEnv : Env :=
  { windowCreated := true
    gladLoaded := true
    hdrComplete := true
    pingpongComplete := fun _ => true
    stbi_load := fun path =>
      if path = "missing.jpg" then none
      else if path = "grey_alpha.png" then some (sampleImage 2)
      else some (sampleImage 3)
    texName := fun k => k + 1
    getPath := fun path => path }

/-- The sample outside with a skybox face that is missing. -/
def cubemapMissingEnv : Env :=
  { sampleEnv with
    stbi_load := fun path =>
      if path = "resources/textures/skybox/newSkyBox/top.jpg" then none
      else some (sampleImage 3) }

/-- A pass of the render loop in which the user ticks the overlay's "Camera mouse update"
checkbox and then presses `F1`: no key is down at the poll, the edit sets
`CameraMouseMovementUpdateEnabled`, and the one event is the `F1` press. -/
def checkboxInput : FrameInput :=
  { time := Fp.ofRatio binary64 false 1 1, getKey := fun _ => GLFW_RELEASE, scene := fun g => g,
    edit := fun ps => { ps with CameraMouseMovementUpdateEnabled := true },
    events := [f1Press] }

/-- The globals after start-up without state file, an `F1` press (overlay opened), and the pass
`checkboxInput` (checkbox ticked, overlay hidden again). -/
def reopenedWorld : World :=
  (frame CameraApi.inert checkboxInput
    (key_callback GLFW_KEY_F1 0 GLFW_PRESS 0 sampleWorld, Ctx.afterSetup)).1

/-! # Theorems -/

/-! ## Projections of the context operations -/

@[simp] theorem glBindFramebuffer_proj (fbo : Fbo) (g : Ctx) :
    (glBindFramebuffer fbo g).st.framebuffer = fbo ∧
    (glBindFramebuffer fbo g).st.activeTexture = g.st.activeTexture ∧
    (glBindFramebuffer fbo g).st.texture2D = g.st.texture2D ∧
    (glBindFramebuffer fbo g).st.textureCube = g.st.textureCube ∧
    (glBindFramebuffer fbo g).st.program = g.st.program ∧
    (glBindFramebuffer fbo g).st.uniform = g.st.uniform ∧
    (glBindFramebuffer fbo g).st.vertexArray = g.st.vertexArray ∧
    (glBindFramebuffer fbo g).st.attachments = g.st.attachments ∧
    (glBindFramebuffer fbo g).st.drawBuffers = g.st.drawBuffers ∧
    (glBindFramebuffer fbo g).st.depthFunc = g.st.depthFunc ∧
    (glBindFramebuffer fbo g).draws = g.draws ∧
    (glBindFramebuffer fbo g).clears = g.clears :=
  ⟨rfl, rfl, rfl, rfl, rfl, rfl, rfl, rfl, rfl, rfl, rfl, rfl⟩

@[simp] theorem glActiveTexture_proj (k : Nat) (g : Ctx) :
    (glActiveTexture k g).st.framebuffer = g.st.framebuffer ∧
    (glActiveTexture k g).st.activeTexture = k ∧
    (glActiveTexture k g).st.texture2D = g.st.texture2D ∧
    (glActiveTexture k g).st.textureCube = g.st.textureCube ∧
    (glActiveTexture k g).st.program = g.st.program ∧
    (glActiveTexture k g).st.uniform = g.st.uniform ∧
    (glActiveTexture k g).st.vertexArray = g.st.vertexArray ∧
    (glActiveTexture k g).st.attachments = g.st.attachments ∧
    (glActiveTexture k g).st.drawBuffers = g.st.drawBuffers ∧
    (glActiveTexture k g).st.depthFunc = g.st.depthFunc ∧
    (glActiveTexture k g).draws = g.draws ∧
    (glActiveTexture k g).clears = g.clears :=
  ⟨rfl, rfl, rfl, rfl, rfl, rfl, rfl, rfl, rfl, rfl, rfl, rfl⟩

@[simp] theorem glBindTexture2D_proj (t : Tex) (g : Ctx) :
    (glBindTexture2D t g).st.framebuffer = g.st.framebuffer ∧
    (glBindTexture2D t g).st.activeTexture = g.st.activeTexture ∧
    (glBindTexture2D t g).st.texture2D = (fun k => if k = g.st.activeTexture then t else g.st.texture2D k) ∧
    (glBindTexture2D t g).st.textureCube = g.st.textureCube ∧
    (glBindTexture2D t g).st.program = g.st.program ∧
    (glBindTexture2D t g).st.uniform = g.st.uniform ∧
    (glBindTexture2D t g).st.vertexArray = g.st.vertexArray ∧
    (glBindTexture2D t g).st.attachments = g.st.attachments ∧
    (glBindTexture2D t g).st.drawBuffers = g.st.drawBuffers ∧
    (glBindTexture2D t g).st.depthFunc = g.st.depthFunc ∧
    (glBindTexture2D t g).draws = g.draws ∧
    (glBindTexture2D t g).clears = g.clears :=
  ⟨rfl, rfl, rfl, rfl, rfl, rfl, rfl, rfl, rfl, rfl, rfl, rfl⟩

@[simp] theorem glBindTextureCube_proj (t : Tex) (g : Ctx) :
    (glBindTextureCube t g).st.framebuffer = g.st.framebuffer ∧
    (glBindTextureCube t g).st.activeTexture = g.st.activeTexture ∧
    (glBindTextureCube t g).st.texture2D = g.st.texture2D ∧
    (glBindTextureCube t g).st.textureCube = (fun k => if k = g.st.activeTexture then t else g.st.textureCube k) ∧
    (glBindTextureCube t g).st.program = g.st.program ∧
    (glBindTextureCube t g).st.uniform = g.st.uniform ∧
    (glBindTextureCube t g).st.vertexArray = g.st.vertexArray ∧
    (glBindTextureCube t g).st.attachments = g.st.attachments ∧
    (glBindTextureCube t g).st.drawBuffers = g.st.drawBuffers ∧
    (glBindTextureCube t g).st.depthFunc = g.st.depthFunc ∧
    (glBindTextureCube t g).draws = g.draws ∧
    (glBindTextureCube t g).clears = g.clears :=
  ⟨rfl, rfl, rfl, rfl, rfl, rfl, rfl, rfl, rfl, rfl, rfl, rfl⟩

@[simp] theorem glBindVertexArray_proj (v : Vao) (g : Ctx) :
    (glBindVertexArray v g).st.framebuffer = g.st.framebuffer ∧
    (glBindVertexArray v g).st.activeTexture = g.st.activeTexture ∧
    (glBindVertexArray v g).st.texture2D = g.st.texture2D ∧
    (glBindVertexArray v g).st.textureCube = g.st.textureCube ∧
    (glBindVertexArray v g).st.program = g.st.program ∧
    (glBindVertexArray v g).st.uniform = g.st.uniform ∧
    (glBindVertexArray v g).st.vertexArray = v ∧
    (glBindVertexArray v g).st.attachments = g.st.attachments ∧
    (glBindVertexArray v g).st.drawBuffers = g.st.drawBuffers ∧
    (glBindVertexArray v g).st.depthFunc = g.st.depthFunc ∧
    (glBindVertexArray v g).draws = g.draws ∧
    (glBindVertexArray v g).clears = g.clears :=
  ⟨rfl, rfl, rfl, rfl, rfl, rfl, rfl, rfl, rfl, rfl, rfl, rfl⟩

@[simp] theorem glDepthFunc_proj (f : String) (g : Ctx) :
    (glDepthFunc f g).st.framebuffer = g.st.framebuffer ∧
    (glDepthFunc f g).st.activeTexture = g.st.activeTexture ∧
    (glDepthFunc f g).st.texture2D = g.st.texture2D ∧
    (glDepthFunc f g).st.textureCube = g.st.textureCube ∧
    (glDepthFunc f g).st.program = g.st.program ∧
    (glDepthFunc f g).st.uniform = g.st.uniform ∧
    (glDepthFunc f g).st.vertexArray = g.st.vertexArray ∧
    (glDepthFunc f g).st.attachments = g.st.attachments ∧
    (glDepthFunc f g).st.drawBuffers = g.st.drawBuffers ∧
    (glDepthFunc f g).st.depthFunc = f ∧
    (glDepthFunc f g).draws = g.draws ∧
    (glDepthFunc f g).clears = g.clears :=
  ⟨rfl, rfl, rfl, rfl, rfl, rfl, rfl, rfl, rfl, rfl, rfl, rfl⟩

@[simp] theorem glDrawArrays_proj (mode : String) (first count : Nat) (g : Ctx) :
    (glDrawArrays mode first count g).st.framebuffer = g.st.framebuffer ∧
    (glDrawArrays mode first count g).st.activeTexture = g.st.activeTexture ∧
    (glDrawArrays mode first count g).st.texture2D = g.st.texture2D ∧
    (glDrawArrays mode first count g).st.textureCube = g.st.textureCube ∧
    (glDrawArrays mode first count g).st.program = g.st.program ∧
    (glDrawArrays mode first count g).st.uniform = g.st.uniform ∧
    (glDrawArrays mode first count g).st.vertexArray = g.st.vertexArray ∧
    (glDrawArrays mode first count g).st.attachments = g.st.attachments ∧
    (glDrawArrays mode first count g).st.drawBuffers = g.st.drawBuffers ∧
    (glDrawArrays mode first count g).st.depthFunc = g.st.depthFunc ∧
    (glDrawArrays mode first count g).draws = { state := g.st, mode := mode, first := first, count := count } :: g.draws ∧
    (glDrawArrays mode first count g).clears = g.clears :=
  ⟨rfl, rfl, rfl, rfl, rfl, rfl, rfl, rfl, rfl, rfl, rfl, rfl⟩

@[simp] theorem glClear_proj  (g : Ctx) :
    (glClear g).st.framebuffer = g.st.framebuffer ∧
    (glClear g).st.activeTexture = g.st.activeTexture ∧
    (glClear g).st.texture2D = g.st.texture2D ∧
    (glClear g).st.textureCube = g.st.textureCube ∧
    (glClear g).st.program = g.st.program ∧
    (glClear g).st.uniform = g.st.uniform ∧
    (glClear g).st.vertexArray = g.st.vertexArray ∧
    (glClear g).st.attachments = g.st.attachments ∧
    (glClear g).st.drawBuffers = g.st.drawBuffers ∧
    (glClear g).st.depthFunc = g.st.depthFunc ∧
    (glClear g).draws = g.draws ∧
    (glClear g).clears = g.st.framebuffer :: g.clears :=
  ⟨rfl, rfl, rfl, rfl, rfl, rfl, rfl, rfl, rfl, rfl, rfl, rfl⟩

@[simp] theorem Shader_use_proj (sh : Shader) (g : Ctx) :
    (sh.use g).st.framebuffer = g.st.framebuffer ∧
    (sh.use g).st.activeTexture = g.st.activeTexture ∧
    (sh.use g).st.texture2D = g.st.texture2D ∧
    (sh.use g).st.textureCube = g.st.textureCube ∧
    (sh.use g).st.program = some sh ∧
    (sh.use g).st.uniform = g.st.uniform ∧
    (sh.use g).st.vertexArray = g.st.vertexArray ∧
    (sh.use g).st.attachments = g.st.attachments ∧
    (sh.use g).st.drawBuffers = g.st.drawBuffers ∧
    (sh.use g).st.depthFunc = g.st.depthFunc ∧
    (sh.use g).draws = g.draws ∧
    (sh.use g).clears = g.clears :=
  ⟨rfl, rfl, rfl, rfl, rfl, rfl, rfl, rfl, rfl, rfl, rfl, rfl⟩

@[simp] theorem Shader_setUniform_proj (sh : Shader) (name : String) (v : UVal) (g : Ctx) :
    (sh.setUniform name v g).st.framebuffer = g.st.framebuffer ∧
    (sh.setUniform name v g).st.activeTexture = g.st.activeTexture ∧
    (sh.setUniform name v g).st.texture2D = g.st.texture2D ∧
    (sh.setUniform name v g).st.textureCube = g.st.textureCube ∧
    (sh.setUniform name v g).st.program = g.st.program ∧
    (sh.setUniform name v g).st.uniform = (fun p n => if g.st.program = some sh ∧ p = sh ∧ n = name then some v else g.st.uniform p n) ∧
    (sh.setUniform name v g).st.vertexArray = g.st.vertexArray ∧
    (sh.setUniform name v g).st.attachments = g.st.attachments ∧
    (sh.setUniform name v g).st.drawBuffers = g.st.drawBuffers ∧
    (sh.setUniform name v g).st.depthFunc = g.st.depthFunc ∧
    (sh.setUniform name v g).draws = g.draws ∧
    (sh.setUniform name v g).clears = g.clears := by
  unfold Shader.setUniform
  split <;> simp_all



/-! ## The blur ping-pong loop and the composite -/

theorem afterSetup_attachments :
    Ctx.afterSetup.st.attachments =
      [(Fbo.hdrFBO, 0, Tex.colorBuffers 0), (Fbo.hdrFBO, 1, Tex.colorBuffers 1),
       (Fbo.pingpongFBO 0, 0, Tex.pingpongColorbuffers 0),
       (Fbo.pingpongFBO 1, 0, Tex.pingpongColorbuffers 1)] ∧
    Ctx.afterSetup.st.drawBuffers = [(Fbo.hdrFBO, [0, 1])] := by
  decide

theorem attachedAsSetup_afterSetup : Ctx.afterSetup.attachedAsSetup := ⟨rfl, rfl⟩

/-- With the attachments of the set-up, a draw into `pingpongFBO[k]` writes
`pingpongColorbuffers[k]` and nothing else. -/
theorem colorTargets_pingpong (s : GLState)
    (ha : s.attachments = Ctx.afterSetup.st.attachments)
    (hd : s.drawBuffers = Ctx.afterSetup.st.drawBuffers) (k : Nat) (hk : k < 2) :
    s.colorTargets (Fbo.pingpongFBO k) = [Tex.pingpongColorbuffers k] := by
  unfold GLState.colorTargets GLState.drawBuffersOf
  rw [ha, hd, afterSetup_attachments.1, afterSetup_attachments.2]
  interval_cases k <;> decide

/-- With the attachments of the set-up, a draw into the default framebuffer writes no texture. -/
theorem colorTargets_default (s : GLState)
    (ha : s.attachments = Ctx.afterSetup.st.attachments)
    (hd : s.drawBuffers = Ctx.afterSetup.st.drawBuffers) :
    s.colorTargets Fbo.default = [] := by
  unfold GLState.colorTargets GLState.drawBuffersOf
  rw [ha, hd, afterSetup_attachments.1, afterSetup_attachments.2]
  decide

/-- The log after a frame tail is the log before, with the twelve draws of the tail on top. -/
theorem postProcess_draws (b : Bool) (g : Ctx) :
    (postProcess b g).draws = (tailDraws b g).reverse ++ g.draws ∧
      (tailDraws b g).length = 12 := by
  simp [tailDraws, postProcess, skyboxPass, blurStage, blurLoop, blurBody, compositeStage, amount,
    Shader.setInt, Shader.setFloat, GLState.ext_iff]

/-- State in which blur pass `i` draws. -/
theorem blurDraws_get (b : Bool) (g : Ctx) (i : Nat) (hi : i < 10) :
    ∃ d, (blurDraws b g)[i]? = some d ∧
      d.state.program = some Shader.blurShader ∧ d.state.activeTexture = 0 ∧
      d.state.framebuffer = Fbo.pingpongFBO (if i % 2 = 0 then 1 else 0) ∧
      d.state.texture2D 0 = (if i = 0 then Tex.colorBuffers 1
        else Tex.pingpongColorbuffers (if i % 2 = 0 then 0 else 1)) ∧
      d.state.uniform Shader.blurShader "horizontal"
        = some (UVal.int (if i % 2 = 0 then 1 else 0)) ∧
      d.state.attachments = g.st.attachments ∧ d.state.drawBuffers = g.st.drawBuffers := by
  interval_cases i <;>
    simp [blurDraws, tailDraws, postProcess, skyboxPass, blurStage, blurLoop, blurBody,
      compositeStage, amount, Shader.setInt, Shader.setFloat, boolToInt, boolToIdx]

/-- The blur draws are ten, and they are the draws of the frame tail that run `blurShader`. -/
theorem blurDraws_length (b : Bool) (g : Ctx) :
    (blurDraws b g).length = 10 ∧
    (tailDraws b g).filter (fun d => d.state.program = some Shader.blurShader)
      = blurDraws b g := by
  simp [blurDraws, tailDraws, postProcess, skyboxPass, blurStage, blurLoop, blurBody,
    compositeStage, amount, Shader.setInt, Shader.setFloat, List.filter]

/-- State in which the composite draws. -/
theorem compositeDraw_get (b : Bool) (g : Ctx) :
    ∃ d, compositeDraw b g = some d ∧
      d.state.program = some Shader.bloomShader ∧
      d.state.framebuffer = Fbo.default ∧
      d.state.texture2D 0 = Tex.colorBuffers 0 ∧
      d.state.texture2D 1 = Tex.pingpongColorbuffers 0 ∧
      d.state.uniform Shader.bloomShader "bloom" = some (UVal.int (boolToInt b)) ∧
      d.state.uniform Shader.bloomShader "exposure" = some (UVal.floatLit "0.1f") ∧
      d.state.attachments = g.st.attachments ∧ d.state.drawBuffers = g.st.drawBuffers := by
  simp [compositeDraw, tailDraws, postProcess, skyboxPass, blurStage, blurLoop, blurBody,
    compositeStage, amount, Shader.setInt, Shader.setFloat, boolToIdx]

/-- C2, as stated, fails: started from the context the set-up of `main` leaves, the ping-pong
buffer the composite has on texture unit 1 is `pingpongColorbuffers[0]`, and that is the buffer
the tenth and final blur pass writes. -/
theorem composite_samples_buffer_written_by_final_pass :
    (compositeDraw true Ctx.afterSetup).map (fun d => d.sampled 1)
        = some (Tex.pingpongColorbuffers 0) ∧
      ((blurDraws true Ctx.afterSetup)[9]?).map (fun d => d.writes)
        = some [Tex.pingpongColorbuffers 0] ∧
      (blurDraws true Ctx.afterSetup).length = 10 := by
  obtain ⟨d, hd, -, -, -, h1, -⟩ := compositeDraw_get true Ctx.afterSetup
  obtain ⟨e, he, -, -, hf, -, -, ha, hb⟩ := blurDraws_get true Ctx.afterSetup 9 (by decide)
  refine ⟨by rw [hd]; exact congrArg some h1, ?_, (blurDraws_length true Ctx.afterSetup).1⟩
  rw [he]
  refine congrArg some ?_
  show e.state.colorTargets e.state.framebuffer = _
  rw [hf]
  exact colorTargets_pingpong e.state ha hb 0 (by decide)

/-- C2, amended: after the ten iterations the ping-pong buffer the composite samples is the one
the final blur pass wrote; the buffer the final pass left un-written, the one it read, is the
other ping-pong buffer and the composite does not sample it on unit 1. -/
theorem composite_source_parity (bBloom : Bool) (g : Ctx) (hg : g.attachedAsSetup) :
    ∃ dc dl, compositeDraw bBloom g = some dc ∧ (blurDraws bBloom g)[amount - 1]? = some dl ∧
      (blurDraws bBloom g).length = amount ∧
      dl.writes = [dc.sampled 1] ∧
      dl.sampled 0 = Tex.pingpongColorbuffers 1 ∧ dl.sampled 0 ∉ dl.writes ∧
      dc.sampled 1 ≠ dl.sampled 0 := by
  obtain ⟨d, hd, -, -, -, h1, -⟩ := compositeDraw_get bBloom g
  obtain ⟨e, he, -, -, hf, ht, -, ha, hb⟩ := blurDraws_get bBloom g 9 (by decide)
  have hw : e.writes = [Tex.pingpongColorbuffers 0] := by
    unfold Draw.writes
    rw [hf]
    exact colorTargets_pingpong e.state (ha.trans hg.1) (hb.trans hg.2) 0 (by decide)
  have hs : e.sampled 0 = Tex.pingpongColorbuffers 1 := ht
  have hc : d.sampled 1 = Tex.pingpongColorbuffers 0 := h1
  refine ⟨d, e, hd, he, (blurDraws_length bBloom g).1, ?_, hs, ?_, ?_⟩
  · rw [hw, hc]
  · rw [hw, hs]; decide
  · rw [hc, hs]; decide

/-- Witness for C2, amended: the context right after the set-up of `main`. -/
theorem composite_source_parity_witness :
    Ctx.afterSetup.attachedAsSetup ∧
    ∃ dc dl, compositeDraw true Ctx.afterSetup = some dc ∧
      (blurDraws true Ctx.afterSetup)[amount - 1]? = some dl ∧
      (blurDraws true Ctx.afterSetup).length = amount ∧
      dl.writes = [dc.sampled 1] ∧
      dl.sampled 0 = Tex.pingpongColorbuffers 1 ∧ dl.sampled 0 ∉ dl.writes ∧
      dc.sampled 1 ≠ dl.sampled 0 :=
  ⟨attachedAsSetup_afterSetup,
    composite_source_parity true Ctx.afterSetup attachedAsSetup_afterSetup⟩

/-- What is bound at the composite draw of a frame: it runs `bloomShader` with
`colorBuffers[0]` bound on texture unit 0 and, bound on texture unit 1, the ping-pong colour
buffer that the tenth (last) blur pass wrote; it draws into the default framebuffer and so into
no texture. -/
theorem composite_inputs_and_target (bBloom : Bool) (g : Ctx) (hg : g.attachedAsSetup) :
    ∃ dc dl, compositeDraw bBloom g = some dc ∧ (blurDraws bBloom g)[9]? = some dl ∧
      (blurDraws bBloom g).length = 10 ∧
      dc.state.program = some Shader.bloomShader ∧
      dc.sampled 0 = Tex.colorBuffers 0 ∧
      dl.writes = [dc.sampled 1] ∧
      dc.state.framebuffer = Fbo.default ∧ dc.writes = [] := by
  obtain ⟨d, hd, hp, hfb, h0, h1, -, -, ha', hb'⟩ := compositeDraw_get bBloom g
  obtain ⟨e, he, -, -, hf, -, -, ha, hb⟩ := blurDraws_get bBloom g 9 (by decide)
  refine ⟨d, e, hd, he, (blurDraws_length bBloom g).1, hp, h0, ?_, hfb, ?_⟩
  · unfold Draw.writes
    rw [hf]
    have hc : d.sampled 1 = Tex.pingpongColorbuffers 0 := h1
    rw [hc]
    exact colorTargets_pingpong e.state (ha.trans hg.1) (hb.trans hg.2) 0 (by decide)
  · unfold Draw.writes
    rw [hfb]
    exact colorTargets_default d.state (ha'.trans hg.1) (hb'.trans hg.2)

/-- C4: a frame tail issues exactly ten draws with `blurShader`; pass `i` (from 0) has the
uniform `horizontal` at 1 exactly when `i` is even, so the direction alternates starting with
horizontal; and pass `i` has the bright-pass buffer `colorBuffers[1]` bound on the selected
texture unit (unit 0) exactly when `i = 0`. -/
theorem blur_pass_count_and_direction (bBloom : Bool) (g : Ctx) :
    (blurDraws bBloom g).length = 10 ∧
    (tailDraws bBloom g).filter (fun d => d.state.program = some Shader.blurShader)
      = blurDraws bBloom g ∧
    ∀ i, i < 10 → ∃ d, (blurDraws bBloom g)[i]? = some d ∧
      d.state.activeTexture = 0 ∧
      d.uniformOf "horizontal" = some (UVal.int (if i % 2 = 0 then 1 else 0)) ∧
      (d.uniformOf "horizontal" = some (UVal.int 1) ↔ i % 2 = 0) ∧
      (d.sampled 0 = Tex.colorBuffers 1 ↔ i = 0) := by
  refine ⟨(blurDraws_length bBloom g).1, (blurDraws_length bBloom g).2, ?_⟩
  intro i hi
  obtain ⟨d, hd, hp, hat, -, ht, hu, -, -⟩ := blurDraws_get bBloom g i hi
  have hu' : d.uniformOf "horizontal" = some (UVal.int (if i % 2 = 0 then 1 else 0)) := by
    unfold Draw.uniformOf
    rw [hp]
    exact hu
  refine ⟨d, hd, hat, hu', ?_, ?_⟩
  · rw [hu']
    by_cases h : i % 2 = 0 <;> simp [h]
  · unfold Draw.sampled
    rw [ht]
    by_cases h : i = 0 <;> simp [h]

/-- Witness for C4: the third pass (`i = 2`) of a frame started right after the set-up. -/
theorem blur_pass_count_and_direction_witness :
    ∃ d, (blurDraws true Ctx.afterSetup)[2]? = some d ∧
      d.state.activeTexture = 0 ∧
      d.uniformOf "horizontal" = some (UVal.int (if 2 % 2 = 0 then 1 else 0)) ∧
      (d.uniformOf "horizontal" = some (UVal.int 1) ↔ 2 % 2 = 0) ∧
      (d.sampled 0 = Tex.colorBuffers 1 ↔ 2 = 0) :=
  (blur_pass_count_and_direction true Ctx.afterSetup).2.2 2 (by decide)

/-- C5: in every blur pass the texture read (bound on unit 0) is not among the textures
written, each pass writes one ping-pong buffer, and every pass after the first reads exactly
the buffer the pass before it wrote. -/
theorem blur_pingpong_alternation (bBloom : Bool) (g : Ctx) (hg : g.attachedAsSetup) :
    (∀ i, i < 10 → ∃ d k, (blurDraws bBloom g)[i]? = some d ∧ k < 2 ∧
      d.writes = [Tex.pingpongColorbuffers k] ∧ d.sampled 0 ∉ d.writes) ∧
    (∀ i, 0 < i → i < 10 → ∃ dp d, (blurDraws bBloom g)[i - 1]? = some dp ∧
      (blurDraws bBloom g)[i]? = some d ∧ dp.writes = [d.sampled 0]) := by
  have key : ∀ i, i < 10 → ∃ d, (blurDraws bBloom g)[i]? = some d ∧
      d.writes = [Tex.pingpongColorbuffers (if i % 2 = 0 then 1 else 0)] ∧
      d.sampled 0 = (if i = 0 then Tex.colorBuffers 1
        else Tex.pingpongColorbuffers (if i % 2 = 0 then 0 else 1)) := by
    intro i hi
    obtain ⟨d, hd, -, -, hf, ht, -, ha, hb⟩ := blurDraws_get bBloom g i hi
    refine ⟨d, hd, ?_, ht⟩
    unfold Draw.writes
    rw [hf]
    exact colorTargets_pingpong d.state (ha.trans hg.1) (hb.trans hg.2) _
      (by split <;> decide)
  constructor
  · intro i hi
    obtain ⟨d, hd, hw, hs⟩ := key i hi
    refine ⟨d, _, hd, ?_, hw, ?_⟩
    · split <;> decide
    · rw [hw, hs]
      by_cases h0 : i = 0
      · simp [h0]
      · by_cases h2 : i % 2 = 0 <;> simp [h0, h2]
  · intro i h0 hi
    obtain ⟨dp, hdp, hwp, -⟩ := key (i - 1) (by omega)
    obtain ⟨d, hd, -, hs⟩ := key i hi
    refine ⟨dp, d, hdp, hd, ?_⟩
    have hne : i ≠ 0 := by omega
    rw [hwp, hs]
    by_cases h2 : i % 2 = 0
    · have : (i - 1) % 2 ≠ 0 := by omega
      simp [h2, this, hne]
    · have : (i - 1) % 2 = 0 := by omega
      simp [h2, this, hne]

/-- Witness for C5: a frame started right after the set-up of `main`. -/
theorem blur_pingpong_alternation_witness :
    Ctx.afterSetup.attachedAsSetup ∧
    (∃ dp d, (blurDraws true Ctx.afterSetup)[1 - 1]? = some dp ∧
      (blurDraws true Ctx.afterSetup)[1]? = some d ∧ dp.writes = [d.sampled 0]) :=
  ⟨attachedAsSetup_afterSetup,
    (blur_pingpong_alternation true Ctx.afterSetup attachedAsSetup_afterSetup).2 1
      (by decide) (by decide)⟩

/-! ## Input handlers and the frame -/

@[simp] theorem callCamera_proj (api : CameraApi) (c : CameraCall) (w : World) :
    (w.callCamera api c).bBloom = w.bBloom ∧
    (w.callCamera api c).cursorMode = w.cursorMode ∧
    (w.callCamera api c).shouldClose = w.shouldClose ∧
    (w.callCamera api c).deltaTime = w.deltaTime ∧
    (w.callCamera api c).programState.ImGuiEnabled = w.programState.ImGuiEnabled ∧
    (w.callCamera api c).programState.CameraMouseMovementUpdateEnabled
      = w.programState.CameraMouseMovementUpdateEnabled ∧
    (w.callCamera api c).cameraCalls = w.cameraCalls ++ [c] :=
  ⟨rfl, rfl, rfl, rfl, rfl, rfl, rfl⟩

@[simp] theorem keyMove_proj (api : CameraApi) (getKey : Int → Int) (key : Int)
    (direction : Camera_Movement) (w : World) :
    (w.keyMove api getKey key direction).bBloom = w.bBloom ∧
    (w.keyMove api getKey key direction).cursorMode = w.cursorMode ∧
    (w.keyMove api getKey key direction).shouldClose = w.shouldClose ∧
    (w.keyMove api getKey key direction).deltaTime = w.deltaTime ∧
    (w.keyMove api getKey key direction).programState.ImGuiEnabled
      = w.programState.ImGuiEnabled ∧
    (w.keyMove api getKey key direction).programState.CameraMouseMovementUpdateEnabled
      = w.programState.CameraMouseMovementUpdateEnabled := by
  unfold World.keyMove
  split <;> simp

/-- `processInput` flips `bBloom` when `H` is reported pressed and leaves it otherwise. -/
theorem processInput_bBloom (api : CameraApi) (getKey : Int → Int) (w : World) :
    (processInput api getKey w).bBloom
      = (if getKey GLFW_KEY_H = GLFW_PRESS then !w.bBloom else w.bBloom) := by
  have hE : (if getKey GLFW_KEY_ESCAPE = GLFW_PRESS then { w with shouldClose := true }
      else w).bBloom = w.bBloom := by split <;> rfl
  have key : ∀ w1 : World,
      (if getKey GLFW_KEY_H = GLFW_PRESS then
        (if w1.bBloom then { w1 with bBloom := false } else { w1 with bBloom := true })
       else w1).bBloom = (if getKey GLFW_KEY_H = GLFW_PRESS then !w1.bBloom else w1.bBloom) := by
    intro w1
    by_cases hH : getKey GLFW_KEY_H = GLFW_PRESS <;> cases hb : w1.bBloom <;> simp [hH, hb]
  refine (key _).trans ?_
  simp only [keyMove_proj, hE]

/-- What `key_callback` does to the three members it can write. -/
theorem key_callback_proj (key scancode action mods : Int) (w : World) :
    (key_callback key scancode action mods w).bBloom = w.bBloom ∧
    (key_callback key scancode action mods w).cameraCalls = w.cameraCalls ∧
    (key_callback key scancode action mods w).programState.ImGuiEnabled
      = (if key = GLFW_KEY_F1 ∧ action = GLFW_PRESS then !w.programState.ImGuiEnabled
         else w.programState.ImGuiEnabled) ∧
    (key_callback key scancode action mods w).programState.CameraMouseMovementUpdateEnabled
      = (if key = GLFW_KEY_F1 ∧ action = GLFW_PRESS ∧ w.programState.ImGuiEnabled = false
         then false else w.programState.CameraMouseMovementUpdateEnabled) ∧
    (key_callback key scancode action mods w).cursorMode
      = (if key = GLFW_KEY_F1 ∧ action = GLFW_PRESS then
          (if w.programState.ImGuiEnabled then GLFW_CURSOR_DISABLED else GLFW_CURSOR_NORMAL)
         else w.cursorMode) := by
  unfold key_callback World.setCursorMode
  by_cases h : key = GLFW_KEY_F1 ∧ action = GLFW_PRESS
  · cases hE : w.programState.ImGuiEnabled <;> simp [h, hE]
  · have h' : ¬ (key = GLFW_KEY_F1 ∧ action = GLFW_PRESS ∧ w.programState.ImGuiEnabled = false) :=
      fun hh => h ⟨hh.1, hh.2.1⟩
    simp only [h, h', if_false, and_self]

/-- What `mouse_callback` does to the members the overlay logic reads, and to the call record. -/
theorem mouse_callback_proj (api : CameraApi) (xpos ypos : F64) (w : World) :
    (mouse_callback api xpos ypos w).bBloom = w.bBloom ∧
    (mouse_callback api xpos ypos w).programState.ImGuiEnabled = w.programState.ImGuiEnabled ∧
    (mouse_callback api xpos ypos w).programState.CameraMouseMovementUpdateEnabled
      = w.programState.CameraMouseMovementUpdateEnabled ∧
    (mouse_callback api xpos ypos w).cursorMode = w.cursorMode ∧
    (if w.programState.CameraMouseMovementUpdateEnabled then
      ∃ xoffset yoffset, (mouse_callback api xpos ypos w).cameraCalls
        = w.cameraCalls ++ [CameraCall.ProcessMouseMovement xoffset yoffset]
     else (mouse_callback api xpos ypos w).cameraCalls = w.cameraCalls) := by
  unfold mouse_callback
  cases hF : w.firstMouse <;> cases hC : w.programState.CameraMouseMovementUpdateEnabled <;>
    simp [hF, hC]

theorem scroll_callback_proj (api : CameraApi) (xoffset yoffset : F64) (w : World) :
    (scroll_callback api xoffset yoffset w).bBloom = w.bBloom ∧
    (scroll_callback api xoffset yoffset w).programState.ImGuiEnabled
      = w.programState.ImGuiEnabled ∧
    (scroll_callback api xoffset yoffset w).programState.CameraMouseMovementUpdateEnabled
      = w.programState.CameraMouseMovementUpdateEnabled ∧
    (scroll_callback api xoffset yoffset w).cursorMode = w.cursorMode :=
  ⟨rfl, rfl, rfl, rfl⟩

/-- No callback writes `bBloom`. -/
theorem handleEvents_bBloom (api : CameraApi) (es : List Event) (w : World) :
    (handleEvents api es w).bBloom = w.bBloom := by
  induction es generalizing w with
  | nil => rfl
  | cons e es ih =>
    show (handleEvents api es (e.handle api w)).bBloom = w.bBloom
    rw [ih]
    cases e with
    | key k s a m => exact (key_callback_proj k s a m w).1
    | cursorPos x y => exact (mouse_callback_proj api x y w).1
    | scroll x y => rfl

/-- After a sequence of events `CameraMouseMovementUpdateEnabled` is still set exactly when it
was set before and no `F1` press of the sequence opened the overlay. -/
theorem handleEvents_mouseUpdate (api : CameraApi) (es : List Event) (w : World) :
    (handleEvents api es w).programState.CameraMouseMovementUpdateEnabled
      = (w.programState.CameraMouseMovementUpdateEnabled &&
          !overlayOpened w.programState.ImGuiEnabled es) := by
  induction es generalizing w with
  | nil => simp [handleEvents, overlayOpened]
  | cons e es ih =>
    show (handleEvents api es (e.handle api w)).programState.CameraMouseMovementUpdateEnabled = _
    rw [ih]
    cases e with
    | key k s a m =>
      obtain ⟨-, -, h1, h2, -⟩ := key_callback_proj k s a m w
      simp only [Event.handle, h1, h2, overlayOpened]
      by_cases h : k = GLFW_KEY_F1 ∧ a = GLFW_PRESS
      · cases hE : w.programState.ImGuiEnabled <;> simp [h, hE]
      · have h' : ¬ (k = GLFW_KEY_F1 ∧ a = GLFW_PRESS ∧ w.programState.ImGuiEnabled = false) :=
          fun hh => h ⟨hh.1, hh.2.1⟩
        simp only [h, h', if_false]
    | cursorPos x y =>
      obtain ⟨-, h1, h2, -⟩ := mouse_callback_proj api x y w
      simp only [Event.handle, h1, h2, overlayOpened]
    | scroll x y => rfl

/-- `LoadFromFile` writes neither `CameraMouseMovementUpdateEnabled` nor the backpack and light
members. -/
theorem LoadFromFile_frame (file : Option (List Char)) (s : ProgramState) :
    (s.LoadFromFile file).CameraMouseMovementUpdateEnabled = s.CameraMouseMovementUpdateEnabled ∧
    (s.LoadFromFile file).backpackPosition = s.backpackPosition ∧
    (s.LoadFromFile file).backpackScale = s.backpackScale ∧
    (s.LoadFromFile file).pointLight = s.pointLight := by
  cases file <;> exact ⟨rfl, rfl, rfl, rfl⟩

/-- The program state at start-up is the constructed one after `LoadFromFile`. -/
theorem startup_programState (file : Option (List Char)) (camera : Camera)
    (pointLight : PointLight) :
    (startup file camera pointLight).programState
      = (ProgramState.new camera pointLight).LoadFromFile file := by
  unfold startup
  by_cases h : ((ProgramState.new camera pointLight).LoadFromFile file).ImGuiEnabled = true
  · exact (if_pos h).symm ▸ rfl
  · exact (if_neg h).symm ▸ rfl

/-- At start-up mouse movement is enabled, whatever the state file holds. -/
theorem startup_mouseUpdate (file : Option (List Char)) (camera : Camera)
    (pointLight : PointLight) :
    (startup file camera pointLight).programState.CameraMouseMovementUpdateEnabled = true := by
  rw [startup_programState]
  exact (LoadFromFile_frame file _).1

/-- The newest draw in the log after a frame tail is its composite draw. -/
theorem postProcess_head (b : Bool) (g : Ctx) :
    (postProcess b g).draws.head? = compositeDraw b g := by
  obtain ⟨h1, h2⟩ := postProcess_draws b g
  have hne : (tailDraws b g).reverse ≠ [] := by
    intro h
    have h0 : (tailDraws b g).length = 0 := by
      rw [← List.length_reverse, h]
      rfl
    omega
  rw [h1, List.head?_append_of_ne_nil _ hne, List.head?_reverse]
  rfl

/-- C6: in every pass of the render loop the composite draw (the newest draw of the pass) runs
`bloomShader` with the uniform `bloom` equal to the current `bBloom`, that is `bBloom` as
`processInput` of this pass left it (flipped when `H` is down, unchanged otherwise; nothing
later in the pass writes it): `0` while bloom is off and `1` while it is on. -/
theorem composite_bloom_flag (api : CameraApi) (inp : FrameInput) (w : World) (g : Ctx) :
    (frame api inp (w, g)).1.bBloom
      = (if inp.getKey GLFW_KEY_H = GLFW_PRESS then !w.bBloom else w.bBloom) ∧
    ∃ d, (frame api inp (w, g)).2.draws.head? = some d ∧
      d.state.program = some Shader.bloomShader ∧
      d.uniformOf "bloom" = some (UVal.int (boolToInt (frame api inp (w, g)).1.bBloom)) ∧
      (d.uniformOf "bloom" = some (UVal.int 0) ↔ (frame api inp (w, g)).1.bBloom = false) ∧
      (d.uniformOf "bloom" = some (UVal.int 1) ↔ (frame api inp (w, g)).1.bBloom = true) := by
  have hb : (frame api inp (w, g)).1.bBloom
      = (processInput api inp.getKey
          { w with deltaTime := (inp.time.convert binary32).sub w.lastFrame,
                   lastFrame := inp.time.convert binary32 }).bBloom := by
    unfold frame
    simp only []
    rw [handleEvents_bBloom]
    split <;> rfl
  refine ⟨hb.trans (processInput_bBloom api inp.getKey _), ?_⟩
  have hd : (frame api inp (w, g)).2.draws.head?
      = compositeDraw (processInput api inp.getKey
          { w with deltaTime := (inp.time.convert binary32).sub w.lastFrame,
                   lastFrame := inp.time.convert binary32 }).bBloom
          (inp.scene (glClear (glBindFramebuffer Fbo.hdrFBO g))) :=
    postProcess_head _ _
  obtain ⟨d, hc, hp, -, -, -, hu, -⟩ := compositeDraw_get (processInput api inp.getKey
      { w with deltaTime := (inp.time.convert binary32).sub w.lastFrame,
               lastFrame := inp.time.convert binary32 }).bBloom
      (inp.scene (glClear (glBindFramebuffer Fbo.hdrFBO g)))
  have hu' : d.uniformOf "bloom"
      = some (UVal.int (boolToInt (frame api inp (w, g)).1.bBloom)) := by
    unfold Draw.uniformOf
    rw [hp, hb]
    exact hu
  refine ⟨d, hd.trans hc, hp, hu', ?_, ?_⟩
  · rw [hu']
    cases (frame api inp (w, g)).1.bBloom <;> simp [boolToInt]
  · rw [hu']
    cases (frame api inp (w, g)).1.bBloom <;> simp [boolToInt]

/-- C10: `key_callback` on `F1` with action `PRESS` negates `ImGuiEnabled` and sets the cursor
mode to `NORMAL` when the new value is true and to `DISABLED` when it is false; on any other key
or action it leaves the whole state as it was, `ImGuiEnabled`,
`CameraMouseMovementUpdateEnabled` and the cursor mode included. -/
theorem key_callback_F1 (key scancode action mods : Int) (w : World) :
    (key = GLFW_KEY_F1 ∧ action = GLFW_PRESS →
      (key_callback key scancode action mods w).programState.ImGuiEnabled
        = !w.programState.ImGuiEnabled ∧
      (key_callback key scancode action mods w).cursorMode
        = (if (key_callback key scancode action mods w).programState.ImGuiEnabled
           then GLFW_CURSOR_NORMAL else GLFW_CURSOR_DISABLED)) ∧
    (¬ (key = GLFW_KEY_F1 ∧ action = GLFW_PRESS) →
      key_callback key scancode action mods w = w ∧
      (key_callback key scancode action mods w).programState.ImGuiEnabled
        = w.programState.ImGuiEnabled ∧
      (key_callback key scancode action mods w).programState.CameraMouseMovementUpdateEnabled
        = w.programState.CameraMouseMovementUpdateEnabled ∧
      (key_callback key scancode action mods w).cursorMode = w.cursorMode) := by
  constructor
  · intro h
    obtain ⟨-, -, h1, -, h3⟩ := key_callback_proj key scancode action mods w
    rw [h1, h3, if_pos h, if_pos h]
    cases w.programState.ImGuiEnabled <;> simp
  · intro h
    have : key_callback key scancode action mods w = w := by
      unfold key_callback
      rw [if_neg h]
    rw [this]
    exact ⟨rfl, rfl, rfl, rfl⟩


/-- Witness for C10: `F1` pressed in the state after a start-up without state file opens the
overlay and frees the cursor; releasing `F1` changes nothing. -/
theorem key_callback_F1_witness :
    ((key_callback GLFW_KEY_F1 0 GLFW_PRESS 0 sampleWorld).programState.ImGuiEnabled
        = !sampleWorld.programState.ImGuiEnabled ∧
      (key_callback GLFW_KEY_F1 0 GLFW_PRESS 0 sampleWorld).cursorMode
        = (if (key_callback GLFW_KEY_F1 0 GLFW_PRESS 0 sampleWorld).programState.ImGuiEnabled
           then GLFW_CURSOR_NORMAL else GLFW_CURSOR_DISABLED)) ∧
    (key_callback GLFW_KEY_F1 0 GLFW_RELEASE 0 sampleWorld = sampleWorld ∧
      (key_callback GLFW_KEY_F1 0 GLFW_RELEASE 0 sampleWorld).programState.ImGuiEnabled
        = sampleWorld.programState.ImGuiEnabled ∧
      (key_callback GLFW_KEY_F1 0 GLFW_RELEASE 0 sampleWorld).programState.CameraMouseMovementUpdateEnabled
        = sampleWorld.programState.CameraMouseMovementUpdateEnabled ∧
      (key_callback GLFW_KEY_F1 0 GLFW_RELEASE 0 sampleWorld).cursorMode
        = sampleWorld.cursorMode) :=
  ⟨(key_callback_F1 GLFW_KEY_F1 0 GLFW_PRESS 0 sampleWorld).1 ⟨rfl, rfl⟩,
   (key_callback_F1 GLFW_KEY_F1 0 GLFW_RELEASE 0 sampleWorld).2 (by decide)⟩

/-- C9, as stated, fails: start without state file, press `F1` twice (overlay opened, then
hidden again); the overlay is hidden, and a mouse move at `(100, 200)` issues no camera call. -/
theorem mouse_not_forwarded_after_overlay_closed :
    (handleEvents CameraApi.inert [f1Press, f1Press] sampleWorld).programState.ImGuiEnabled
      = false ∧
    (mouse_callback CameraApi.inert sampleX sampleY
        (handleEvents CameraApi.inert [f1Press, f1Press] sampleWorld)).cameraCalls
      = (handleEvents CameraApi.inert [f1Press, f1Press] sampleWorld).cameraCalls ∧
    (handleEvents CameraApi.inert [f1Press, f1Press] sampleWorld).cameraCalls = [] := by
  decide

/-! ## Arithmetic of the conversions -/

theorem log10Floor_spec (fuel n : Nat) (hf : n ≤ fuel) (hn : 0 < n) :
    10 ^ log10Floor fuel n ≤ n ∧ n < 10 ^ (log10Floor fuel n + 1) := by
  induction fuel generalizing n with
  | zero => omega
  | succ fuel ih =>
    unfold log10Floor
    by_cases h : n < 10
    · simp only [h, if_true]
      omega
    · simp only [h, if_false]
      have h10 : 10 ≤ n := by omega
      have hd : 0 < n / 10 := Nat.div_pos h10 (by decide)
      have hle : n / 10 ≤ fuel := by omega
      obtain ⟨h1, h2⟩ := ih (n / 10) hle hd
      constructor
      · calc 10 ^ (log10Floor fuel (n / 10) + 1) = 10 ^ log10Floor fuel (n / 10) * 10 := by
              rw [pow_succ]
          _ ≤ n / 10 * 10 := Nat.mul_le_mul_right 10 h1
          _ ≤ n := Nat.div_mul_le_self n 10
      · have : n / 10 + 1 ≤ 10 ^ (log10Floor fuel (n / 10) + 1) := h2
        calc n < (n / 10 + 1) * 10 := by omega
          _ ≤ 10 ^ (log10Floor fuel (n / 10) + 1) * 10 := Nat.mul_le_mul_right 10 this
          _ = 10 ^ (log10Floor fuel (n / 10) + 1 + 1) := (pow_succ _ _).symm

theorem log2Floor_spec (fuel n : Nat) (hf : n ≤ fuel) (hn : 0 < n) :
    2 ^ log2Floor fuel n ≤ n ∧ n < 2 ^ (log2Floor fuel n + 1) := by
  induction fuel generalizing n with
  | zero => omega
  | succ fuel ih =>
    unfold log2Floor
    by_cases h : n < 2
    · simp only [h, if_true]
      omega
    · simp only [h, if_false]
      have h2 : 2 ≤ n := by omega
      have hd : 0 < n / 2 := Nat.div_pos h2 (by decide)
      have hle : n / 2 ≤ fuel := by omega
      obtain ⟨h1, h3⟩ := ih (n / 2) hle hd
      constructor
      · calc 2 ^ (log2Floor fuel (n / 2) + 1) = 2 ^ log2Floor fuel (n / 2) * 2 := by
              rw [pow_succ]
          _ ≤ n / 2 * 2 := Nat.mul_le_mul_right 2 h1
          _ ≤ n := Nat.div_mul_le_self n 2
      · have : n / 2 + 1 ≤ 2 ^ (log2Floor fuel (n / 2) + 1) := h3
        calc n < (n / 2 + 1) * 2 := by omega
          _ ≤ 2 ^ (log2Floor fuel (n / 2) + 1) * 2 := Nat.mul_le_mul_right 2 this
          _ = 2 ^ (log2Floor fuel (n / 2) + 1 + 1) := (pow_succ _ _).symm

theorem negDecExp_spec (fuel num den : Nat) (hf : den ≤ num * 10 ^ fuel) :
    den ≤ num * 10 ^ negDecExp fuel num den ∧
      (negDecExp fuel num den = 0 → den ≤ num) ∧
      (0 < negDecExp fuel num den → num * 10 ^ (negDecExp fuel num den - 1) < den) := by
  induction fuel generalizing num with
  | zero =>
    simp only [negDecExp, pow_zero, mul_one] at hf ⊢
    exact ⟨hf, fun _ => hf, fun h => absurd h (by decide)⟩
  | succ fuel ih =>
    unfold negDecExp
    by_cases h : den ≤ num
    · rw [if_pos h]
      exact ⟨by simpa using h, fun _ => h, fun h0 => absurd h0 (by decide)⟩
    · simp only [h, if_false]
      have hf' : den ≤ num * 10 * 10 ^ fuel := by
        rw [pow_succ] at hf
        calc den ≤ num * (10 ^ fuel * 10) := hf
          _ = num * 10 * 10 ^ fuel := by ring
      obtain ⟨h1, h2, h3⟩ := ih (num * 10) hf'
      refine ⟨?_, fun h0 => absurd h0 (by omega), fun _ => ?_⟩
      · calc den ≤ num * 10 * 10 ^ negDecExp fuel (num * 10) den := h1
          _ = num * 10 ^ (negDecExp fuel (num * 10) den + 1) := by rw [pow_succ]; ring
      · by_cases hk : negDecExp fuel (num * 10) den = 0
        · rw [hk]
          simp only [zero_add, Nat.sub_self, pow_zero, mul_one]
          omega
        · have := h3 (Nat.pos_of_ne_zero hk)
          have e : negDecExp fuel (num * 10) den + 1 - 1
              = (negDecExp fuel (num * 10) den - 1) + 1 := by omega
          rw [e, pow_succ]
          calc num * (10 ^ (negDecExp fuel (num * 10) den - 1) * 10)
              = num * 10 * 10 ^ (negDecExp fuel (num * 10) den - 1) := by ring
            _ < den := this

/-- Rounding to nearest stays between integer bounds of the quotient. -/
theorem divRoundEven_bounds (num den a b : Nat) (hd : 0 < den) (ha : a * den ≤ num)
    (hb : num ≤ b * den) : a ≤ divRoundEven num den ∧ divRoundEven num den ≤ b := by
  have hq : a ≤ num / den := (Nat.le_div_iff_mul_le hd).2 ha
  have hmod := Nat.mod_lt num hd
  have hdm := Nat.div_add_mod num den
  unfold divRoundEven
  simp only []
  have hqb : num / den ≤ b := by
    calc num / den ≤ b * den / den := Nat.div_le_div_right hb
      _ = b := Nat.mul_div_cancel b hd
  have hlt : 0 < num % den → num / den < b := by
    intro hpos
    by_contra hge
    have hbq : b ≤ num / den := by omega
    have : b * den ≤ den * (num / den) := by
      rw [Nat.mul_comm den]
      exact Nat.mul_le_mul_right den hbq
    omega
  split
  · exact ⟨hq, hqb⟩
  · split
    · have := hlt (by omega)
      omega
    · split
      · exact ⟨hq, hqb⟩
      · have : 0 < num % den := by
          by_contra h0
          have : num % den = 0 := by omega
          omega
        have := hlt this
        omega

/-- A quotient strictly below `b + 1/2` rounds to at most `b`. -/
theorem divRoundEven_le_of_lt_half (num den b : Nat) (hd : 0 < den)
    (h : 2 * num < (2 * b + 1) * den) : divRoundEven num den ≤ b := by
  have hdm := Nat.div_add_mod num den
  have hmod := Nat.mod_lt num hd
  have hq : num / den ≤ b := by
    by_contra hge
    have hbq : b + 1 ≤ num / den := by omega
    have h1 : (b + 1) * den ≤ den * (num / den) := by
      rw [Nat.mul_comm den]
      exact Nat.mul_le_mul_right den hbq
    have h2 : (2 * b + 1) * den ≤ 2 * ((b + 1) * den) := by nlinarith
    omega
  unfold divRoundEven
  simp only []
  split
  · exact hq
  · have hlt : num / den < b := by
      by_contra hge
      have hbq : num / den = b := by omega
      have h3 : 2 * (den * b) + 2 * (num % den) < (2 * b + 1) * den := by
        rw [← hbq] at h ⊢
        calc 2 * (den * (num / den)) + 2 * (num % den) = 2 * num := by omega
          _ < (2 * (num / den) + 1) * den := h
      have : (2 * b + 1) * den = 2 * (den * b) + den := by ring
      omega
    split
    · omega
    · split
      · exact hq
      · omega

/-! ## Digit strings -/

theorem digitChar_spec : ∀ d, d < 10 →
    isDigitC (digitChar d) = true ∧ digitVal (digitChar d) = d ∧
      (digitChar d = digitChar 0 ↔ d = 0) := by
  decide

/-- A digit is none of the other characters the scanners look for, and no white space. -/
theorem isDigitC_ne (c : Char) (h : isDigitC c = true) :
    c ≠ '.' ∧ c ≠ 'e' ∧ c ≠ 'E' ∧ c ≠ '+' ∧ c ≠ '-' ∧ isSpaceC c = false := by
  refine ⟨?_, ?_, ?_, ?_, ?_, ?_⟩
  · rintro rfl; revert h; decide
  · rintro rfl; revert h; decide
  · rintro rfl; revert h; decide
  · rintro rfl; revert h; decide
  · rintro rfl; revert h; decide
  · simp only [isDigitC, isSpaceC, decide_eq_true_eq, decide_eq_false_iff_not] at h ⊢
    omega

theorem fixedDigits_length (k n : Nat) : (fixedDigits k n).length = k := by
  induction k generalizing n with
  | zero => rfl
  | succ k ih => simp [fixedDigits, ih]

theorem fixedDigits_digits (k n : Nat) : ∀ c ∈ fixedDigits k n, isDigitC c = true := by
  induction k generalizing n with
  | zero => intro c hc; cases hc
  | succ k ih =>
    intro c hc
    simp only [fixedDigits, List.mem_append, List.mem_singleton] at hc
    rcases hc with hc | rfl
    · exact ih _ c hc
    · exact (digitChar_spec (n % 10) (Nat.mod_lt n (by decide))).1

theorem digitsToNat_append (a b : List Char) :
    digitsToNat (a ++ b) = digitsToNat a * 10 ^ b.length + digitsToNat b := by
  unfold digitsToNat
  rw [List.foldl_append]
  generalize List.foldl (fun acc c => 10 * acc + digitVal c) 0 a = m
  induction b generalizing m with
  | nil => simp
  | cons c b ih =>
    simp only [List.foldl_cons, List.length_cons]
    rw [ih (10 * m + digitVal c), ih (10 * 0 + digitVal c)]
    rw [pow_succ]
    ring

theorem digitsToNat_fixedDigits (k n : Nat) : digitsToNat (fixedDigits k n) = n % 10 ^ k := by
  induction k generalizing n with
  | zero => simp [fixedDigits, digitsToNat, Nat.mod_one]
  | succ k ih =>
    simp only [fixedDigits]
    rw [digitsToNat_append, ih]
    have hd : digitsToNat [digitChar (n % 10)] = n % 10 := by
      simp only [digitsToNat, List.foldl_cons, List.foldl_nil]
      rw [(digitChar_spec (n % 10) (Nat.mod_lt n (by decide))).2.1]
      omega
    rw [hd]
    simp only [List.length_singleton, pow_one]
    rw [pow_succ, Nat.mul_comm (10 ^ k) 10, Nat.mod_mul]
    ring

theorem digitsToNat_replicate_zero (z : Nat) :
    digitsToNat (List.replicate z (digitChar 0)) = 0 := by
  induction z with
  | zero => rfl
  | succ z ih =>
    rw [List.replicate_succ']
    rw [digitsToNat_append, ih]
    rfl

/-- What `stripZeros` removes is a run of zeros at the end. -/
theorem stripZeros_spec (ds : List Char) :
    ∃ z, ds = stripZeros ds ++ List.replicate z (digitChar 0) ∧
      stripZeros ds = ds.take (ds.length - z) := by
  unfold stripZeros
  induction ds using List.reverseRecOn with
  | nil => exact ⟨0, rfl, rfl⟩
  | append_singleton l c ih =>
    rw [List.reverse_append, List.reverse_singleton, List.singleton_append]
    by_cases hc : c = digitChar 0
    · subst hc
      obtain ⟨z, hz, hz2⟩ := ih
      refine ⟨z + 1, ?_, ?_⟩
      · simp only [List.dropWhile_cons, decide_True, if_true]
        rw [List.replicate_succ', ← List.append_assoc, ← hz]
      · simp only [List.dropWhile_cons, decide_True, if_true]
        rw [hz2]
        have : (l ++ [digitChar 0]).length - (z + 1) = l.length - z := by simp
        rw [this]
        have hle : l.length - z ≤ l.length := Nat.sub_le _ _
        rw [List.take_append_of_le_length hle]
    · refine ⟨0, ?_, ?_⟩
      · simp [List.dropWhile_cons, hc]
      · simp [List.dropWhile_cons, hc]

theorem stripZeros_digits (ds : List Char) (h : ∀ c ∈ ds, isDigitC c = true) :
    ∀ c ∈ stripZeros ds, isDigitC c = true := by
  obtain ⟨z, -, hz⟩ := stripZeros_spec ds
  intro c hc
  rw [hz] at hc
  exact h c (List.mem_of_mem_take hc)

theorem digitsToNat_stripZeros (ds : List Char) :
    ∃ z, digitsToNat ds = digitsToNat (stripZeros ds) * 10 ^ z ∧
      (stripZeros ds).length + z = ds.length := by
  obtain ⟨z, hz, -⟩ := stripZeros_spec ds
  refine ⟨z, ?_, ?_⟩
  · conv_lhs => rw [hz]
    rw [digitsToNat_append, digitsToNat_replicate_zero, List.length_replicate, Nat.add_zero]
  · conv_rhs => rw [hz]
    simp

/-- A digit string that starts with a digit other than `0` keeps that digit under
`stripZeros`. -/
theorem stripZeros_cons (c : Char) (ds : List Char) (hc : c ≠ digitChar 0) :
    ∃ r, stripZeros (c :: ds) = c :: r := by
  obtain ⟨z, hz, -⟩ := stripZeros_spec (c :: ds)
  cases hs : stripZeros (c :: ds) with
  | nil =>
    rw [hs, List.nil_append] at hz
    cases z with
    | zero => simp at hz
    | succ z =>
      rw [List.replicate_succ] at hz
      injection hz with h1 _
      exact absurd h1 hc
  | cons a r =>
    rw [hs, List.cons_append] at hz
    injection hz with h1 _
    exact ⟨r, by rw [h1]⟩

/-- The first of `k + 1` digits of a number with exactly `k + 1` digits is not `0`. -/
theorem fixedDigits_head (k n : Nat) (h1 : 10 ^ k ≤ n) (h2 : n < 10 ^ (k + 1)) :
    ∃ c r, fixedDigits (k + 1) n = c :: r ∧ c ≠ digitChar 0 ∧ isDigitC c = true := by
  induction k generalizing n with
  | zero =>
    refine ⟨digitChar (n % 10), [], by simp [fixedDigits], ?_, ?_⟩
    · intro h
      have := (digitChar_spec (n % 10) (Nat.mod_lt n (by decide))).2.2.1 h
      simp only [zero_add, pow_one, pow_zero] at h1 h2
      omega
    · exact (digitChar_spec (n % 10) (Nat.mod_lt n (by decide))).1
  | succ k ih =>
    have h1' : 10 ^ k ≤ n / 10 := by
      rw [Nat.le_div_iff_mul_le (by decide)]
      rw [pow_succ] at h1
      exact h1
    have h2' : n / 10 < 10 ^ (k + 1) := by
      rw [Nat.div_lt_iff_lt_mul (by decide)]
      rw [pow_succ] at h2
      exact h2
    obtain ⟨c, r, hcr, hc, hd⟩ := ih (n / 10) h1' h2'
    refine ⟨c, r ++ [digitChar (n % 10)], ?_, hc, hd⟩
    show fixedDigits (k + 1) (n / 10) ++ [digitChar (n % 10)] = _
    rw [hcr]
    rfl

/-! ## Rounding to significant decimal digits -/

/-- The decimal exponent brackets the quotient between two powers of ten. -/
theorem decExp_spec (num den : Nat) (hn : 0 < num) (hd : 0 < den) :
    (∃ L : Nat, decExp num den = (L : Int) ∧ 10 ^ L * den ≤ num ∧ num < 10 ^ (L + 1) * den) ∨
    (∃ k : Nat, 0 < k ∧ decExp num den = - (k : Int) ∧ den ≤ num * 10 ^ k ∧
      num * 10 ^ (k - 1) < den) := by
  unfold decExp
  by_cases h : den ≤ num
  · left
    rw [if_pos h]
    have hq : 0 < num / den := Nat.div_pos h hd
    obtain ⟨h1, h2⟩ := log10Floor_spec num (num / den) (Nat.div_le_self _ _) hq
    refine ⟨_, rfl, ?_, ?_⟩
    · exact (Nat.le_div_iff_mul_le hd).1 h1
    · exact (Nat.div_lt_iff_lt_mul hd).1 h2
  · right
    rw [if_neg h]
    have hf : den ≤ num * 10 ^ den := by
      have h1 : den < 10 ^ den := Nat.lt_pow_self (by decide) den
      calc den ≤ 1 * 10 ^ den := by omega
        _ ≤ num * 10 ^ den := Nat.mul_le_mul_right _ hn
    obtain ⟨h1, h2, h3⟩ := negDecExp_spec den num den hf
    have hk : 0 < negDecExp den num den := by
      by_contra h0
      exact h (h2 (by omega))
    exact ⟨_, hk, rfl, h1, h3 hk⟩

/-- The unrounded digit count: `roundSig` before the carry test yields between `10 ^ (p - 1)`
and `10 ^ p`. -/
theorem roundSig_bounds (p num den : Nat) (hp : 0 < p) (hn : 0 < num) (hd : 0 < den) :
    10 ^ (p - 1) ≤ (roundSig p num den).1 ∧ (roundSig p num den).1 < 10 ^ p := by
  have hpp : 10 ^ p = 10 ^ (p - 1) * 10 := by
    conv_lhs => rw [show p = (p - 1) + 1 by omega]
    rw [pow_succ]
  have key : ∀ D : Nat, 10 ^ (p - 1) ≤ D → D ≤ 10 ^ p → ∀ X : Int,
      10 ^ (p - 1) ≤ (if D = 10 ^ p then (10 ^ (p - 1), X + 1) else (D, X)).1 ∧
      (if D = 10 ^ p then (10 ^ (p - 1), X + 1) else (D, X)).1 < 10 ^ p := by
    intro D h1 h2 X
    by_cases hD : D = 10 ^ p
    · rw [if_pos hD]
      have : 0 < 10 ^ (p - 1) := (Nat.pow_pos (by decide))
      exact ⟨le_refl _, by rw [hpp]; omega⟩
    · rw [if_neg hD]
      exact ⟨h1, by omega⟩
  unfold roundSig
  simp only []
  rcases decExp_spec num den hn hd with ⟨L, hX, h1, h2⟩ | ⟨k, hk, hX, h1, h2⟩
  · rw [hX]
    by_cases hs : L ≤ p - 1
    · have e : ((p : Int) - 1 - (L : Int)) = ((p - 1 - L : Nat) : Int) := by omega
      rw [e, if_pos (Int.natCast_nonneg _), Int.toNat_natCast]
      have hpow : 10 ^ (p - 1) = 10 ^ (p - 1 - L) * 10 ^ L := by
        rw [← pow_add]; congr 1; omega
      have hpow2 : 10 ^ p = 10 ^ (p - 1 - L) * 10 ^ (L + 1) := by
        rw [← pow_add]; congr 1; omega
      obtain ⟨b1, b2⟩ := divRoundEven_bounds (num * 10 ^ (p - 1 - L)) den (10 ^ (p - 1)) (10 ^ p) hd
        (by rw [hpow]; nlinarith [(Nat.pow_pos (show 0 < 10 by decide) : 0 < 10 ^ (p - 1 - L))])
        (by rw [hpow2]; nlinarith [(Nat.pow_pos (show 0 < 10 by decide) : 0 < 10 ^ (p - 1 - L))])
      exact key _ b1 b2 _
    · have e : ((p : Int) - 1 - (L : Int)) = - ((L - (p - 1) : Nat) : Int) := by omega
      have hneg : ¬ (0 : Int) ≤ - ((L - (p - 1) : Nat) : Int) := by omega
      rw [e, if_neg hneg, neg_neg, Int.toNat_natCast]
      have hpow : 10 ^ L = 10 ^ (p - 1) * 10 ^ (L - (p - 1)) := by
        rw [← pow_add]; congr 1; omega
      have hpow2 : 10 ^ (L + 1) = 10 ^ p * 10 ^ (L - (p - 1)) := by
        rw [← pow_add]; congr 1; omega
      have hdd : 0 < den * 10 ^ (L - (p - 1)) := Nat.mul_pos hd ((Nat.pow_pos (by decide)))
      obtain ⟨b1, b2⟩ := divRoundEven_bounds num (den * 10 ^ (L - (p - 1))) (10 ^ (p - 1))
        (10 ^ p) hdd
        (by rw [hpow] at h1; calc 10 ^ (p - 1) * (den * 10 ^ (L - (p - 1)))
              = 10 ^ (p - 1) * 10 ^ (L - (p - 1)) * den := by ring
            _ ≤ num := h1)
        (by rw [hpow2] at h2; calc num ≤ 10 ^ p * 10 ^ (L - (p - 1)) * den := le_of_lt h2
            _ = 10 ^ p * (den * 10 ^ (L - (p - 1))) := by ring)
      exact key _ b1 b2 _
  · rw [hX]
    have e : ((p : Int) - 1 - - (k : Int)) = ((p - 1 + k : Nat) : Int) := by omega
    rw [e, if_pos (Int.natCast_nonneg _), Int.toNat_natCast]
    have hpow : 10 ^ (p - 1 + k) = 10 ^ (p - 1) * 10 ^ k := pow_add _ _ _
    have hpow2 : 10 ^ (p - 1 + k) = 10 ^ p * 10 ^ (k - 1) := by
      rw [← pow_add]; congr 1; omega
    obtain ⟨b1, b2⟩ := divRoundEven_bounds (num * 10 ^ (p - 1 + k)) den (10 ^ (p - 1)) (10 ^ p) hd
      (by rw [hpow]; nlinarith [(Nat.pow_pos (show 0 < 10 by decide) : 0 < 10 ^ (p - 1))])
      (by rw [hpow2]; nlinarith [(Nat.pow_pos (show 0 < 10 by decide) : 0 < 10 ^ (p))])
    exact key _ b1 b2 _

/-- The exponent `roundSig` returns is the decimal exponent of the quotient, or one more when the
rounding carries into a new digit, and then the digits are `10 ^ (p - 1)`. -/
theorem roundSig_exp (p num den : Nat) :
    (roundSig p num den).2 = decExp num den ∨
      ((roundSig p num den).2 = decExp num den + 1 ∧ (roundSig p num den).1 = 10 ^ (p - 1)) := by
  unfold roundSig
  simp only []
  generalize (if 0 ≤ (p : Int) - 1 - decExp num den
    then divRoundEven (num * 10 ^ ((p : Int) - 1 - decExp num den).toNat) den
    else divRoundEven num (den * 10 ^ (-((p : Int) - 1 - decExp num den)).toNat)) = D
  by_cases hD : D = 10 ^ p
  · right; rw [if_pos hD]; exact ⟨rfl, rfl⟩
  · left; rw [if_neg hD]

/-- For a quotient up to the largest finite `float`, six significant digits give a decimal of at
most `3.40282e+38`. -/
theorem roundSig_six_le (num den : Nat) (hn : 0 < num) (hd : 0 < den)
    (hmax : num ≤ fltMax * den) (X : Nat) (hX : (roundSig 6 num den).2 = (X : Int))
    (h5 : 5 ≤ X) : (roundSig 6 num den).1 * 10 ^ (X - 5) ≤ 340282 * 10 ^ 33 := by
  obtain ⟨-, hlt⟩ := roundSig_bounds 6 num den (by decide) hn hd
  by_cases h37 : X ≤ 37
  · calc (roundSig 6 num den).1 * 10 ^ (X - 5) ≤ 10 ^ 6 * 10 ^ (X - 5) :=
          Nat.mul_le_mul_right _ (le_of_lt hlt)
      _ ≤ 10 ^ 6 * 10 ^ 32 :=
          Nat.mul_le_mul_left _ (Nat.pow_le_pow_right (by decide) (by omega))
      _ ≤ 340282 * 10 ^ 33 := by norm_num
  · have hXge : 38 ≤ X := by omega
    rcases decExp_spec num den hn hd with ⟨L, hL, h1, h2⟩ | ⟨k, hk, hL, -, -⟩
    · have hL38 : L ≤ 38 := by
        by_contra hgt
        have h39 : 10 ^ 39 ≤ 10 ^ L := Nat.pow_le_pow_right (by decide) (by omega)
        have : 10 ^ 39 * den ≤ fltMax * den :=
          le_trans (le_trans (Nat.mul_le_mul_right _ h39) h1) hmax
        have := Nat.le_of_mul_le_mul_right this hd
        revert this
        unfold fltMax
        norm_num
      by_cases hL37 : L ≤ 37
      · -- only a carry from `L = 37` reaches `X = 38`
        rcases roundSig_exp 6 num den with he | ⟨he, hD⟩
        · have : (L : Int) = (X : Int) := by rw [← hL, ← he, hX]
          omega
        · have : ((L : Int) + 1) = (X : Int) := by rw [← hL, ← he, hX]
          have hX38 : X = 38 := by omega
          rw [hD, hX38]
          norm_num
      · have hL' : L = 38 := by omega
        subst hL'
        have hb : divRoundEven num (den * 10 ^ 33) ≤ 340282 := by
          apply divRoundEven_le_of_lt_half _ _ _ (Nat.mul_pos hd (Nat.pow_pos (by decide)))
          have : 2 * fltMax < (2 * 340282 + 1) * 10 ^ 33 := by
            unfold fltMax
            norm_num
          calc 2 * num ≤ 2 * (fltMax * den) := Nat.mul_le_mul_left _ hmax
            _ = (2 * fltMax) * den := by ring
            _ < ((2 * 340282 + 1) * 10 ^ 33) * den := Nat.mul_lt_mul_of_pos_right this hd
            _ = (2 * 340282 + 1) * (den * 10 ^ 33) := by ring
        have hval : roundSig 6 num den = (divRoundEven num (den * 10 ^ 33), ((38 : Nat) : Int)) := by
          unfold roundSig
          simp only [hL]
          have e1 : ¬ ((0 : Int) ≤ ((6 : Nat) : Int) - 1 - ((38 : Nat) : Int)) := by decide
          have e2 : (-(((6 : Nat) : Int) - 1 - ((38 : Nat) : Int))).toNat = 33 := by decide
          rw [if_neg e1, e2]
          have hne : divRoundEven num (den * 10 ^ 33) ≠ 10 ^ 6 := by
            intro h
            rw [h] at hb
            revert hb
            norm_num
          rw [if_neg hne]
        rw [hval] at hX ⊢
        have hX38 : X = 38 := by
          have : ((38 : Nat) : Int) = (X : Int) := hX
          omega
        rw [hX38]
        exact Nat.mul_le_mul_right _ hb
    · exfalso
      rcases roundSig_exp 6 num den with he | ⟨he, -⟩
      · rw [he, hL] at hX; omega
      · rw [he, hL] at hX; omega

/-! ## The text the inserter writes -/

theorem digitChar_zero : digitChar 0 = '0' := by decide

theorem natDigits_spec (a : Nat) :
    natDigits a ≠ [] ∧ ∀ c ∈ natDigits a, isDigitC c = true := by
  unfold natDigits
  constructor
  · intro h
    have := congrArg List.length h
    rw [fixedDigits_length] at this
    simp at this
  · exact fixedDigits_digits _ _

theorem expDigits_spec (a : Nat) :
    expDigits a ≠ [] ∧ ∀ c ∈ expDigits a, isDigitC c = true := by
  unfold expDigits
  split
  · refine ⟨by simp, ?_⟩
    intro c hc
    rcases List.mem_cons.1 hc with rfl | hc
    · decide
    · exact (natDigits_spec a).2 c hc
  · exact natDigits_spec a

theorem expSuffix_eq (X : Int) :
    expSuffix X = FloatText.expText (some (decide (X < 0), expDigits X.natAbs)) := by
  unfold expSuffix FloatText.expText expDigits
  by_cases h : X < 0 <;> simp [h]

theorem pointAfter_eq (k : Nat) (ds : List Char) :
    pointAfter k ds
      = ds.take k ++ (if stripZeros (ds.drop k) = [] then [] else '.' :: stripZeros (ds.drop k)) :=
  rfl

/-- `fmtG` writes the text of its parts. -/
theorem fmtG_eq_text (p num den : Nat) (hp : 0 < p) (hn : 0 < num) (hd : 0 < den) :
    fmtG p num den = (fmtGText p num den).text := by
  obtain ⟨hlo, hhi⟩ := roundSig_bounds p num den hp hn hd
  obtain ⟨c, r, hcr, hc, -⟩ := fixedDigits_head (p - 1) (roundSig p num den).1 hlo
    (by rw [show p - 1 + 1 = p by omega]; exact hhi)
  rw [show p - 1 + 1 = p by omega] at hcr
  unfold fmtG fmtGText FloatText.text FloatText.body
  simp only []
  by_cases h1 : (roundSig p num den).2 < -4 ∨ (p : Int) ≤ (roundSig p num den).2
  · rw [if_pos h1, if_pos h1]
    simp only [pointAfter_eq, expSuffix_eq, Bool.false_eq_true, if_false, List.nil_append,
      List.append_assoc]
  · rw [if_neg h1, if_neg h1]
    by_cases h2 : (roundSig p num den).2 < 0
    · rw [if_pos h2, if_pos h2]
      obtain ⟨r', hr'⟩ := stripZeros_cons c r hc
      have hne : List.replicate ((-(roundSig p num den).2).toNat - 1) (digitChar 0)
          ++ stripZeros (fixedDigits p (roundSig p num den).1) ≠ [] := by
        rw [hcr, hr']
        simp
      simp only [Bool.false_eq_true, if_false, List.nil_append, if_neg hne,
        FloatText.expText, List.append_nil, List.singleton_append]
    · rw [if_neg h2, if_neg h2]
      simp only [pointAfter_eq, Bool.false_eq_true, if_false, List.nil_append,
        FloatText.expText, List.append_nil]

/-- The parts `fmtG` writes are well formed. -/
theorem fmtGText_WF (p num den : Nat) (hp : 0 < p) (hn : 0 < num) (hd : 0 < den) :
    (fmtGText p num den).WF := by
  obtain ⟨hlo, hhi⟩ := roundSig_bounds p num den hp hn hd
  obtain ⟨c, r, hcr, hc, hcd⟩ := fixedDigits_head (p - 1) (roundSig p num den).1 hlo
    (by rw [show p - 1 + 1 = p by omega]; exact hhi)
  rw [show p - 1 + 1 = p by omega] at hcr
  have hdig := fixedDigits_digits p (roundSig p num den).1
  have htake : ∀ k, ∀ c' ∈ (fixedDigits p (roundSig p num den).1).take k, isDigitC c' = true :=
    fun k c' h => hdig c' (List.mem_of_mem_take h)
  have hdrop : ∀ k, ∀ c' ∈ stripZeros ((fixedDigits p (roundSig p num den).1).drop k),
      isDigitC c' = true :=
    fun k => stripZeros_digits _ (fun c' h => hdig c' (List.mem_of_mem_drop h))
  unfold fmtGText
  simp only []
  by_cases h1 : (roundSig p num den).2 < -4 ∨ (p : Int) ≤ (roundSig p num den).2
  · rw [if_pos h1]
    refine ⟨⟨c, [], ?_, Or.inr rfl⟩, htake 1, hdrop 1, ?_⟩
    · show (fixedDigits p (roundSig p num den).1).take 1 = [c]
      rw [hcr]
      rfl
    · intro n ds h
      injection h with h
      injection h with _ h
      rw [← h]
      exact expDigits_spec _
  · rw [if_neg h1]
    by_cases h2 : (roundSig p num den).2 < 0
    · rw [if_pos h2]
      refine ⟨⟨digitChar 0, [], rfl, Or.inr rfl⟩, ?_, ?_, ?_⟩
      · intro c' hc'
        rcases List.mem_singleton.1 hc' with rfl
        decide
      · intro c' hc'
        rcases List.mem_append.1 hc' with h | h
        · rw [List.eq_of_mem_replicate h]
          decide
        · exact stripZeros_digits _ hdig c' h
      · intro n ds h
        cases h
    · rw [if_neg h2]
      refine ⟨⟨c, r.take (roundSig p num den).2.toNat, ?_, Or.inl hc⟩, htake _, hdrop _, ?_⟩
      · show (fixedDigits p (roundSig p num den).1).take _ = _
        rw [hcr]
        rfl
      · intro n ds h
        cases h

/-! ## Scanning a floating constant -/

theorem scanFloatLoop_nil (x : List Char) (fm fd fs sg : Bool) :
    scanFloatLoop [] x fm fd fs sg = (x, []) := by
  unfold scanFloatLoop
  rfl

theorem scanFloatLoop_digit (c : Char) (r x : List Char) (fm fd fs sg : Bool)
    (hc : isDigitC c = true) :
    scanFloatLoop (c :: r) x fm fd fs sg = scanFloatLoop r (x ++ [c]) true fd fs false := by
  obtain ⟨-, -, -, h4, h5, -⟩ := isDigitC_ne c hc
  rw [scanFloatLoop]
  simp [h4, h5, hc]

/-- The loop takes a run of digits whole. -/
theorem scanFloatLoop_digits (ds r x : List Char) (fm fd fs sg : Bool)
    (hds : ∀ c ∈ ds, isDigitC c = true) (hne : ds ≠ []) :
    scanFloatLoop (ds ++ r) x fm fd fs sg = scanFloatLoop r (x ++ ds) true fd fs false := by
  induction ds generalizing x fm sg with
  | nil => exact absurd rfl hne
  | cons c ds ih =>
    rw [List.cons_append, scanFloatLoop_digit c _ x fm fd fs sg (hds c (List.mem_cons_self _ _))]
    by_cases hd : ds = []
    · subst hd
      rfl
    · rw [ih (x ++ [c]) true false (fun c' h => hds c' (List.mem_cons_of_mem _ h)) hd]
      simp

/-- The loop stops in front of a stop character, and at the end of the stream. -/
theorem scanFloatLoop_stop (r x : List Char) (fm fd fs : Bool) (hr : StopsScan r) :
    scanFloatLoop r x fm fd fs false = (x, r) := by
  cases r with
  | nil => exact scanFloatLoop_nil _ _ _ _ _
  | cons c r =>
    have h := hr c r rfl
    simp only [isFloatStop, Bool.and_eq_true, Bool.not_eq_true', bne_iff_ne, ne_eq] at h
    obtain ⟨⟨⟨⟨⟨h1, h2⟩, h3⟩, h4⟩, -⟩, -⟩ := h
    rw [scanFloatLoop]
    simp [h1, h2, h3, h4]

theorem scanFloatLoop_point (r x : List Char) (fm : Bool) :
    scanFloatLoop ('.' :: r) x fm false false false
      = scanFloatLoop r (x ++ ['.']) fm true false false := by
  rw [scanFloatLoop]
  simp [show isDigitC '.' = false by decide]

theorem scanFloatLoop_exp (n : Bool) (r x : List Char) (fd : Bool) :
    scanFloatLoop ('e' :: (if n then '-' else '+') :: r) x true fd false false
      = scanFloatLoop r (x ++ ['e', if n then '-' else '+']) true fd true false := by
  rw [scanFloatLoop]
  simp only [show isDigitC 'e' = false by decide, Bool.false_eq_true, false_and, if_false,
    show ('e' : Char) ≠ '.' by decide, true_or, Bool.not_false, and_self, if_true]
  rw [scanFloatLoop]
  cases n <;> simp

/-- After the digits before the point, the loop takes the fraction and the exponent and stops
in front of the rest. -/
theorem scanFloatLoop_tail (t : FloatText) (ht : t.WF) (rest x : List Char)
    (hr : StopsScan rest) :
    scanFloatLoop ((if t.fp = [] then [] else '.' :: t.fp) ++ FloatText.expText t.ex ++ rest)
        x true false false false
      = (x ++ ((if t.fp = [] then [] else '.' :: t.fp) ++ FloatText.expText t.ex), rest) := by
  obtain ⟨-, -, hfp, hex⟩ := ht
  have hexp : ∀ (x : List Char) (fd : Bool),
      scanFloatLoop (FloatText.expText t.ex ++ rest) x true fd false false
        = (x ++ FloatText.expText t.ex, rest) := by
    intro x fd
    cases he : t.ex with
    | none =>
      simp only [FloatText.expText, List.nil_append, List.append_nil]
      exact scanFloatLoop_stop rest x true fd false hr
    | some nd =>
      obtain ⟨n, ds⟩ := nd
      obtain ⟨hne, hds⟩ := hex n ds he
      simp only [FloatText.expText, List.cons_append]
      rw [scanFloatLoop_exp, scanFloatLoop_digits ds rest _ true fd true false hds hne,
        scanFloatLoop_stop rest _ true fd true hr]
      simp
  by_cases hf : t.fp = []
  · simp only [hf, if_true, List.nil_append]
    exact hexp x false
  · simp only [hf, if_false, List.cons_append, List.append_assoc]
    rw [scanFloatLoop_point, scanFloatLoop_digits t.fp _ _ true true false false hfp hf]
    have := hexp (x ++ ['.'] ++ t.fp) true
    rw [this]
    simp

/-- The first character after the digits before the point is not `'0'`. -/
theorem tail_head_ne_zero (t : FloatText) (rest : List Char) (hr : StopsScan rest) :
    ((if t.fp = [] then [] else '.' :: t.fp) ++ FloatText.expText t.ex ++ rest).takeWhile
        (fun c => c = '0') = [] ∧
    ((if t.fp = [] then [] else '.' :: t.fp) ++ FloatText.expText t.ex ++ rest).dropWhile
        (fun c => c = '0')
      = (if t.fp = [] then [] else '.' :: t.fp) ++ FloatText.expText t.ex ++ rest := by
  have key : ∀ l : List Char, (∀ c r, l = c :: r → c ≠ '0') →
      l.takeWhile (fun c => c = '0') = [] ∧ l.dropWhile (fun c => c = '0') = l := by
    intro l hl
    cases l with
    | nil => exact ⟨rfl, rfl⟩
    | cons c r =>
      have := hl c r rfl
      simp [List.takeWhile_cons, List.dropWhile_cons, this]
  apply key
  intro c r h
  by_cases hf : t.fp = []
  · simp only [hf, if_true, List.nil_append] at h
    cases he : t.ex with
    | none =>
      rw [he] at h
      simp only [FloatText.expText, List.nil_append] at h
      have := hr c r h
      intro hc
      rw [hc] at this
      revert this
      decide
    | some nd =>
      rw [he] at h
      obtain ⟨n, ds⟩ := nd
      simp only [FloatText.expText, List.cons_append] at h
      injection h with h _
      rw [← h]
      decide
  · simp only [hf, if_false, List.cons_append] at h
    injection h with h _
    rw [← h]
    decide

/-- `_M_extract_float` takes a well-formed constant whole, unchanged, and leaves the rest. -/
theorem scanFloat_text (t : FloatText) (ht : t.WF) (rest : List Char) (hr : StopsScan rest) :
    scanFloat (t.text ++ rest) = (t.text, rest) := by
  obtain ⟨c, r, hip, hc0⟩ := ht.1
  have hcd : isDigitC c = true := ht.2.1 c (by rw [hip]; exact List.mem_cons_self _ _)
  obtain ⟨-, -, -, hplus, hminus, -⟩ := isDigitC_ne c hcd
  -- after the sign
  have hsign : takeSign (t.text ++ rest) = ((if t.neg then ['-'] else []), t.body ++ rest) := by
    unfold FloatText.text takeSign
    cases hn : t.neg
    · simp only [Bool.false_eq_true, if_false, List.nil_append]
      unfold FloatText.body
      rw [hip]
      simp [hplus, hminus]
    · simp
  unfold scanFloat
  rw [hsign]
  simp only []
  -- the leading zeros
  have hbody : t.body ++ rest
      = t.ip ++ ((if t.fp = [] then [] else '.' :: t.fp) ++ FloatText.expText t.ex ++ rest) := by
    unfold FloatText.body
    simp
  obtain ⟨htw, hdw⟩ := tail_head_ne_zero t rest hr
  have htail := scanFloatLoop_tail t ht rest
  by_cases hz : c = '0'
  · have hr0 : r = [] := by
      rcases hc0 with h | h
      · exact absurd (hz.trans digitChar_zero.symm) h
      · exact h
    subst hr0
    subst hz
    rw [hbody, hip]
    simp only [List.singleton_append, List.takeWhile_cons, List.dropWhile_cons, decide_True,
      if_true, htw, hdw]
    simp only [show (['0'] : List Char) ≠ [] by simp, if_false, ne_eq, not_false_eq_true,
      decide_True]
    rw [htail _ hr]
    unfold FloatText.text FloatText.body
    rw [hip]
    simp
  · have htw' : (t.body ++ rest).takeWhile (fun c => c = '0') = [] := by
      rw [hbody, hip]
      simp [List.takeWhile_cons, hz]
    have hdw' : (t.body ++ rest).dropWhile (fun c => c = '0') = t.body ++ rest := by
      rw [hbody, hip]
      simp [List.dropWhile_cons, hz]
    rw [htw', hdw']
    simp only [if_true, ne_eq, not_true_eq_false, decide_False]
    rw [hbody, scanFloatLoop_digits t.ip _ _ false false false false ht.2.1
      (by rw [hip]; simp), htail _ hr]
    unfold FloatText.text FloatText.body
    simp

/-! ## Converting a floating constant -/

/-- A run of digits followed by something that starts with no digit is split off whole. -/
theorem takeWhile_digits (ds r : List Char) (hds : ∀ c ∈ ds, isDigitC c = true)
    (hr : ∀ c r', r = c :: r' → isDigitC c = false) :
    (ds ++ r).takeWhile isDigitC = ds ∧ (ds ++ r).dropWhile isDigitC = r := by
  induction ds with
  | nil =>
    cases r with
    | nil => exact ⟨rfl, rfl⟩
    | cons c r' =>
      have := hr c r' rfl
      simp [List.takeWhile_cons, List.dropWhile_cons, this]
  | cons c ds ih =>
    have hc := hds c (List.mem_cons_self _ _)
    obtain ⟨h1, h2⟩ := ih (fun c' h => hds c' (List.mem_cons_of_mem _ h))
    simp [List.takeWhile_cons, List.dropWhile_cons, hc, h1, h2]

theorem expText_head (ex : Option (Bool × List Char)) :
    ∀ c r', FloatText.expText ex = c :: r' → c = 'e' := by
  intro c r' h
  cases ex with
  | none => cases h
  | some nd =>
    obtain ⟨n, ds⟩ := nd
    simp only [FloatText.expText] at h
    injection h with h _
    exact h.symm

theorem parseExpPart_expText (ex : Option (Bool × List Char))
    (hex : ∀ n ds, ex = some (n, ds) → ds ≠ [] ∧ ∀ c ∈ ds, isDigitC c = true) :
    parseExpPart (FloatText.expText ex) = some (FloatText.expVal ex) := by
  cases ex with
  | none => rfl
  | some nd =>
    obtain ⟨n, ds⟩ := nd
    obtain ⟨hne, hds⟩ := hex n ds rfl
    have hrs : readSign ((if n then '-' else '+') :: ds) = (n, ds) := by
      cases n <;> simp [readSign]
    simp only [FloatText.expText, parseExpPart, true_or, if_true, hrs, FloatText.expVal]
    have hall : ds.all isDigitC = true := List.all_eq_true.2 hds
    simp [hne, hall]

/-- `strtof` reads a well-formed constant as the decimal it denotes. -/
theorem parseDecimal_text (t : FloatText) (ht : t.WF) :
    parseDecimal t.text = some t.decimal := by
  obtain ⟨⟨c, r, hip, -⟩, hipd, hfpd, hex⟩ := ht
  have hcd : isDigitC c = true := hipd c (by rw [hip]; exact List.mem_cons_self _ _)
  obtain ⟨-, -, -, hplus, hminus, -⟩ := isDigitC_ne c hcd
  have hsign : readSign t.text = (t.neg, t.body) := by
    unfold FloatText.text readSign
    cases hn : t.neg
    · simp only [Bool.false_eq_true, if_false, List.nil_append]
      unfold FloatText.body
      rw [hip]
      simp [hplus, hminus]
    · simp
  have hnd : ∀ c r', ((if t.fp = [] then [] else '.' :: t.fp) ++ FloatText.expText t.ex)
      = c :: r' → isDigitC c = false := by
    intro c' r' h
    by_cases hf : t.fp = []
    · simp only [hf, if_true, List.nil_append] at h
      rw [expText_head _ _ _ h]
      decide
    · simp only [hf, if_false, List.cons_append] at h
      injection h with h _
      rw [← h]
      decide
  obtain ⟨h1, h2⟩ := takeWhile_digits t.ip _ hipd hnd
  have hfrac : readFraction ((if t.fp = [] then [] else '.' :: t.fp) ++ FloatText.expText t.ex)
      = (t.fp, FloatText.expText t.ex) := by
    by_cases hf : t.fp = []
    · simp only [hf, if_true, List.nil_append]
      unfold readFraction
      cases he : FloatText.expText t.ex with
      | nil => rfl
      | cons c' r' =>
        have := expText_head _ _ _ he
        subst this
        simp
    · simp only [hf, if_false, List.cons_append]
      unfold readFraction
      obtain ⟨h3, h4⟩ := takeWhile_digits t.fp (FloatText.expText t.ex) hfpd
        (fun c' r' h => by rw [expText_head _ _ _ h]; decide)
      simp [h3, h4]
  unfold parseDecimal
  simp only [hsign]
  unfold FloatText.body
  rw [h1, h2, hfrac]
  simp only [parseExpPart_expText t.ex hex]
  rw [if_neg (by rw [hip]; simp)]
  rfl

/-! ## No overflow when a finite `float` is read back -/

set_option exponentiation.threshold 400 in
/-- A quotient up to the largest finite `float` rounds to a finite `float`. -/
theorem ofRatio_expo_lt (sign : Bool) (n d : Nat) (hd : 0 < d) (h : n ≤ fltMax * d) :
    (Fp.ofRatio binary32 sign n d).expo < 255 := by
  unfold Fp.ofRatio Fp.ofUnits
  simp only []
  have hminExp : binary32.minExp = 149 := by decide
  have hfrac : binary32.fracBits = 23 := rfl
  have hexpMax : binary32.expMax = 255 := by decide
  rw [hminExp, hfrac]
  generalize hnum : n * 2 ^ 149 = num
  have hnumle : num ≤ (2 ^ 24 - 1) * (d * 2 ^ 253) := by
    rw [← hnum]
    calc n * 2 ^ 149 ≤ fltMax * d * 2 ^ 149 := Nat.mul_le_mul_right _ h
      _ = (2 ^ 24 - 1) * (d * 2 ^ 253) := by unfold fltMax; ring
  -- the binary exponent is at most 276
  have he : log2Floor (num + 1) (num / d) ≤ 276 := by
    by_cases h0 : num / d = 0
    · rw [h0]
      unfold log2Floor
      simp
    · have hpos : 0 < num / d := Nat.pos_of_ne_zero h0
      obtain ⟨h1, -⟩ := log2Floor_spec (num + 1) (num / d)
        (le_trans (Nat.div_le_self _ _) (Nat.le_succ _)) hpos
      by_contra hgt
      have h277 : 2 ^ 277 ≤ 2 ^ log2Floor (num + 1) (num / d) :=
        Nat.pow_le_pow_right (by decide) (by omega)
      have h2 : 2 ^ 277 * d ≤ num := (Nat.le_div_iff_mul_le hd).1 (le_trans h277 h1)
      have h3 : 2 ^ 277 * d ≤ (2 ^ 24 - 1) * (d * 2 ^ 253) := le_trans h2 hnumle
      have h4 : (2 ^ 24 - 1) * (d * 2 ^ 253) < 2 ^ 277 * d := by
        have : (2 ^ 24 - 1) * 2 ^ 253 < 2 ^ 277 := by norm_num
        calc (2 ^ 24 - 1) * (d * 2 ^ 253) = ((2 ^ 24 - 1) * 2 ^ 253) * d := by ring
          _ < 2 ^ 277 * d := Nat.mul_lt_mul_of_pos_right this hd
      omega
  generalize log2Floor (num + 1) (num / d) = e at he
  have hnormal : ∀ m sh, sh ≤ 253 → (Fp.normal binary32 sign m sh).expo < 255 := by
    intro m sh hsh
    unfold Fp.normal
    rw [hexpMax, if_pos (by omega)]
    show sh + 1 < 255
    omega
  split
  · show 0 < 255
    decide
  · split
    · exact hnormal _ _ (by omega)
    · rename_i h1 h2
      apply hnormal
      by_contra hsh
      have hsh253 : e - 23 = 253 := by omega
      rw [hsh253] at h2
      obtain ⟨-, hb⟩ := divRoundEven_bounds num (d * 2 ^ 253) 0 (2 ^ 24 - 1)
        (Nat.mul_pos hd (Nat.pow_pos (by decide))) (by omega) hnumle
      apply h2
      calc divRoundEven num (d * 2 ^ 253) ≤ 2 ^ 24 - 1 := hb
        _ < 2 ^ (23 + 1) := by norm_num

/-- The magnitude of a finite, well-formed `float` is at most the largest finite one. -/
theorem num_le_fltMax (x : F32) (hw : x.WF) (hf : x.isFinite = true) :
    x.num ≤ fltMax * x.den := by
  obtain ⟨-, hfr⟩ := hw
  have hfr' : x.frac < 2 ^ 23 := hfr
  have he : x.expo < 255 := by
    have : x.expo < binary32.expMax := by simpa [Fp.isFinite] using hf
    exact this
  unfold Fp.num Fp.den Fp.mant Fp.scale
  have hminExp : binary32.minExp = 149 := by decide
  rw [hminExp]
  have hm : (if x.expo = 0 then x.frac else 2 ^ binary32.fracBits + x.frac) ≤ 2 ^ 24 - 1 := by
    split
    · omega
    · show 2 ^ 23 + x.frac ≤ 2 ^ 24 - 1
      omega
  have hs : 2 ^ (x.expo - 1) ≤ 2 ^ 253 := Nat.pow_le_pow_right (by decide) (by omega)
  calc (if x.expo = 0 then x.frac else 2 ^ binary32.fracBits + x.frac) * 2 ^ (x.expo - 1)
      ≤ (2 ^ 24 - 1) * 2 ^ 253 := Nat.mul_le_mul hm hs
    _ = fltMax * 2 ^ 149 := by unfold fltMax; ring

/-! ## The decimal behind the text -/

theorem digitsToNat_natDigits (a : Nat) : digitsToNat (natDigits a) = a := by
  unfold natDigits
  rw [digitsToNat_fixedDigits]
  apply Nat.mod_eq_of_lt
  by_cases h : a = 0
  · subst h
    exact Nat.pow_pos (by decide)
  · exact (log10Floor_spec a a (le_refl _) (Nat.pos_of_ne_zero h)).2

theorem digitsToNat_zero_cons (l : List Char) :
    digitsToNat (digitChar 0 :: l) = digitsToNat l := by
  have : digitChar 0 :: l = [digitChar 0] ++ l := rfl
  rw [this, digitsToNat_append]
  have h0 : digitsToNat [digitChar 0] = 0 := by decide
  rw [h0]
  simp

theorem digitsToNat_expDigits (a : Nat) : digitsToNat (expDigits a) = a := by
  unfold expDigits
  split
  · rw [digitsToNat_zero_cons, digitsToNat_natDigits]
  · exact digitsToNat_natDigits a

/-- Dropping the zeros at the end of the second part divides the value by a power of ten. -/
theorem digitsToNat_append_stripZeros (a b : List Char) :
    ∃ z, digitsToNat (a ++ b) = digitsToNat (a ++ stripZeros b) * 10 ^ z ∧
      (stripZeros b).length + z = b.length := by
  obtain ⟨z, hz, hl⟩ := digitsToNat_stripZeros b
  refine ⟨z, ?_, hl⟩
  rw [digitsToNat_append, digitsToNat_append, hz, ← hl, pow_add]
  ring

/-- The text of `fmtG` denotes the rounded decimal: with `(D, X)` from `roundSig`, the digits
`M` and the exponent `E` of the text satisfy `D = M * 10 ^ z` and `E = X - (p - 1) + z`. -/
theorem fmtGText_decimal (p num den : Nat) (hp : 0 < p) (hn : 0 < num) (hd : 0 < den) :
    ∃ z : Nat,
      (roundSig p num den).1 = (fmtGText p num den).decimal.digits * 10 ^ z ∧
      (fmtGText p num den).decimal.exp10
        = (roundSig p num den).2 - ((p : Int) - 1) + (z : Int) := by
  obtain ⟨hlo, hhi⟩ := roundSig_bounds p num den hp hn hd
  have hD : digitsToNat (fixedDigits p (roundSig p num den).1) = (roundSig p num den).1 := by
    rw [digitsToNat_fixedDigits]
    exact Nat.mod_eq_of_lt hhi
  have hlen := fixedDigits_length p (roundSig p num den).1
  generalize hds : fixedDigits p (roundSig p num den).1 = ds at hD hlen
  generalize hXe : (roundSig p num den).2 = X
  generalize (roundSig p num den).1 = D at hD hlo hhi
  have hfm : fmtGText p num den
      = (if X < -4 ∨ (p : Int) ≤ X then
          { neg := false, ip := ds.take 1, fp := stripZeros (ds.drop 1),
            ex := some (decide (X < 0), expDigits X.natAbs) }
        else if X < 0 then
          { neg := false, ip := [digitChar 0],
            fp := List.replicate ((-X).toNat - 1) (digitChar 0) ++ stripZeros ds, ex := none }
        else
          { neg := false, ip := ds.take (X.toNat + 1),
            fp := stripZeros (ds.drop (X.toNat + 1)), ex := none } : FloatText) := by
    unfold fmtGText
    simp only [hds, hXe]
  rw [hfm]
  by_cases h1 : X < -4 ∨ (p : Int) ≤ X
  · rw [if_pos h1]
    obtain ⟨z, hz, hl⟩ := digitsToNat_append_stripZeros (ds.take 1) (ds.drop 1)
    rw [List.take_append_drop, hD] at hz
    refine ⟨z, hz, ?_⟩
    have hl' : (stripZeros (ds.drop 1)).length + z = p - 1 := by
      rw [hl, List.length_drop, hlen]
    simp only [FloatText.decimal, FloatText.expVal, digitsToNat_expDigits]
    by_cases hX : X < 0
    · simp only [hX, decide_True, if_true]
      omega
    · simp only [hX, decide_False, Bool.false_eq_true, if_false]
      omega
  · rw [if_neg h1]
    by_cases h2 : X < 0
    · rw [if_pos h2]
      obtain ⟨z, hz, hl⟩ := digitsToNat_append_stripZeros
        (digitChar 0 :: List.replicate ((-X).toNat - 1) (digitChar 0)) ds
      have hzeros : digitChar 0 :: List.replicate ((-X).toNat - 1) (digitChar 0)
          = List.replicate ((-X).toNat - 1 + 1) (digitChar 0) := rfl
      have hleft : digitsToNat
          (digitChar 0 :: List.replicate ((-X).toNat - 1) (digitChar 0) ++ ds) = D := by
        rw [hzeros, digitsToNat_append, digitsToNat_replicate_zero, hD]
        simp
      rw [hleft] at hz
      refine ⟨z, ?_, ?_⟩
      · simp only [FloatText.decimal]
        exact hz
      · simp only [FloatText.decimal, FloatText.expVal, List.length_append,
          List.length_replicate]
        rw [hlen] at hl
        omega
    · rw [if_neg h2]
      obtain ⟨z, hz, hl⟩ := digitsToNat_append_stripZeros (ds.take (X.toNat + 1))
        (ds.drop (X.toNat + 1))
      rw [List.take_append_drop, hD] at hz
      refine ⟨z, hz, ?_⟩
      have hl' : (stripZeros (ds.drop (X.toNat + 1))).length + z = p - (X.toNat + 1) := by
        rw [hl, List.length_drop, hlen]
      simp only [FloatText.decimal, FloatText.expVal]
      omega

/-! ## Reading back what `SaveToFile` writes -/

theorem finite_flags (x : F32) (hx : F32.Finite x) : x.isNaN = false ∧ x.isInf = false := by
  have h : x.expo < binary32.expMax := by simpa [F32.Finite, Fp.isFinite] using hx.2
  constructor
  · simp only [Fp.isNaN, decide_eq_false_iff_not]; intro h'; omega
  · simp only [Fp.isInf, decide_eq_false_iff_not]; intro h'; omega

theorem num_pos_of_mant (x : F32) (h : x.mant ≠ 0) : 0 < x.num ∧ 0 < x.den := by
  constructor
  · exact Nat.mul_pos (Nat.pos_of_ne_zero h) (Nat.pow_pos (by decide))
  · exact Nat.pow_pos (by decide)

theorem putFloat_text_of (x : F32) (hnan : x.isNaN = false) (hinf : x.isInf = false) :
    putFloat x = (putFloatText x).text ∧ (putFloatText x).WF := by
  unfold putFloat putFloatText
  rw [hnan, hinf]
  by_cases hm : x.mant = 0
  · simp only [hm, if_true, Bool.false_eq_true, if_false]
    refine ⟨by simp [FloatText.text, FloatText.body, FloatText.expText], ?_⟩
    refine ⟨⟨digitChar 0, [], rfl, Or.inr rfl⟩, ?_, ?_, ?_⟩
    · intro c hc; simp only [List.mem_singleton] at hc; subst hc; decide
    · intro c hc; simp at hc
    · intro n ds h; simp at h
  · obtain ⟨hn, hd⟩ := num_pos_of_mant x hm
    simp only [hm, if_false, Bool.false_eq_true]
    have h1 := fmtG_eq_text precision x.num x.den (by decide) hn hd
    have h2 := fmtGText_WF precision x.num x.den (by decide) hn hd
    have hneg : (fmtGText precision x.num x.den).neg = false := by
      unfold fmtGText; simp only []; split_ifs <;> rfl
    refine ⟨?_, h2⟩
    rw [h1]
    simp only [FloatText.text, FloatText.body, hneg, Bool.false_eq_true, if_false,
      List.nil_append]

theorem putFloat_eq_text (x : F32) (hx : F32.Finite x) :
    putFloat x = (putFloatText x).text ∧ (putFloatText x).WF :=
  putFloat_text_of x (finite_flags x hx).1 (finite_flags x hx).2

theorem fltMax_ge : 340282 * 10 ^ 33 ≤ fltMax ∧ 10 ^ 6 ≤ fltMax := by
  unfold fltMax; constructor <;> norm_num

theorem toF32_expo_lt (d : Decimal)
    (hpos : 0 ≤ d.exp10 → d.digits * 10 ^ d.exp10.toNat ≤ fltMax)
    (hneg : d.digits ≤ fltMax) : d.toF32.expo < 255 := by
  unfold Decimal.toF32
  by_cases h0 : d.digits = 0
  · rw [if_pos h0]; show (0 : Nat) < 255; decide
  · rw [if_neg h0]
    by_cases hE : 0 ≤ d.exp10
    · rw [if_pos hE]
      exact ofRatio_expo_lt _ _ 1 (by decide) (by simpa using hpos hE)
    · rw [if_neg hE]
      refine ofRatio_expo_lt _ _ _ (Nat.pow_pos (by decide)) ?_
      calc d.digits ≤ fltMax := hneg
        _ = fltMax * 1 := (Nat.mul_one _).symm
        _ ≤ fltMax * 10 ^ (-d.exp10).toNat :=
            Nat.mul_le_mul_left _ (Nat.one_le_pow _ _ (by decide))

theorem putFloatText_toF32_expo (x : F32) (hx : F32.Finite x) :
    (putFloatText x).decimal.toF32.expo < 255 := by
  by_cases hm : x.mant = 0
  · have : (putFloatText x).decimal.digits = 0 := by
      unfold putFloatText; rw [if_pos hm]
      show digitsToNat ([digitChar 0] ++ []) = 0
      decide
    unfold Decimal.toF32; rw [if_pos this]; show (0 : Nat) < 255; decide
  · obtain ⟨hn, hd⟩ := num_pos_of_mant x hm
    obtain ⟨z, hD, hE⟩ := fmtGText_decimal precision x.num x.den (by decide) hn hd
    obtain ⟨hlo, hhi⟩ := roundSig_bounds precision x.num x.den (by decide) hn hd
    have hmax := num_le_fltMax x hx.1 hx.2
    have hdig : (putFloatText x).decimal.digits = (fmtGText precision x.num x.den).decimal.digits := by
      unfold putFloatText; rw [if_neg hm]; rfl
    have hexp : (putFloatText x).decimal.exp10 = (fmtGText precision x.num x.den).decimal.exp10 := by
      unfold putFloatText; rw [if_neg hm]; rfl
    generalize hM : (fmtGText precision x.num x.den).decimal.digits = M at hD hdig
    generalize hEE : (fmtGText precision x.num x.den).decimal.exp10 = E at hE hexp
    have hz : 1 ≤ 10 ^ z := Nat.one_le_pow _ _ (by decide)
    have hML : M ≤ (roundSig precision x.num x.den).1 := by
      rw [hD]; exact Nat.le_mul_of_pos_right _ hz
    have hp6 : (10 : Nat) ^ precision = 10 ^ 6 := rfl
    have hpi : ((precision : Nat) : Int) = 6 := rfl
    rw [hpi] at hE
    apply toF32_expo_lt
    · rw [hdig, hexp]
      intro hE0
      by_cases hX : (roundSig precision x.num x.den).2 ≤ 5
      · have hEz : E.toNat ≤ z := by
          omega
        calc M * 10 ^ E.toNat ≤ M * 10 ^ z :=
              Nat.mul_le_mul_left _ (Nat.pow_le_pow_right (by decide) hEz)
          _ = (roundSig precision x.num x.den).1 := hD.symm
          _ ≤ 10 ^ 6 := by rw [← hp6]; exact Nat.le_of_lt hhi
          _ ≤ fltMax := fltMax_ge.2
      · obtain ⟨Xn, hXn⟩ : ∃ Xn : Nat, (roundSig precision x.num x.den).2 = (Xn : Int) :=
          ⟨((roundSig precision x.num x.den).2).toNat, by omega⟩
        have h5 : 5 ≤ Xn := by omega
        have h6 := roundSig_six_le x.num x.den hn hd hmax Xn hXn h5
        have hEt : E.toNat = z + (Xn - 5) := by
          omega
        calc M * 10 ^ E.toNat = (M * 10 ^ z) * 10 ^ (Xn - 5) := by
              rw [hEt, Nat.pow_add, Nat.mul_assoc]
          _ = (roundSig 6 x.num x.den).1 * 10 ^ (Xn - 5) := by rw [← hD]; rfl
          _ ≤ 340282 * 10 ^ 33 := h6
          _ ≤ fltMax := fltMax_ge.1
    · rw [hdig]
      calc M ≤ (roundSig precision x.num x.den).1 := hML
        _ ≤ 10 ^ 6 := by rw [← hp6]; exact Nat.le_of_lt hhi
        _ ≤ fltMax := fltMax_ge.2

theorem convertToFloat_putFloat (x : F32) (hx : F32.Finite x) :
    convertToFloat (putFloat x) = (readBack x, false) := by
  obtain ⟨ht, hwf⟩ := putFloat_eq_text x hx
  have hp := parseDecimal_text _ hwf
  have he := putFloatText_toF32_expo x hx
  have hinf : (putFloatText x).decimal.toF32.isInf = false := by
    simp only [Fp.isInf, decide_eq_false_iff_not]
    intro h
    have : binary32.expMax = 255 := by decide
    omega
  have key : convertToFloat (putFloat x) = ((putFloatText x).decimal.toF32, false) := by
    unfold convertToFloat
    rw [ht, hp]
    simp only [hinf, Bool.false_eq_true, if_false]
  unfold readBack
  rw [key]

theorem dropWhile_space (ws r : List Char) (hws : ∀ c ∈ ws, isSpaceC c = true)
    (hr : ∀ c r', r = c :: r' → isSpaceC c = false) :
    (ws ++ r).dropWhile isSpaceC = r := by
  induction ws with
  | nil =>
    cases r with
    | nil => rfl
    | cons c r' => simp [List.dropWhile, hr c r' rfl]
  | cons a ws ih =>
    have ha := hws a (List.mem_cons_self _ _)
    simp only [List.cons_append, List.dropWhile, ha]
    exact ih (fun c hc => hws c (List.mem_cons_of_mem _ hc))

theorem digit_not_space (c : Char) (h : isDigitC c = true) : isSpaceC c = false := by
  simp only [isDigitC, isSpaceC, decide_eq_true_eq, decide_eq_false_iff_not] at *
  omega

theorem text_head (t : FloatText) (ht : t.WF) (rest : List Char) :
    ∃ c r, t.text ++ rest = c :: r ∧ isSpaceC c = false := by
  obtain ⟨⟨c, r, hip, _⟩, hd, _, _⟩ := ht
  unfold FloatText.text FloatText.body
  by_cases hn : t.neg = true
  · refine ⟨'-', t.ip ++ ((if t.fp = [] then [] else '.' :: t.fp) ++ FloatText.expText t.ex)
      ++ rest, ?_, by decide⟩
    rw [if_pos hn]; rfl
  · refine ⟨c, r ++ ((if t.fp = [] then [] else '.' :: t.fp) ++ FloatText.expText t.ex)
      ++ rest, ?_, digit_not_space c (hd c ?_)⟩
    · rw [if_neg hn, hip]; rfl
    · rw [hip]; exact List.mem_cons_self _ _

theorem sentry_text (ws tok : List Char) (hws : ∀ c ∈ ws, isSpaceC c = true)
    (htok : ∃ c r, tok = c :: r ∧ isSpaceC c = false) :
    (IStream.mk (ws ++ tok) false false).sentry = (IStream.mk tok false false, true) := by
  obtain ⟨c, r, hcr, hc⟩ := htok
  have hd : (ws ++ tok).dropWhile isSpaceC = tok :=
    dropWhile_space ws tok hws (fun c' r' h => by
      rw [hcr] at h; cases h; exact hc)
  unfold IStream.sentry IStream.good
  simp only [Bool.not_false, Bool.and_self, if_true, hd]
  rw [if_neg (by rw [hcr]; exact List.cons_ne_nil _ _)]

theorem separator_stops (w r : List Char) (hw : IsSeparator w) :
    StopsScan (w ++ r) ∧ decide (w ++ r = []) = false := by
  obtain ⟨hne, hsp⟩ := hw
  cases w with
  | nil => exact absurd rfl hne
  | cons a w =>
    refine ⟨?_, by simp⟩
    intro c r' h
    simp only [List.cons_append, List.cons.injEq] at h
    have ha := hsp a (List.mem_cons_self _ _)
    rw [← h.1]
    simp only [isSpaceC, isFloatStop, isDigitC, decide_eq_true_eq, Bool.and_eq_true,
      Bool.not_eq_true', decide_eq_false_iff_not, bne_iff_ne, ne_eq] at ha ⊢
    have hv : a.toNat ≠ 46 ∧ a.toNat ≠ 101 ∧ a.toNat ≠ 69 ∧ a.toNat ≠ 43 ∧ a.toNat ≠ 45 ∧
        ¬ (48 ≤ a.toNat ∧ a.toNat ≤ 57) := by omega
    refine ⟨⟨⟨⟨⟨hv.2.2.2.2.2, ?_⟩, ?_⟩, ?_⟩, ?_⟩, ?_⟩ <;> intro he <;> subst he
    · exact hv.1 rfl
    · exact hv.2.1 rfl
    · exact hv.2.2.1 rfl
    · exact hv.2.2.2.1 rfl
    · exact hv.2.2.2.2.1 rfl

theorem stop_not_digit (rest : List Char) (hr : StopsScan rest) :
    ∀ c r', rest = c :: r' → isDigitC c = false := by
  intro c r' h
  have := hr c r' h
  simp only [isFloatStop, Bool.and_eq_true, Bool.not_eq_true'] at this
  exact this.1.1.1.1.1

theorem scanLong_putBool (b : Bool) (rest : List Char) (hr : StopsScan rest) :
    scanLong (putBool b ++ rest) = ((if b then 1 else 0 : Int), false, rest) := by
  have hd := stop_not_digit rest hr
  have htd := takeWhile_digits (putBool b) rest
    (by intro c hc; cases b <;> (simp only [putBool, List.mem_singleton] at hc; subst hc; decide)) hd
  have hrs : readSign (putBool b ++ rest) = (false, putBool b ++ rest) := by
    cases b <;> rfl
  unfold scanLong
  simp only [hrs, htd.1, htd.2]
  cases b <;> simp [putBool, digitsToNat, digitVal, digitChar, LONG_MAX]

theorem getBool_field (b : Bool) (ws rest : List Char)
    (hws : ∀ c ∈ ws, isSpaceC c = true) (hr : StopsScan rest) (old : Bool) :
    (IStream.mk (ws ++ (putBool b ++ rest)) false false).getBool old
      = (b, IStream.mk rest (decide (rest = [])) false) := by
  have hs := sentry_text ws (putBool b ++ rest) hws
    ⟨digitChar (if b then 1 else 0), rest, rfl, by cases b <;> decide⟩
  unfold IStream.getBool
  simp only [hs, if_true, scanLong_putBool b rest hr]
  cases b <;> simp

theorem getBool_sep (b : Bool) (ws w r : List Char)
    (hws : ∀ c ∈ ws, isSpaceC c = true) (hw : IsSeparator w) (old : Bool) :
    (IStream.mk (ws ++ (putBool b ++ (w ++ r))) false false).getBool old
      = (b, IStream.mk (w ++ r) false false) := by
  obtain ⟨h1, h2⟩ := separator_stops w r hw
  rw [getBool_field b ws (w ++ r) hws h1 old, h2]

theorem getFloat_token (tok : List Char) (htok : FloatToken tok) (ws rest : List Char)
    (hws : ∀ c ∈ ws, isSpaceC c = true) (hr : StopsScan rest) (old : F32) :
    (IStream.mk (ws ++ (tok ++ rest)) false false).getFloat old
      = ((convertToFloat tok).1, IStream.mk rest (decide (rest = [])) false) := by
  obtain ⟨t, hwf, ht, hc⟩ := htok
  have hs := sentry_text ws (tok ++ rest) hws (by rw [ht]; exact text_head _ hwf rest)
  have hsc : scanFloat (tok ++ rest) = (tok, rest) := by
    rw [ht]; exact scanFloat_text _ hwf rest hr
  unfold IStream.getFloat
  simp only [hs, if_true, hsc, hc]

theorem getFloat_token_sep (tok : List Char) (htok : FloatToken tok) (ws w r : List Char)
    (hws : ∀ c ∈ ws, isSpaceC c = true) (hw : IsSeparator w) (old : F32) :
    (IStream.mk (ws ++ (tok ++ (w ++ r))) false false).getFloat old
      = ((convertToFloat tok).1, IStream.mk (w ++ r) false false) := by
  obtain ⟨h1, h2⟩ := separator_stops w r hw
  rw [getFloat_token tok htok ws (w ++ r) hws h1 old, h2]

theorem putFloat_token (x : F32) (hx : F32.Finite x) : FloatToken (putFloat x) := by
  obtain ⟨ht, hwf⟩ := putFloat_eq_text x hx
  exact ⟨putFloatText x, hwf, ht, by rw [convertToFloat_putFloat x hx]⟩

theorem load_fileLayout (t : ProgramState) (lead : List Char) (tok sep : Nat → List Char)
    (b : Bool) (hlead : ∀ c ∈ lead, isSpaceC c = true)
    (hsep : ∀ i, i < 9 → IsSeparator (sep i)) (hend : StopsScan (sep 9))
    (htok : ∀ i, i < 10 → i ≠ 3 → FloatToken (tok i)) (hb : tok 3 = putBool b) :
    t.LoadFromFile (some (fileLayout lead tok sep))
      = { t with
          clearColor := { x := (convertToFloat (tok 0)).1, y := (convertToFloat (tok 1)).1,
                          z := (convertToFloat (tok 2)).1 }
          ImGuiEnabled := b
          camera := { t.camera with
            Position := { x := (convertToFloat (tok 4)).1, y := (convertToFloat (tok 5)).1,
                          z := (convertToFloat (tok 6)).1 }
            Front := { x := (convertToFloat (tok 7)).1, y := (convertToFloat (tok 8)).1,
                       z := (convertToFloat (tok 9)).1 } } } := by
  have e0 := fun (r : List Char) (old : F32) => getFloat_token_sep (tok 0) (htok 0 (by decide) (by decide)) lead
    (sep 0) r hlead (hsep 0 (by decide)) old
  have e1 := fun (r : List Char) (old : F32) => getFloat_token_sep (tok 1) (htok 1 (by decide) (by decide)) (sep 0)
    (sep 1) r (hsep 0 (by decide)).2 (hsep 1 (by decide)) old
  have e2 := fun (r : List Char) (old : F32) => getFloat_token_sep (tok 2) (htok 2 (by decide) (by decide)) (sep 1)
    (sep 2) r (hsep 1 (by decide)).2 (hsep 2 (by decide)) old
  have e3 := fun (r : List Char) (old : Bool) => getBool_sep b (sep 2) (sep 3) r (hsep 2 (by decide)).2
    (hsep 3 (by decide)) old
  have e4 := fun (r : List Char) (old : F32) => getFloat_token_sep (tok 4) (htok 4 (by decide) (by decide)) (sep 3)
    (sep 4) r (hsep 3 (by decide)).2 (hsep 4 (by decide)) old
  have e5 := fun (r : List Char) (old : F32) => getFloat_token_sep (tok 5) (htok 5 (by decide) (by decide)) (sep 4)
    (sep 5) r (hsep 4 (by decide)).2 (hsep 5 (by decide)) old
  have e6 := fun (r : List Char) (old : F32) => getFloat_token_sep (tok 6) (htok 6 (by decide) (by decide)) (sep 5)
    (sep 6) r (hsep 5 (by decide)).2 (hsep 6 (by decide)) old
  have e7 := fun (r : List Char) (old : F32) => getFloat_token_sep (tok 7) (htok 7 (by decide) (by decide)) (sep 6)
    (sep 7) r (hsep 6 (by decide)).2 (hsep 7 (by decide)) old
  have e8 := fun (r : List Char) (old : F32) => getFloat_token_sep (tok 8) (htok 8 (by decide) (by decide)) (sep 7)
    (sep 8) r (hsep 7 (by decide)).2 (hsep 8 (by decide)) old
  have e9 := fun (old : F32) => getFloat_token (tok 9) (htok 9 (by decide) (by decide)) (sep 8)
    (sep 9) (hsep 8 (by decide)).2 hend old
  unfold ProgramState.LoadFromFile fileLayout
  simp only [hb, e0, e1, e2, e3, e4, e5, e6, e7, e8, e9]

theorem SaveToFile_eq_fileLayout (s : ProgramState) :
    s.SaveToFile = fileLayout [] s.fieldText (fun _ => [newline]) := by
  simp only [ProgramState.SaveToFile, fileLayout, ProgramState.fieldText, List.append_assoc,
    List.nil_append]

theorem newline_separator : IsSeparator [newline] :=
  ⟨List.cons_ne_nil _ _, by intro c hc; simp only [List.mem_singleton] at hc; subst hc; decide⟩

theorem load_saved (s t : ProgramState) (hs : s.PersistedFinite) :
    t.LoadFromFile (some s.SaveToFile) = s.restored t := by
  obtain ⟨h0, h1, h2, h4, h5, h6, h7, h8, h9⟩ := hs
  rw [SaveToFile_eq_fileLayout,
    load_fileLayout t [] s.fieldText (fun _ => [newline]) s.ImGuiEnabled
      (by intro c hc; cases hc) (fun _ _ => newline_separator)
      (by intro c r h; cases h; decide) ?_ rfl]
  · rfl
  · intro i hi h3
    have : i = 0 ∨ i = 1 ∨ i = 2 ∨ i = 4 ∨ i = 5 ∨ i = 6 ∨ i = 7 ∨ i = 8 ∨ i = 9 := by omega
    rcases this with h | h | h | h | h | h | h | h | h <;> subst h
    · exact putFloat_token _ h0
    · exact putFloat_token _ h1
    · exact putFloat_token _ h2
    · exact putFloat_token _ h4
    · exact putFloat_token _ h5
    · exact putFloat_token _ h6
    · exact putFloat_token _ h7
    · exact putFloat_token _ h8
    · exact putFloat_token _ h9

theorem text_chars (t : FloatText) (ht : t.WF) :
    t.text ≠ [] ∧ ∀ c ∈ t.text, isSpaceC c = false := by
  obtain ⟨c0, r0, h0, h0'⟩ := text_head t ht []
  refine ⟨fun h => by simp [h] at h0, ?_⟩
  obtain ⟨_, hip, hfp, hex⟩ := ht
  intro c hc
  unfold FloatText.text FloatText.body at hc
  simp only [List.mem_append] at hc
  rcases hc with hc | hc | hc | hc
  · split at hc
    · simp only [List.mem_singleton] at hc; subst hc; decide
    · cases hc
  · exact digit_not_space c (hip c hc)
  · split at hc
    · cases hc
    · simp only [List.mem_cons] at hc
      rcases hc with hc | hc
      · subst hc; decide
      · exact digit_not_space c (hfp c hc)
  · cases hx : t.ex with
    | none => rw [hx] at hc; cases hc
    | some p =>
      obtain ⟨n, ds⟩ := p
      rw [hx] at hc
      simp only [FloatText.expText, List.mem_cons] at hc
      rcases hc with hc | hc | hc
      · subst hc; decide
      · subst hc; cases n <;> decide
      · exact digit_not_space c ((hex n ds hx).2 c hc)

theorem putFloat_chars (x : F32) : putFloat x ≠ [] ∧ ∀ c ∈ putFloat x, isSpaceC c = false := by
  by_cases hnan : x.isNaN = true
  · have : putFloat x = (if x.sign then ['-'] else []) ++ ['n', 'a', 'n'] := by
      unfold putFloat; rw [if_pos hnan]
    rw [this]
    cases x.sign <;> exact ⟨by simp, by decide⟩
  · by_cases hinf : x.isInf = true
    · have : putFloat x = (if x.sign then ['-'] else []) ++ ['i', 'n', 'f'] := by
        unfold putFloat; rw [if_neg hnan, if_pos hinf]
      rw [this]
      cases x.sign <;> exact ⟨by simp, by decide⟩
    · obtain ⟨ht, hwf⟩ := putFloat_text_of x (by simpa using hnan) (by simpa using hinf)
      rw [ht]
      exact text_chars _ hwf

theorem putBool_chars (b : Bool) : putBool b ≠ [] ∧ ∀ c ∈ putBool b, isSpaceC c = false := by
  cases b <;> exact ⟨by simp [putBool], by decide⟩

/-! ## Claims on the persisted state -/

set_option maxRecDepth 100000 in
/-- C1 (counterexample): the claim fails for a state whose camera is at `x = 1/3`. The member
is the `float` with exponent field 125 and fraction field 2796203; `SaveToFile` writes it with
six significant digits as `0.333333`; `LoadFromFile` on the file just written stores the `float`
nearest to that decimal, whose fraction field is 2796191. -/
theorem save_load_loses_digits :
    movedState.camera.Position.x = { sign := false, expo := 125, frac := 2796203 } ∧
    putFloat movedState.camera.Position.x = ['0', '.', '3', '3', '3', '3', '3', '3'] ∧
    (movedState.LoadFromFile (some movedState.SaveToFile)).camera.Position.x
      = { sign := false, expo := 125, frac := 2796191 } ∧
    (movedState.LoadFromFile (some movedState.SaveToFile)).camera.Position.x
      ≠ movedState.camera.Position.x := by
  decide

/-- C1 (amended): for every program state `s` whose nine persisted floats are finite and are
each the `float` that their own written text (six significant digits, the default formatting)
reads back as, `SaveToFile` followed by `LoadFromFile` on the file just written, into any
`ProgramState` object `t`, reproduces the ten field values bit for bit: `clearColor` r, g, b,
`ImGuiEnabled`, `camera.Position` x, y, z and `camera.Front` x, y, z. -/
theorem save_load_round_trip (s t : ProgramState) (h : s.SixDigitExact) :
    (t.LoadFromFile (some s.SaveToFile)).clearColor.x = s.clearColor.x ∧
    (t.LoadFromFile (some s.SaveToFile)).clearColor.y = s.clearColor.y ∧
    (t.LoadFromFile (some s.SaveToFile)).clearColor.z = s.clearColor.z ∧
    (t.LoadFromFile (some s.SaveToFile)).ImGuiEnabled = s.ImGuiEnabled ∧
    (t.LoadFromFile (some s.SaveToFile)).camera.Position.x = s.camera.Position.x ∧
    (t.LoadFromFile (some s.SaveToFile)).camera.Position.y = s.camera.Position.y ∧
    (t.LoadFromFile (some s.SaveToFile)).camera.Position.z = s.camera.Position.z ∧
    (t.LoadFromFile (some s.SaveToFile)).camera.Front.x = s.camera.Front.x ∧
    (t.LoadFromFile (some s.SaveToFile)).camera.Front.y = s.camera.Front.y ∧
    (t.LoadFromFile (some s.SaveToFile)).camera.Front.z = s.camera.Front.z := by
  obtain ⟨hf, h0, h1, h2, h4, h5, h6, h7, h8, h9⟩ := h
  rw [load_saved s t hf]
  exact ⟨h0, h1, h2, rfl, h4, h5, h6, h7, h8, h9⟩

set_option maxRecDepth 100000 in
/-- C1 (witness): the amended claim at the state `tidyState`, which is written as
`0.5 0.25 0.1 1 1.5 -2 3 0 0.6 -0.8`, loaded into a fresh `ProgramState`. -/
theorem save_load_round_trip_witness :
    tidyState.SixDigitExact ∧
    (freshState.LoadFromFile (some tidyState.SaveToFile)).clearColor.z = tidyState.clearColor.z ∧
    (freshState.LoadFromFile (some tidyState.SaveToFile)).camera.Front.z
      = tidyState.camera.Front.z :=
  ⟨by decide, (save_load_round_trip tidyState freshState (by decide)).2.2.1,
    (save_load_round_trip tidyState freshState (by decide)).2.2.2.2.2.2.2.2.2⟩

/-- C7: `SaveToFile` writes the texts of ten members and nothing else, each followed by one
line feed, in the order `clearColor` r, g, b, `ImGuiEnabled` (as `0` or `1`),
`camera.Position` x, y, z, `camera.Front` x, y, z; no field text is empty or has white space
in it. `LoadFromFile` reads ten white-space separated fields into the same ten members in the
same order: for a file of ten fields `tok 0 .. tok 9`, field 3 being the text of the flag `b`
and the others floating constants that convert without overflow, with any white space `lead` in
front, any non-empty white space `sep i` after field `i < 9` and anything that stops the scan
after the last, it stores the value of `tok 0`, `tok 1`, `tok 2` in `clearColor`, `b` in
`ImGuiEnabled`, the values of `tok 4`, `tok 5`, `tok 6` in `camera.Position` and those of
`tok 7`, `tok 8`, `tok 9` in `camera.Front`, and changes nothing else. -/
theorem save_format_and_load_order (s t : ProgramState) (lead : List Char)
    (tok sep : Nat → List Char) (b : Bool) (hlead : ∀ c ∈ lead, isSpaceC c = true)
    (hsep : ∀ i, i < 9 → IsSeparator (sep i)) (hend : StopsScan (sep 9))
    (htok : ∀ i, i < 10 → i ≠ 3 → FloatToken (tok i)) (hb : tok 3 = putBool b) :
    (s.SaveToFile
      = ([putFloat s.clearColor.x, putFloat s.clearColor.y, putFloat s.clearColor.z,
          putBool s.ImGuiEnabled,
          putFloat s.camera.Position.x, putFloat s.camera.Position.y,
          putFloat s.camera.Position.z,
          putFloat s.camera.Front.x, putFloat s.camera.Front.y, putFloat s.camera.Front.z].map
          (fun field => field ++ [newline])).flatten ∧
     putBool s.ImGuiEnabled = [if s.ImGuiEnabled then '1' else '0'] ∧
     ∀ i, i < 10 → s.fieldText i ≠ [] ∧ ∀ c ∈ s.fieldText i, isSpaceC c = false) ∧
    t.LoadFromFile (some (fileLayout lead tok sep))
      = { t with
          clearColor := { x := (convertToFloat (tok 0)).1, y := (convertToFloat (tok 1)).1,
                          z := (convertToFloat (tok 2)).1 }
          ImGuiEnabled := b
          camera := { t.camera with
            Position := { x := (convertToFloat (tok 4)).1, y := (convertToFloat (tok 5)).1,
                          z := (convertToFloat (tok 6)).1 }
            Front := { x := (convertToFloat (tok 7)).1, y := (convertToFloat (tok 8)).1,
                       z := (convertToFloat (tok 9)).1 } } } := by
  refine ⟨⟨?_, ?_, ?_⟩, load_fileLayout t lead tok sep b hlead hsep hend htok hb⟩
  · simp only [ProgramState.SaveToFile, List.map, List.flatten, List.append_assoc,
      List.append_nil]
  · cases s.ImGuiEnabled <;> rfl
  · intro i hi
    have : i = 0 ∨ i = 1 ∨ i = 2 ∨ i = 3 ∨ i = 4 ∨ i = 5 ∨ i = 6 ∨ i = 7 ∨ i = 8 ∨ i = 9 := by
      omega
    rcases this with h | h | h | h | h | h | h | h | h | h <;> subst h
    · exact putFloat_chars _
    · exact putFloat_chars _
    · exact putFloat_chars _
    · exact putBool_chars _
    · exact putFloat_chars _
    · exact putFloat_chars _
    · exact putFloat_chars _
    · exact putFloat_chars _
    · exact putFloat_chars _
    · exact putFloat_chars _

set_option maxRecDepth 100000 in
/-- C7 (witness): the claim at the state `tidyState` and the file
`  12.5 -2e+1<LF><TAB>12.5 1<LF><TAB>12.5 -2e+1 ...` of ten hand-written fields with blanks, line
feeds and tabs between them, loaded into a fresh `ProgramState`: the flag becomes `true` and
`clearColor.y` becomes the value of the second field. -/
theorem save_format_and_load_order_witness :
    (∀ i, i < 9 → IsSeparator (sampleSep i)) ∧
    (∀ i, i < 10 → i ≠ 3 → FloatToken (sampleTok i)) ∧
    sampleTok 3 = putBool true ∧
    (freshState.LoadFromFile (some (fileLayout [' ', ' '] sampleTok sampleSep))).ImGuiEnabled
      = true ∧
    (freshState.LoadFromFile (some (fileLayout [' ', ' '] sampleTok sampleSep))).clearColor.y
      = (convertToFloat ['-', '2', 'e', '+', '1']).1 :=
  have hsep : ∀ i, i < 9 → IsSeparator (sampleSep i) := by decide
  have htok : ∀ i, i < 10 → i ≠ 3 → FloatToken (sampleTok i) := by
    intro i _ h3
    unfold sampleTok
    rw [if_neg h3]
    by_cases h : i % 2 = 0
    · rw [if_pos h]
      exact ⟨⟨false, ['1', '2'], ['5'], none⟩,
        ⟨⟨'1', ['2'], rfl, Or.inl (by decide)⟩, by decide, by decide,
          by intro n ds h; cases h⟩, rfl, by decide⟩
    · rw [if_neg h]
      exact ⟨⟨true, ['2'], [], some (false, ['1'])⟩,
        ⟨⟨'2', [], rfl, Or.inr rfl⟩, by decide, by decide,
          by intro n ds h; cases h; exact ⟨by decide, by decide⟩⟩, rfl, by decide⟩
  have hend : StopsScan (sampleSep 9) := by
    intro c r h
    have h' : ([] : List Char) = c :: r := h
    cases h'
  ⟨hsep, htok, rfl,
    congrArg (fun p => p.ImGuiEnabled)
      (save_format_and_load_order tidyState freshState [' ', ' '] sampleTok sampleSep true
        (by decide) hsep hend htok rfl).2,
    congrArg (fun p => p.clearColor.y)
      (save_format_and_load_order tidyState freshState [' ', ' '] sampleTok sampleSep true
        (by decide) hsep hend htok rfl).2⟩

set_option maxRecDepth 100000 in
/-- C8 (counterexample): the claim fails for `backpackScale`. A state whose backpack scale is
`2` is saved to the very file a fresh state is saved to, and loading that file into a fresh
`ProgramState` leaves its backpack scale at the initial `1`. -/
theorem backpack_scale_not_persisted :
    scaledState.backpackScale = F32.ofNat 2 ∧ freshState.backpackScale = F32.ofNat 1 ∧
    scaledState.SaveToFile = freshState.SaveToFile ∧
    (freshState.LoadFromFile (some scaledState.SaveToFile)).backpackScale = F32.ofNat 1 ∧
    (freshState.LoadFromFile (some scaledState.SaveToFile)).backpackScale
      ≠ scaledState.backpackScale := by
  decide

/-- C8 (amended): of the fields of the program-state bundle, the background colour, the
ImGui-visibility flag and the camera position and front vector are persisted; the backpack
position and scale, the point light and everything else are not. For a state `s` whose nine
persisted floats are finite and are each the `float` their written text reads back as, what
`SaveToFile` writes, loaded by `LoadFromFile` into a `ProgramState` `t`, gives `t` with
`clearColor`, `ImGuiEnabled`, `camera.Position` and `camera.Front` of `s` and every other
member as it is in `t`; and the file does not depend on any other member of `s`. -/
theorem persisted_members (s t : ProgramState) (h : s.SixDigitExact) :
    t.LoadFromFile (some s.SaveToFile)
      = { t with
          clearColor := s.clearColor
          ImGuiEnabled := s.ImGuiEnabled
          camera := { t.camera with Position := s.camera.Position, Front := s.camera.Front } } ∧
    ∀ s' : ProgramState, s'.clearColor = s.clearColor → s'.ImGuiEnabled = s.ImGuiEnabled →
      s'.camera.Position = s.camera.Position → s'.camera.Front = s.camera.Front →
      s'.SaveToFile = s.SaveToFile := by
  obtain ⟨hf, h0, h1, h2, h4, h5, h6, h7, h8, h9⟩ := h
  refine ⟨?_, ?_⟩
  · rw [load_saved s t hf]
    unfold ProgramState.restored
    rw [h0, h1, h2, h4, h5, h6, h7, h8, h9]
  · intro s' a b c d
    unfold ProgramState.SaveToFile
    rw [a, b, c, d]

set_option maxRecDepth 100000 in
/-- C8 (witness): the amended claim at `tidyState`, loaded into the state with the backpack
scaled to `2`: the scale stays `2` and the clear colour becomes that of `tidyState`. -/
theorem persisted_members_witness :
    tidyState.SixDigitExact ∧
    (scaledState.LoadFromFile (some tidyState.SaveToFile)).backpackScale = F32.ofNat 2 ∧
    (scaledState.LoadFromFile (some tidyState.SaveToFile)).clearColor = tidyState.clearColor :=
  ⟨by decide,
    congrArg (fun p => p.backpackScale) (persisted_members tidyState scaledState (by decide)).1,
    congrArg (fun p => p.clearColor) (persisted_members tidyState scaledState (by decide)).1⟩

/-! ## More on the input handlers -/

/-- What a pass of the render loop does to `bBloom`. -/
theorem frame_bBloom (api : CameraApi) (inp : FrameInput) (w : World) (g : Ctx) :
    (frame api inp (w, g)).1.bBloom
      = (if inp.getKey GLFW_KEY_H = GLFW_PRESS then !w.bBloom else w.bBloom) := by
  have hb : (frame api inp (w, g)).1.bBloom
      = (processInput api inp.getKey
          { w with deltaTime := (inp.time.convert binary32).sub w.lastFrame,
                   lastFrame := inp.time.convert binary32 }).bBloom := by
    unfold frame
    simp only []
    rw [handleEvents_bBloom]
    split <;> rfl
  exact hb.trans (processInput_bBloom api inp.getKey _)

/-- The camera calls and the camera after one key test of `processInput`. -/
theorem keyMove_calls (api : CameraApi) (getKey : Int → Int) (key : Int)
    (direction : Camera_Movement) (w : World) :
    (w.keyMove api getKey key direction).cameraCalls
      = w.cameraCalls ++ (if getKey key = GLFW_PRESS
          then [CameraCall.ProcessKeyboard direction w.deltaTime] else []) ∧
    (w.keyMove api getKey key direction).programState.camera
      = (if getKey key = GLFW_PRESS
          then api (CameraCall.ProcessKeyboard direction w.deltaTime) w.programState.camera
          else w.programState.camera) := by
  unfold World.keyMove
  by_cases h : getKey key = GLFW_PRESS
  · simp only [h, if_true]; exact ⟨rfl, rfl⟩
  · simp only [h, if_false, List.append_nil, and_self]

/-- The statement on `H` at the end of `processInput` writes `bBloom` only. -/
theorem bloomToggle_proj (getKey : Int → Int) (w : World) :
    (if getKey GLFW_KEY_H = GLFW_PRESS then
        (if w.bBloom then { w with bBloom := false } else { w with bBloom := true })
      else w).cameraCalls = w.cameraCalls ∧
    (if getKey GLFW_KEY_H = GLFW_PRESS then
        (if w.bBloom then { w with bBloom := false } else { w with bBloom := true })
      else w).shouldClose = w.shouldClose ∧
    (if getKey GLFW_KEY_H = GLFW_PRESS then
        (if w.bBloom then { w with bBloom := false } else { w with bBloom := true })
      else w).programState = w.programState := by
  by_cases hH : getKey GLFW_KEY_H = GLFW_PRESS <;> cases hb : w.bBloom <;>
    simp [hH, hb]

/-- The statement on `Escape` at the start of `processInput` writes the close flag only. -/
theorem escape_proj (getKey : Int → Int) (w : World) :
    (if getKey GLFW_KEY_ESCAPE = GLFW_PRESS then { w with shouldClose := true } else w).cameraCalls
      = w.cameraCalls ∧
    (if getKey GLFW_KEY_ESCAPE = GLFW_PRESS then { w with shouldClose := true } else w).deltaTime
      = w.deltaTime ∧
    (if getKey GLFW_KEY_ESCAPE = GLFW_PRESS then { w with shouldClose := true }
      else w).programState = w.programState ∧
    (if getKey GLFW_KEY_ESCAPE = GLFW_PRESS then { w with shouldClose := true } else w).shouldClose
      = (w.shouldClose || decide (getKey GLFW_KEY_ESCAPE = GLFW_PRESS)) := by
  by_cases h : getKey GLFW_KEY_ESCAPE = GLFW_PRESS <;> simp [h]

theorem filter_map_cons {α β : Type} (p : α → Bool) (f : α → β) (a : α) (l : List α) :
    ((a :: l).filter p).map f = (if p a = true then [f a] else []) ++ (l.filter p).map f := by
  by_cases h : p a = true
  · simp [List.filter_cons, h]
  · simp [List.filter_cons, h]

/-- The camera calls `processInput` issues, the camera they leave and the close flag. -/
theorem processInput_calls (api : CameraApi) (getKey : Int → Int) (w : World) :
    (processInput api getKey w).cameraCalls
      = w.cameraCalls ++ (movementKeys.filter (fun p => decide (getKey p.1 = GLFW_PRESS))).map
          (fun p => CameraCall.ProcessKeyboard p.2 w.deltaTime) ∧
    (processInput api getKey w).shouldClose
      = (w.shouldClose || decide (getKey GLFW_KEY_ESCAPE = GLFW_PRESS)) := by
  obtain ⟨e1, e2, -, e4⟩ := escape_proj getKey w
  refine ⟨?_, ?_⟩
  · refine (bloomToggle_proj getKey _).1.trans ?_
    simp only [keyMove_calls, keyMove_proj, e1, e2, movementKeys, filter_map_cons,
      decide_eq_true_eq, List.filter_nil, List.map_nil, List.append_nil, List.append_assoc]
  · refine (bloomToggle_proj getKey _).2.1.trans ?_
    simp only [keyMove_proj, e4]

/-- The cursor mode fits the overlay at start-up. -/
theorem startup_cursor (file : Option (List Char)) (camera : Camera) (pointLight : PointLight) :
    (startup file camera pointLight).CursorFitsOverlay := by
  unfold World.CursorFitsOverlay
  rw [startup_programState]
  have e : startup file camera pointLight
      = (if ((ProgramState.new camera pointLight).LoadFromFile file).ImGuiEnabled = true then
          World.setCursorMode GLFW_CURSOR_NORMAL
            { World.setCursorMode GLFW_CURSOR_DISABLED
                (World.globals (ProgramState.new camera pointLight)) with
              programState := (ProgramState.new camera pointLight).LoadFromFile file }
         else
            { World.setCursorMode GLFW_CURSOR_DISABLED
                (World.globals (ProgramState.new camera pointLight)) with
              programState := (ProgramState.new camera pointLight).LoadFromFile file }) := rfl
  rw [e]
  by_cases h : ((ProgramState.new camera pointLight).LoadFromFile file).ImGuiEnabled = true
  · rw [if_pos h, if_pos h]; rfl
  · rw [if_neg h, if_neg h]; rfl

/-- After an `F1` press the cursor mode fits the overlay; any other key event keeps the fit. -/
theorem key_callback_cursor (key scancode action mods : Int) (w : World) :
    (key = GLFW_KEY_F1 ∧ action = GLFW_PRESS →
      (key_callback key scancode action mods w).CursorFitsOverlay) ∧
    (w.CursorFitsOverlay → (key_callback key scancode action mods w).CursorFitsOverlay) := by
  obtain ⟨-, -, h1, -, h3⟩ := key_callback_proj key scancode action mods w
  unfold World.CursorFitsOverlay
  rw [h1, h3]
  by_cases h : key = GLFW_KEY_F1 ∧ action = GLFW_PRESS
  · simp only [h, and_self, if_true]
    cases w.programState.ImGuiEnabled <;> simp
  · simp only [h, if_false, false_implies, true_and, imp_self]

/-- Every event keeps the fit of cursor mode and overlay. -/
theorem handleEvents_cursor (api : CameraApi) (es : List Event) (w : World)
    (h : w.CursorFitsOverlay) : (handleEvents api es w).CursorFitsOverlay := by
  induction es generalizing w with
  | nil => exact h
  | cons e es ih =>
    show (handleEvents api es (e.handle api w)).CursorFitsOverlay
    apply ih
    cases e with
    | key k s a m => exact (key_callback_cursor k s a m w).2 h
    | cursorPos x y =>
      obtain ⟨-, h1, -, h2, -⟩ := mouse_callback_proj api x y w
      unfold World.CursorFitsOverlay at h ⊢
      show (mouse_callback api x y w).cursorMode
        = if (mouse_callback api x y w).programState.ImGuiEnabled then _ else _
      rw [h1, h2]; exact h
    | scroll x y => exact h

/-- The members `mouse_callback` writes, and the call it issues. -/
theorem mouse_callback_spec (api : CameraApi) (xpos ypos : F64) (w : World) :
    (mouse_callback api xpos ypos w).lastX = xpos.convert binary32 ∧
    (mouse_callback api xpos ypos w).lastY = ypos.convert binary32 ∧
    (mouse_callback api xpos ypos w).firstMouse = false ∧
    (mouse_callback api xpos ypos w).cameraCalls
      = w.cameraCalls ++
        (if w.programState.CameraMouseMovementUpdateEnabled then
          [CameraCall.ProcessMouseMovement
            ((xpos.sub ((w.refX xpos).convert binary64)).convert binary32)
            ((((w.refY ypos).convert binary64).sub ypos).convert binary32)]
         else []) := by
  unfold mouse_callback World.refX World.refY
  cases hF : w.firstMouse <;> cases hC : w.programState.CameraMouseMovementUpdateEnabled <;>
    simp [hF, hC, World.callCamera]

set_option maxRecDepth 100000 in
set_option exponentiation.threshold 2000 in
/-- A finite `double` minus itself is `+0`, and that narrows to the `float` `+0`. -/
theorem sub_self_narrow (x : F64) (hx : x.isFinite = true) :
    (x.sub x).convert binary32 = F32.zero := by
  have h : x.expo < binary64.expMax := by simpa [Fp.isFinite] using hx
  have hn : x.isNaN = false := by
    simp only [Fp.isNaN, decide_eq_false_iff_not]; intro h'; omega
  have hi : x.isInf = false := by
    simp only [Fp.isInf, decide_eq_false_iff_not]; intro h'; omega
  have hs : x.sub x = Fp.zero binary64 false := by
    unfold Fp.sub
    simp [hn, hi]
  rw [hs]
  decide

/-- `processInput` leaves the two overlay members of the program state as they are. -/
theorem processInput_flags (api : CameraApi) (getKey : Int → Int) (w : World) :
    (processInput api getKey w).programState.ImGuiEnabled = w.programState.ImGuiEnabled ∧
    (processInput api getKey w).programState.CameraMouseMovementUpdateEnabled
      = w.programState.CameraMouseMovementUpdateEnabled := by
  obtain ⟨-, -, e3, -⟩ := escape_proj getKey w
  refine ⟨?_, ?_⟩
  · refine (congrArg (fun p => p.ImGuiEnabled) (bloomToggle_proj getKey _).2.2).trans ?_
    simp only [keyMove_proj, e3]
  · refine (congrArg (fun p => p.CameraMouseMovementUpdateEnabled)
      (bloomToggle_proj getKey _).2.2).trans ?_
    simp only [keyMove_proj, e3]

/-- What a pass of the render loop does to `CameraMouseMovementUpdateEnabled`: while the
overlay is shown `DrawImGui` stores what the checkbox holds, and the events of the pass clear
the flag when one of them opens the overlay. -/
theorem frame_mouseUpdate (api : CameraApi) (inp : FrameInput) (w : World) (g : Ctx) :
    (frame api inp (w, g)).1.programState.CameraMouseMovementUpdateEnabled
      = ((if w.programState.ImGuiEnabled then
            (inp.edit (processInput api inp.getKey
              { w with deltaTime := (inp.time.convert binary32).sub w.lastFrame,
                       lastFrame := inp.time.convert binary32 }).programState
              ).CameraMouseMovementUpdateEnabled
          else w.programState.CameraMouseMovementUpdateEnabled) &&
          !overlayOpened w.programState.ImGuiEnabled inp.events) := by
  obtain ⟨p1, p2⟩ := processInput_flags api inp.getKey
    { w with deltaTime := (inp.time.convert binary32).sub w.lastFrame,
             lastFrame := inp.time.convert binary32 }
  have p1' : (processInput api inp.getKey
      { w with deltaTime := (inp.time.convert binary32).sub w.lastFrame,
               lastFrame := inp.time.convert binary32 }).programState.ImGuiEnabled
      = w.programState.ImGuiEnabled := p1
  have p2' : (processInput api inp.getKey
      { w with deltaTime := (inp.time.convert binary32).sub w.lastFrame,
               lastFrame := inp.time.convert binary32 }).programState.CameraMouseMovementUpdateEnabled
      = w.programState.CameraMouseMovementUpdateEnabled := p2
  unfold frame
  simp only []
  rw [handleEvents_mouseUpdate]
  cases hE : w.programState.ImGuiEnabled
  · rw [hE] at p1'
    simp only [p1', p2', Bool.false_eq_true, if_false]
  · rw [hE] at p1'
    simp only [p1', if_true, DrawImGui]

/-! ## Claims on the input handlers -/

/-- C11: a call of `processInput` negates `bBloom` exactly when `glfwGetKey` reports `H` as
pressed at that poll and leaves it unchanged otherwise; the test is on the key state, once per
pass of the render loop, so two consecutive passes with `H` held leave `bBloom` as it was before
them. -/
theorem processInput_bloom_toggle (api : CameraApi) (getKey : Int → Int) (w : World)
    (inp1 inp2 : FrameInput) (g : Ctx) :
    (getKey GLFW_KEY_H = GLFW_PRESS → (processInput api getKey w).bBloom = !w.bBloom) ∧
    (getKey GLFW_KEY_H ≠ GLFW_PRESS → (processInput api getKey w).bBloom = w.bBloom) ∧
    (inp1.getKey GLFW_KEY_H = GLFW_PRESS → inp2.getKey GLFW_KEY_H = GLFW_PRESS →
      (frame api inp1 (w, g)).1.bBloom = !w.bBloom ∧
      (frame api inp2 (frame api inp1 (w, g))).1.bBloom = w.bBloom) := by
  have h := processInput_bBloom api getKey w
  refine ⟨fun hH => by rw [h, if_pos hH], fun hH => by rw [h, if_neg hH], ?_⟩
  intro h1 h2
  have e1 := frame_bBloom api inp1 w g
  rw [if_pos h1] at e1
  have e2 := frame_bBloom api inp2 (frame api inp1 (w, g)).1 (frame api inp1 (w, g)).2
  rw [if_pos h2, e1, Bool.not_not] at e2
  exact ⟨e1, e2⟩

/-- C11 (witness): with the key table `keysHWD`, in which `H` is down, one call of
`processInput` on the start-up state turns bloom off, and two passes of the render loop leave
it on. -/
theorem processInput_bloom_toggle_witness :
    keysHWD GLFW_KEY_H = GLFW_PRESS ∧
    (processInput CameraApi.inert keysHWD sampleWorld).bBloom = !sampleWorld.bBloom ∧
    (frame CameraApi.inert sampleInput
      (frame CameraApi.inert sampleInput (sampleWorld, Ctx.afterSetup))).1.bBloom
      = sampleWorld.bBloom :=
  ⟨by decide,
    (processInput_bloom_toggle CameraApi.inert keysHWD sampleWorld sampleInput sampleInput
      Ctx.afterSetup).1 (by decide),
    ((processInput_bloom_toggle CameraApi.inert keysHWD sampleWorld sampleInput sampleInput
      Ctx.afterSetup).2.2 (by decide) (by decide)).2⟩

/-- C12: the camera calls `processInput` issues are, in this order, one
`ProcessKeyboard(direction, deltaTime)` for each pressed key among `W` (`FORWARD`), `S`
(`BACKWARD`), `A` (`LEFT`), `D` (`RIGHT`), `SPACE` (`UP`) and `X` (`DOWN`), with the current
`deltaTime`, and nothing else: each of the six calls occurs once when its key is pressed and not
at all when it is not, whatever the other keys are. The close flag of the window is set exactly
when `Escape` is pressed (and stays as it was otherwise). -/
theorem processInput_movement (api : CameraApi) (getKey : Int → Int) (w : World) :
    (∃ new, (processInput api getKey w).cameraCalls = w.cameraCalls ++ new ∧
      new = ([(GLFW_KEY_W, Camera_Movement.FORWARD), (GLFW_KEY_S, Camera_Movement.BACKWARD),
              (GLFW_KEY_A, Camera_Movement.LEFT), (GLFW_KEY_D, Camera_Movement.RIGHT),
              (GLFW_KEY_SPACE, Camera_Movement.UP), (GLFW_KEY_X, Camera_Movement.DOWN)].filter
              (fun p => decide (getKey p.1 = GLFW_PRESS))).map
            (fun p => CameraCall.ProcessKeyboard p.2 w.deltaTime) ∧
      ∀ p ∈ movementKeys, new.count (CameraCall.ProcessKeyboard p.2 w.deltaTime)
        = (if getKey p.1 = GLFW_PRESS then 1 else 0)) ∧
    (getKey GLFW_KEY_ESCAPE = GLFW_PRESS → (processInput api getKey w).shouldClose = true) ∧
    (getKey GLFW_KEY_ESCAPE ≠ GLFW_PRESS →
      (processInput api getKey w).shouldClose = w.shouldClose) := by
  obtain ⟨hc, hs⟩ := processInput_calls api getKey w
  refine ⟨⟨_, hc, rfl, ?_⟩, ?_, ?_⟩
  · intro p hp
    simp only [movementKeys, List.mem_cons, List.mem_singleton, List.not_mem_nil, or_false] at hp
    simp only [movementKeys, filter_map_cons, decide_eq_true_eq, List.filter_nil, List.map_nil,
      List.append_nil, List.count_append]
    rcases hp with h | h | h | h | h | h <;> subst h <;>
      by_cases hW : getKey GLFW_KEY_W = GLFW_PRESS <;>
      by_cases hS : getKey GLFW_KEY_S = GLFW_PRESS <;>
      by_cases hA : getKey GLFW_KEY_A = GLFW_PRESS <;>
      by_cases hD : getKey GLFW_KEY_D = GLFW_PRESS <;>
      by_cases hP : getKey GLFW_KEY_SPACE = GLFW_PRESS <;>
      by_cases hX : getKey GLFW_KEY_X = GLFW_PRESS <;>
      simp [hW, hS, hA, hD, hP, hX]
  · intro h; rw [hs]; simp [h]
  · intro h; rw [hs]; simp [h]

/-- C12 (witness): with the key table `keysHWD` (`W` and `D` down, `Escape` up) the calls
issued on the start-up state are `FORWARD`, then `RIGHT`, and the window is not asked to
close. -/
theorem processInput_movement_witness :
    keysHWD GLFW_KEY_ESCAPE ≠ GLFW_PRESS ∧
    (processInput CameraApi.inert keysHWD sampleWorld).shouldClose = sampleWorld.shouldClose ∧
    (processInput CameraApi.inert keysHWD sampleWorld).cameraCalls
      = [CameraCall.ProcessKeyboard Camera_Movement.FORWARD sampleWorld.deltaTime,
         CameraCall.ProcessKeyboard Camera_Movement.RIGHT sampleWorld.deltaTime] :=
  ⟨by decide,
    (processInput_movement CameraApi.inert keysHWD sampleWorld).2.2 (by decide),
    by decide⟩

set_option maxRecDepth 100000 in
/-- C16: when the state file cannot be opened `LoadFromFile` leaves the whole `ProgramState` as
it is, so a first run starts from what the constructor sets: clear colour `(0, 0, 0)`,
`ImGuiEnabled` false, camera position `(0, 0, 3)`. Whatever the file holds, `LoadFromFile`
leaves `backpackPosition`, `backpackScale`, `pointLight` and
`CameraMouseMovementUpdateEnabled` as they are. -/
theorem LoadFromFile_missing_file (s : ProgramState) (file : Option (List Char))
    (camera : Camera) (pointLight : PointLight) :
    s.LoadFromFile none = s ∧
    (startup none camera pointLight).programState = ProgramState.new camera pointLight ∧
    ((ProgramState.new camera pointLight).LoadFromFile none).clearColor
      = { x := F32.zero, y := F32.zero, z := F32.zero } ∧
    ((ProgramState.new camera pointLight).LoadFromFile none).ImGuiEnabled = false ∧
    ((ProgramState.new camera pointLight).LoadFromFile none).camera.Position
      = { x := F32.zero, y := F32.zero, z := { sign := false, expo := 128, frac := 4194304 } } ∧
    (s.LoadFromFile file).backpackPosition = s.backpackPosition ∧
    (s.LoadFromFile file).backpackScale = s.backpackScale ∧
    (s.LoadFromFile file).pointLight = s.pointLight ∧
    (s.LoadFromFile file).CameraMouseMovementUpdateEnabled
      = s.CameraMouseMovementUpdateEnabled := by
  obtain ⟨h1, h2, h3, h4⟩ := LoadFromFile_frame file s
  have h3f : F32.ofNat 3 = { sign := false, expo := 128, frac := 4194304 } := by decide
  refine ⟨rfl, startup_programState none camera pointLight, rfl, rfl, ?_, h2, h3, h4, h1⟩
  show ({ x := F32.zero, y := F32.zero, z := F32.ofNat 3 } : Vec3) = _
  rw [h3f]

/-- C17: the cursor mode is `NORMAL` exactly when `ImGuiEnabled` is true and `DISABLED`
exactly when it is false, after start-up (the load of the state file followed by the fix-up of
the cursor mode) and in every state reached from there through events; every `key_callback`
event keeps this, and an `F1` press establishes it from any state. -/
theorem cursor_mode_invariant (api : CameraApi) (file : Option (List Char)) (camera : Camera)
    (pointLight : PointLight) (es : List Event) (key scancode action mods : Int) (w : World) :
    (((startup file camera pointLight).cursorMode = GLFW_CURSOR_NORMAL ↔
        (startup file camera pointLight).programState.ImGuiEnabled = true) ∧
     ((startup file camera pointLight).cursorMode = GLFW_CURSOR_DISABLED ↔
        (startup file camera pointLight).programState.ImGuiEnabled = false)) ∧
    (((handleEvents api es (startup file camera pointLight)).cursorMode = GLFW_CURSOR_NORMAL ↔
        (handleEvents api es (startup file camera pointLight)).programState.ImGuiEnabled
          = true) ∧
     ((handleEvents api es (startup file camera pointLight)).cursorMode
          = GLFW_CURSOR_DISABLED ↔
        (handleEvents api es (startup file camera pointLight)).programState.ImGuiEnabled
          = false)) ∧
    (w.CursorFitsOverlay → (key_callback key scancode action mods w).CursorFitsOverlay) ∧
    (key = GLFW_KEY_F1 ∧ action = GLFW_PRESS →
      (key_callback key scancode action mods w).CursorFitsOverlay) := by
  have fit : ∀ v : World, v.CursorFitsOverlay →
      (v.cursorMode = GLFW_CURSOR_NORMAL ↔ v.programState.ImGuiEnabled = true) ∧
      (v.cursorMode = GLFW_CURSOR_DISABLED ↔ v.programState.ImGuiEnabled = false) := by
    intro v hv
    unfold World.CursorFitsOverlay at hv
    rw [hv]
    cases v.programState.ImGuiEnabled <;> decide
  exact ⟨fit _ (startup_cursor file camera pointLight),
    fit _ (handleEvents_cursor api es _ (startup_cursor file camera pointLight)),
    (key_callback_cursor key scancode action mods w).2,
    (key_callback_cursor key scancode action mods w).1⟩

/-- C17 (witness): the state after start-up without state file and one `F1` press has the
overlay shown and the cursor mode `NORMAL`, and a release of `F1` keeps the fit. -/
theorem cursor_mode_invariant_witness :
    (handleEvents CameraApi.inert [f1Press] sampleWorld).CursorFitsOverlay ∧
    (key_callback GLFW_KEY_F1 0 GLFW_RELEASE 0
      (handleEvents CameraApi.inert [f1Press] sampleWorld)).CursorFitsOverlay :=
  ⟨by decide,
    (cursor_mode_invariant CameraApi.inert none sampleCamera sampleLight [] GLFW_KEY_F1 0
      GLFW_RELEASE 0 (handleEvents CameraApi.inert [f1Press] sampleWorld)).2.2.1 (by decide)⟩

/-- C18: `key_callback` never sets `CameraMouseMovementUpdateEnabled`: the member is true
after a key event only if it was true before; an `F1` press that opens the overlay clears it;
after any sequence of events in which some `F1` press opens the overlay it is false; and two
consecutive `F1` presses give back `ImGuiEnabled` and, in a state reached from start-up, the
cursor mode, while `CameraMouseMovementUpdateEnabled` is false after them. -/
theorem key_callback_never_enables_mouse (api : CameraApi) (key scancode action mods : Int)
    (w : World) (es : List Event) (file : Option (List Char)) (camera : Camera)
    (pointLight : PointLight) :
    ((key_callback key scancode action mods w).programState.CameraMouseMovementUpdateEnabled
        = true → w.programState.CameraMouseMovementUpdateEnabled = true) ∧
    (key = GLFW_KEY_F1 ∧ action = GLFW_PRESS ∧ w.programState.ImGuiEnabled = false →
      (key_callback key scancode action mods w).programState.CameraMouseMovementUpdateEnabled
        = false) ∧
    (overlayOpened w.programState.ImGuiEnabled es = true →
      (handleEvents api es w).programState.CameraMouseMovementUpdateEnabled = false) ∧
    ((key_callback GLFW_KEY_F1 scancode GLFW_PRESS mods
        (key_callback GLFW_KEY_F1 scancode GLFW_PRESS mods w)).programState.ImGuiEnabled
      = w.programState.ImGuiEnabled ∧
     (key_callback GLFW_KEY_F1 scancode GLFW_PRESS mods
        (key_callback GLFW_KEY_F1 scancode GLFW_PRESS mods
          w)).programState.CameraMouseMovementUpdateEnabled = false) ∧
    (key_callback GLFW_KEY_F1 scancode GLFW_PRESS mods
        (key_callback GLFW_KEY_F1 scancode GLFW_PRESS mods
          (handleEvents api es (startup file camera pointLight)))).cursorMode
      = (handleEvents api es (startup file camera pointLight)).cursorMode := by
  obtain ⟨-, -, h1, h2, h3⟩ := key_callback_proj key scancode action mods w
  have two : ∀ v : World,
      (key_callback GLFW_KEY_F1 scancode GLFW_PRESS mods
        (key_callback GLFW_KEY_F1 scancode GLFW_PRESS mods v)).programState.ImGuiEnabled
        = v.programState.ImGuiEnabled ∧
      (key_callback GLFW_KEY_F1 scancode GLFW_PRESS mods
        (key_callback GLFW_KEY_F1 scancode GLFW_PRESS mods
          v)).programState.CameraMouseMovementUpdateEnabled = false ∧
      (key_callback GLFW_KEY_F1 scancode GLFW_PRESS mods
        (key_callback GLFW_KEY_F1 scancode GLFW_PRESS mods v)).cursorMode
        = (if v.programState.ImGuiEnabled then GLFW_CURSOR_NORMAL else GLFW_CURSOR_DISABLED) := by
    intro v
    obtain ⟨-, -, a1, a2, a3⟩ := key_callback_proj GLFW_KEY_F1 scancode GLFW_PRESS mods v
    obtain ⟨-, -, b1, b2, b3⟩ := key_callback_proj GLFW_KEY_F1 scancode GLFW_PRESS mods
      (key_callback GLFW_KEY_F1 scancode GLFW_PRESS mods v)
    rw [b1, b2, b3, a1, a2]
    cases v.programState.ImGuiEnabled <;> simp
  refine ⟨?_, ?_, ?_, ⟨(two w).1, (two w).2.1⟩, ?_⟩
  · rw [h2]
    by_cases h : key = GLFW_KEY_F1 ∧ action = GLFW_PRESS ∧ w.programState.ImGuiEnabled = false
    · simp [h]
    · simp [h]
  · intro h
    rw [h2, if_pos h]
  · intro h
    rw [handleEvents_mouseUpdate, h]
    simp
  · rw [(two _).2.2]
    exact (handleEvents_cursor api es _ (startup_cursor file camera pointLight)).symm

/-- C18 (witness): on the start-up state, where the overlay is hidden, an `F1` press clears
`CameraMouseMovementUpdateEnabled`, and so does the sequence of two `F1` presses. -/
theorem key_callback_never_enables_mouse_witness :
    sampleWorld.programState.ImGuiEnabled = false ∧
    (key_callback GLFW_KEY_F1 0 GLFW_PRESS 0
      sampleWorld).programState.CameraMouseMovementUpdateEnabled = false ∧
    (handleEvents CameraApi.inert [f1Press, f1Press]
      sampleWorld).programState.CameraMouseMovementUpdateEnabled = false :=
  ⟨by decide,
    (key_callback_never_enables_mouse CameraApi.inert GLFW_KEY_F1 0 GLFW_PRESS 0 sampleWorld
      [f1Press, f1Press] none sampleCamera sampleLight).2.1 ⟨rfl, rfl, by decide⟩,
    (key_callback_never_enables_mouse CameraApi.inert GLFW_KEY_F1 0 GLFW_PRESS 0 sampleWorld
      [f1Press, f1Press] none sampleCamera sampleLight).2.2.1 (by decide)⟩

set_option maxRecDepth 100000 in
set_option exponentiation.threshold 3000 in
/-- C19 (counterexample): the first mouse event after start-up, at `(640.1, 480)`. The
position `x` is a `double` that is no `float`: `lastX` is set to its narrowing, the offset is
taken in `double` against that and narrowed, and the call issued has `xoffset` about `2.44e-5`
(exponent field 111, fraction field 5033165), not `0`; and `lastX` widened is not the event's
`x`. -/
theorem first_mouse_offset_not_zero :
    sampleWorld.firstMouse = true ∧
    (mouse_callback CameraApi.inert subPixelX centreY sampleWorld).cameraCalls
      = [CameraCall.ProcessMouseMovement { sign := false, expo := 111, frac := 5033165 }
          F32.zero] ∧
    (mouse_callback CameraApi.inert subPixelX centreY sampleWorld).cameraCalls
      ≠ [CameraCall.ProcessMouseMovement F32.zero F32.zero] ∧
    (mouse_callback CameraApi.inert subPixelX centreY sampleWorld).lastX.convert binary64
      ≠ subPixelX := by
  decide

/-- C19 (amended): `mouse_callback` calls `ProcessMouseMovement(xoffset, yoffset)`, when
`CameraMouseMovementUpdateEnabled` is set, with `xoffset = xpos - lastX` and
`yoffset = lastY - ypos` (y reversed), the differences taken in `double` against the stored
position and narrowed to `float`; on the first event the stored position is first set to the
event's position narrowed to `float`, so the offsets are `(0, 0)` when both coordinates are
finite and are `float` values, and `firstMouse` is cleared; after every call `lastX` and
`lastY` hold the event's position narrowed to `float`, also when
`CameraMouseMovementUpdateEnabled` is false and no call is issued. -/
theorem mouse_callback_offsets (api : CameraApi) (xpos ypos : F64) (w : World) :
    ((mouse_callback api xpos ypos w).lastX = xpos.convert binary32 ∧
     (mouse_callback api xpos ypos w).lastY = ypos.convert binary32 ∧
     (mouse_callback api xpos ypos w).firstMouse = false) ∧
    (w.programState.CameraMouseMovementUpdateEnabled = false →
      (mouse_callback api xpos ypos w).cameraCalls = w.cameraCalls) ∧
    (w.programState.CameraMouseMovementUpdateEnabled = true → w.firstMouse = false →
      (mouse_callback api xpos ypos w).cameraCalls
        = w.cameraCalls ++ [CameraCall.ProcessMouseMovement
            ((xpos.sub (w.lastX.convert binary64)).convert binary32)
            (((w.lastY.convert binary64).sub ypos).convert binary32)]) ∧
    (w.programState.CameraMouseMovementUpdateEnabled = true → w.firstMouse = true →
      (mouse_callback api xpos ypos w).cameraCalls
        = w.cameraCalls ++ [CameraCall.ProcessMouseMovement
            ((xpos.sub ((xpos.convert binary32).convert binary64)).convert binary32)
            ((((ypos.convert binary32).convert binary64).sub ypos).convert binary32)] ∧
      (F64.IsFloat xpos → F64.IsFloat ypos →
        (mouse_callback api xpos ypos w).cameraCalls
          = w.cameraCalls ++ [CameraCall.ProcessMouseMovement F32.zero F32.zero])) := by
  obtain ⟨h1, h2, h3, h4⟩ := mouse_callback_spec api xpos ypos w
  refine ⟨⟨h1, h2, h3⟩, ?_, ?_, ?_⟩
  · intro hC
    rw [h4, hC]
    simp
  · intro hC hF
    rw [h4, hC, if_pos rfl]
    unfold World.refX World.refY
    rw [hF]
    simp
  · intro hC hF
    have e : (mouse_callback api xpos ypos w).cameraCalls
        = w.cameraCalls ++ [CameraCall.ProcessMouseMovement
            ((xpos.sub ((xpos.convert binary32).convert binary64)).convert binary32)
            ((((ypos.convert binary32).convert binary64).sub ypos).convert binary32)] := by
      rw [h4, hC, if_pos rfl]
      unfold World.refX World.refY
      rw [hF]
      simp
    refine ⟨e, ?_⟩
    intro hx hy
    rw [e, hx.2, hy.2, sub_self_narrow xpos hx.1, sub_self_narrow ypos hy.1]

set_option maxRecDepth 100000 in
set_option exponentiation.threshold 3000 in
/-- C19 (witness): the first mouse event after start-up, at `(100, 200)`, both of them `float`
values: the call issued has the offsets `(0, 0)`. -/
theorem mouse_callback_offsets_witness :
    sampleWorld.programState.CameraMouseMovementUpdateEnabled = true ∧
    sampleWorld.firstMouse = true ∧ F64.IsFloat sampleX ∧ F64.IsFloat sampleY ∧
    (mouse_callback CameraApi.inert sampleX sampleY sampleWorld).cameraCalls
      = sampleWorld.cameraCalls ++ [CameraCall.ProcessMouseMovement F32.zero F32.zero] :=
  ⟨by decide, by decide, by decide, by decide,
    ((mouse_callback_offsets CameraApi.inert sampleX sampleY sampleWorld).2.2.2
      (by decide) (by decide)).2 (by decide) (by decide)⟩

/-- C9 (amended): in every state, and so in every state the program reaches from start-up
through key events, mouse events and passes of the render loop, a mouse move handled by
`mouse_callback` is forwarded to the camera (one `ProcessMouseMovement` call) exactly when
`CameraMouseMovementUpdateEnabled` is true, with the overlay hidden as well as shown, and
issues no call when it is false. The flag is true at start-up; a sequence of events leaves it
true exactly when it was true and no `F1` press of the sequence opened the overlay (hiding the
overlay does not set it back); and a pass of the render loop stores in it what the overlay's
checkbox holds while the overlay is shown, before the events of the pass. -/
theorem mouse_forwarding (api : CameraApi) (w : World) (xpos ypos : F64) (es : List Event)
    (inp : FrameInput) (g : Ctx) (file : Option (List Char)) (camera : Camera)
    (pointLight : PointLight) :
    (w.programState.CameraMouseMovementUpdateEnabled = true →
      ∃ xoffset yoffset, (mouse_callback api xpos ypos w).cameraCalls
        = w.cameraCalls ++ [CameraCall.ProcessMouseMovement xoffset yoffset]) ∧
    (w.programState.CameraMouseMovementUpdateEnabled = false →
      (mouse_callback api xpos ypos w).cameraCalls = w.cameraCalls) ∧
    (startup file camera pointLight).programState.CameraMouseMovementUpdateEnabled = true ∧
    (handleEvents api es w).programState.CameraMouseMovementUpdateEnabled
      = (w.programState.CameraMouseMovementUpdateEnabled &&
          !overlayOpened w.programState.ImGuiEnabled es) ∧
    (frame api inp (w, g)).1.programState.CameraMouseMovementUpdateEnabled
      = ((if w.programState.ImGuiEnabled then
            (inp.edit (processInput api inp.getKey
              { w with deltaTime := (inp.time.convert binary32).sub w.lastFrame,
                       lastFrame := inp.time.convert binary32 }).programState
              ).CameraMouseMovementUpdateEnabled
          else w.programState.CameraMouseMovementUpdateEnabled) &&
          !overlayOpened w.programState.ImGuiEnabled inp.events) := by
  have hm := (mouse_callback_proj api xpos ypos w).2.2.2.2
  refine ⟨?_, ?_, startup_mouseUpdate file camera pointLight,
    handleEvents_mouseUpdate api es w, frame_mouseUpdate api inp w g⟩
  · intro h
    rw [h] at hm
    simpa using hm
  · intro h
    rw [h] at hm
    simpa using hm

set_option maxRecDepth 100000 in
set_option exponentiation.threshold 3000 in
/-- C9 (witness): start-up without state file, an `F1` press that opens the overlay, then a
pass of the render loop in which the checkbox is ticked and `F1` hides the overlay again. The
overlay is hidden, `CameraMouseMovementUpdateEnabled` is true, and a mouse move at `(100, 200)`
is forwarded; after two `F1` presses without the checkbox the flag is false and the same mouse
move issues no call. -/
theorem mouse_forwarding_witness :
    reopenedWorld.programState.ImGuiEnabled = false ∧
    reopenedWorld.programState.CameraMouseMovementUpdateEnabled = true ∧
    (∃ xoffset yoffset, (mouse_callback CameraApi.inert sampleX sampleY reopenedWorld).cameraCalls
      = reopenedWorld.cameraCalls ++ [CameraCall.ProcessMouseMovement xoffset yoffset]) ∧
    (mouse_callback CameraApi.inert sampleX sampleY
        (handleEvents CameraApi.inert [f1Press, f1Press] sampleWorld)).cameraCalls
      = (handleEvents CameraApi.inert [f1Press, f1Press] sampleWorld).cameraCalls :=
  ⟨by decide, by decide,
    (mouse_forwarding CameraApi.inert reopenedWorld sampleX sampleY [] sampleInput
      Ctx.afterSetup none sampleCamera sampleLight).1 (by decide),
    (mouse_forwarding CameraApi.inert
      (handleEvents CameraApi.inert [f1Press, f1Press] sampleWorld) sampleX sampleY []
      sampleInput Ctx.afterSetup none sampleCamera sampleLight).2.1 (by decide)⟩

/-! ## The texture loaders -/

theorem uploadsOf_append (a b : List LoaderCall) :
    uploadsOf (a ++ b) = uploadsOf a ++ uploadsOf b := by
  induction a with
  | nil => rfl
  | cons c a ih => cases c <;> simp [uploadsOf, ih]

theorem loadsOf_append (a b : List LoaderCall) : loadsOf (a ++ b) = loadsOf a ++ loadsOf b := by
  induction a with
  | nil => rfl
  | cons c a ih => cases c <;> simp [loadsOf, ih]

/-- What `loadTexture` does when the image fails to load. -/
theorem loadTexture_none (env : Env) (path : String) (s : Sys) (h : env.stbi_load path = none) :
    loadTexture env path s
      = (env.texName s.generated,
          { calls := s.calls ++ [LoaderCall.glGenTextures (env.texName s.generated),
              LoaderCall.stbi_load path, LoaderCall.stbi_image_free none]
            out := s.out ++ [(OStream.cout, textureMessage path)]
            generated := s.generated + 1 }) := by
  unfold loadTexture
  rw [h]
  simp [Sys.genTexture, Sys.call, Sys.write, textureMessage]

/-- What `loadTexture` does when the image loads. -/
theorem loadTexture_some (env : Env) (path : String) (s : Sys) (data : Image)
    (h : env.stbi_load path = some data) :
    loadTexture env path s
      = (env.texName s.generated,
          { calls := s.calls ++ [LoaderCall.glGenTextures (env.texName s.generated),
              LoaderCall.stbi_load path,
              LoaderCall.glBindTexture GL_TEXTURE_2D (env.texName s.generated),
              LoaderCall.glTexImage2D GL_TEXTURE_2D 0 (textureFormat data.nrComponents)
                data.width data.height 0 (textureFormat data.nrComponents) GL_UNSIGNED_BYTE data,
              LoaderCall.glGenerateMipmap GL_TEXTURE_2D,
              LoaderCall.glTexParameteri GL_TEXTURE_2D GL_TEXTURE_WRAP_S
                (wrapMode (textureFormat data.nrComponents)),
              LoaderCall.glTexParameteri GL_TEXTURE_2D GL_TEXTURE_WRAP_T
                (wrapMode (textureFormat data.nrComponents)),
              LoaderCall.glTexParameteri GL_TEXTURE_2D GL_TEXTURE_MIN_FILTER
                (some GL_LINEAR_MIPMAP_LINEAR),
              LoaderCall.glTexParameteri GL_TEXTURE_2D GL_TEXTURE_MAG_FILTER (some GL_LINEAR),
              LoaderCall.stbi_image_free (some data)]
            out := s.out
            generated := s.generated + 1 }) := by
  unfold loadTexture
  rw [h]
  simp [Sys.genTexture, Sys.call]

/-- What `loadTexture` writes and how it counts. -/
theorem loadTexture_out (env : Env) (path : String) (s : Sys) :
    (loadTexture env path s).2.out = s.out ++ textureReport env path ∧
    (loadTexture env path s).2.generated = s.generated + 1 := by
  unfold textureReport
  cases h : env.stbi_load path with
  | none => rw [loadTexture_none env path s h]; exact ⟨rfl, rfl⟩
  | some data => rw [loadTexture_some env path s data h]; simp

/-- The loop of `loadCubemap` over a run of faces that load. -/
theorem loadCubemapLoop_ok (env : Env) (pre rest : List String) (i : Nat) (s : Sys)
    (h : ∀ f ∈ pre, env.stbi_load f ≠ none) :
    loadCubemapLoop env (pre ++ rest) i s
      = loadCubemapLoop env rest (i + pre.length)
          { s with calls := s.calls ++ okCalls env pre i } := by
  induction pre generalizing i s with
  | nil => simp [okCalls]
  | cons f pre ih =>
    have hf := h f (List.mem_cons_self _ _)
    cases hd : env.stbi_load f with
    | none => exact absurd hd hf
    | some data =>
      have step : loadCubemapLoop env (f :: (pre ++ rest)) i s
          = loadCubemapLoop env (pre ++ rest) (i + 1)
              { s with calls := s.calls ++ faceCalls i f data } := by
        rw [loadCubemapLoop]
        simp [hd, Sys.call, faceCalls]
      rw [List.cons_append, step, ih (i + 1) _ (fun g hg => h g (List.mem_cons_of_mem _ hg))]
      simp only [okCalls, hd, List.length_cons, List.append_assoc]
      congr 1
      omega

/-- The loop of `loadCubemap` at a face that fails to load. -/
theorem loadCubemapLoop_fail (env : Env) (f : String) (post : List String) (i : Nat) (s : Sys)
    (h : env.stbi_load f = none) :
    loadCubemapLoop env (f :: post) i s
      = (some minusOneUnsigned,
          { calls := s.calls ++ [LoaderCall.stbi_load f]
            out := s.out ++ [(OStream.cerr, "Failed to load cube map texture face\n")]
            generated := s.generated }) := by
  rw [loadCubemapLoop]
  simp only [h, Sys.call, Sys.write]

theorem loadsOf_okCalls (env : Env) (pre : List String) (i : Nat)
    (h : ∀ f ∈ pre, env.stbi_load f ≠ none) : loadsOf (okCalls env pre i) = pre := by
  induction pre generalizing i with
  | nil => rfl
  | cons f pre ih =>
    have hf := h f (List.mem_cons_self _ _)
    cases hd : env.stbi_load f with
    | none => exact absurd hd hf
    | some data =>
      simp only [okCalls, hd, loadsOf_append, faceCalls, loadsOf,
        ih (i + 1) (fun g hg => h g (List.mem_cons_of_mem _ hg))]
      rfl

theorem uploadsOf_okCalls (env : Env) (pre : List String) (i : Nat)
    (h : ∀ f ∈ pre, env.stbi_load f ≠ none) :
    (uploadsOf (okCalls env pre i)).length = pre.length ∧
    ∀ j face data, pre[j]? = some face → env.stbi_load face = some data →
      (uploadsOf (okCalls env pre i))[j]? = some (GL_TEXTURE_CUBE_MAP_POSITIVE_X + (i + j), data) := by
  induction pre generalizing i with
  | nil => exact ⟨rfl, fun j face data hj => by simp at hj⟩
  | cons f pre ih =>
    have hf := h f (List.mem_cons_self _ _)
    obtain ⟨ih1, ih2⟩ := ih (i + 1) (fun g hg => h g (List.mem_cons_of_mem _ hg))
    cases hd : env.stbi_load f with
    | none => exact absurd hd hf
    | some d =>
      have e : uploadsOf (okCalls env (f :: pre) i)
          = (GL_TEXTURE_CUBE_MAP_POSITIVE_X + i, d) :: uploadsOf (okCalls env pre (i + 1)) := by
        simp only [okCalls, hd, uploadsOf_append, faceCalls, uploadsOf]
        rfl
      rw [e]
      refine ⟨by simp [ih1], ?_⟩
      intro j face data hj hl
      cases j with
      | zero =>
        simp only [List.getElem?_cons_zero, Option.some.injEq] at hj
        subst hj
        rw [hd] at hl
        cases hl
        simp
      | succ j =>
        simp only [List.getElem?_cons_succ] at hj ⊢
        rw [ih2 j face data hj hl]
        congr 2
        omega

theorem all_loaded_iff (env : Env) (faces : List String) :
    faces.all (fun f => (env.stbi_load f).isSome) = true ↔ ∀ f ∈ faces, env.stbi_load f ≠ none := by
  simp only [List.all_eq_true, Option.isSome_iff_ne_none]

/-- What the loop of `loadCubemap` writes and how it counts. -/
theorem loadCubemapLoop_out (env : Env) (faces : List String) (i : Nat) (s : Sys) :
    (loadCubemapLoop env faces i s).2.out = s.out ++ cubemapReport env faces ∧
    (loadCubemapLoop env faces i s).2.generated = s.generated := by
  induction faces generalizing i s with
  | nil => simp [loadCubemapLoop, cubemapReport]
  | cons f faces ih =>
    cases hd : env.stbi_load f with
    | none =>
      rw [loadCubemapLoop_fail env f faces i s hd]
      simp [cubemapReport, hd]
    | some data =>
      have step : loadCubemapLoop env (f :: faces) i s
          = loadCubemapLoop env faces (i + 1)
              { s with calls := s.calls ++ faceCalls i f data } := by
        rw [loadCubemapLoop]
        simp [hd, Sys.call, faceCalls]
      rw [step]
      obtain ⟨h1, h2⟩ := ih (i + 1) { s with calls := s.calls ++ faceCalls i f data }
      rw [h1, h2]
      simp [cubemapReport, hd]

theorem cubemapParameters_proj (s : Sys) :
    (cubemapParameters s).out = s.out ∧ (cubemapParameters s).generated = s.generated ∧
    (cubemapParameters s).calls = s.calls ++
      [LoaderCall.glTexParameteri GL_TEXTURE_CUBE_MAP GL_TEXTURE_MAG_FILTER (some GL_LINEAR),
       LoaderCall.glTexParameteri GL_TEXTURE_CUBE_MAP GL_TEXTURE_MIN_FILTER (some GL_LINEAR),
       LoaderCall.glTexParameteri GL_TEXTURE_CUBE_MAP GL_TEXTURE_WRAP_S (some GL_CLAMP_TO_EDGE),
       LoaderCall.glTexParameteri GL_TEXTURE_CUBE_MAP GL_TEXTURE_WRAP_T (some GL_CLAMP_TO_EDGE),
       LoaderCall.glTexParameteri GL_TEXTURE_CUBE_MAP GL_TEXTURE_WRAP_R
         (some GL_CLAMP_TO_EDGE)] := by
  simp [cubemapParameters, Sys.call]

/-- What `loadCubemap` writes. -/
theorem loadCubemap_out (env : Env) (faces : List String) (s : Sys) :
    (loadCubemap env faces s).2.out = s.out ++ cubemapReport env faces := by
  have h := (loadCubemapLoop_out env faces 0
    (Sys.call (LoaderCall.glBindTexture GL_TEXTURE_CUBE_MAP (s.genTexture env).1)
      (s.genTexture env).2)).1
  unfold loadCubemap
  simp only []
  split
  · rw [h]; rfl
  · rw [(cubemapParameters_proj _).1, h]; rfl

/-- `loadCubemap` when every face loads. -/
theorem loadCubemap_ok (env : Env) (faces : List String) (s : Sys)
    (h : ∀ f ∈ faces, env.stbi_load f ≠ none) :
    (loadCubemap env faces s).1 = env.texName s.generated ∧
    (loadCubemap env faces s).2.calls
      = s.calls ++ ([LoaderCall.glGenTextures (env.texName s.generated),
          LoaderCall.glBindTexture GL_TEXTURE_CUBE_MAP (env.texName s.generated)]
        ++ okCalls env faces 0 ++
        [LoaderCall.glTexParameteri GL_TEXTURE_CUBE_MAP GL_TEXTURE_MAG_FILTER (some GL_LINEAR),
         LoaderCall.glTexParameteri GL_TEXTURE_CUBE_MAP GL_TEXTURE_MIN_FILTER (some GL_LINEAR),
         LoaderCall.glTexParameteri GL_TEXTURE_CUBE_MAP GL_TEXTURE_WRAP_S (some GL_CLAMP_TO_EDGE),
         LoaderCall.glTexParameteri GL_TEXTURE_CUBE_MAP GL_TEXTURE_WRAP_T (some GL_CLAMP_TO_EDGE),
         LoaderCall.glTexParameteri GL_TEXTURE_CUBE_MAP GL_TEXTURE_WRAP_R
           (some GL_CLAMP_TO_EDGE)]) := by
  have e := loadCubemapLoop_ok env faces [] 0
    (Sys.call (LoaderCall.glBindTexture GL_TEXTURE_CUBE_MAP (s.genTexture env).1)
      (s.genTexture env).2) h
  rw [List.append_nil] at e
  unfold loadCubemap
  simp only [e, loadCubemapLoop, (cubemapParameters_proj _).2.2]
  simp [Sys.genTexture, Sys.call]

/-- `loadCubemap` when the face after `pre` is the first that fails to load. -/
theorem loadCubemap_fail (env : Env) (pre : List String) (f : String) (post : List String)
    (s : Sys) (h : ∀ g ∈ pre, env.stbi_load g ≠ none) (hf : env.stbi_load f = none) :
    (loadCubemap env (pre ++ f :: post) s).1 = minusOneUnsigned ∧
    (loadCubemap env (pre ++ f :: post) s).2.calls
      = s.calls ++ ([LoaderCall.glGenTextures (env.texName s.generated),
          LoaderCall.glBindTexture GL_TEXTURE_CUBE_MAP (env.texName s.generated)]
        ++ okCalls env pre 0 ++ [LoaderCall.stbi_load f]) := by
  have e := loadCubemapLoop_ok env pre (f :: post) 0
    (Sys.call (LoaderCall.glBindTexture GL_TEXTURE_CUBE_MAP (s.genTexture env).1)
      (s.genTexture env).2) h
  unfold loadCubemap
  simp only [e, loadCubemapLoop_fail env f post _ _ hf]
  simp [Sys.genTexture, Sys.call]

/-- What the set-up of `main` writes once the window and the OpenGL functions are there. -/
theorem mainSetup_out (env : Env) (hw : env.windowCreated = true) (hg : env.gladLoaded = true) :
    (mainSetup env).1 = none ∧
    (mainSetup env).2.out
      = framebufferReport env.hdrComplete ++ (framebufferReport (env.pingpongComplete 0) ++
        (framebufferReport (env.pingpongComplete 1) ++
        (textureReport env (env.getPath "resources/textures/grass/grass-min.png") ++
        (textureReport env (env.getPath "resources/textures/grass/grass-min_specular.png") ++
        cubemapReport env skyboxFaces)))) := by
  have fb : ∀ (c : Bool) (s : Sys), (checkFramebuffer c s).out = s.out ++ framebufferReport c := by
    intro c s
    cases c <;> simp [checkFramebuffer, framebufferReport, Sys.write]
  unfold mainSetup
  simp only [hw, hg, Bool.not_true, Bool.false_eq_true, if_false, true_and]
  rw [loadCubemap_out, (loadTexture_out _ _ _).1, (loadTexture_out _ _ _).1, fb, fb, fb]
  simp [Sys.initial]

/-! ## Claims on the texture loaders and the failure paths -/

/-- C13: `loadCubemap` visits the faces in list order and uploads face `i` to the target
`GL_TEXTURE_CUBE_MAP_POSITIVE_X + i`. When every face loads, it loads exactly the faces of the
list, uploads one image per face and returns the texture name it generated. When the face after
the run `pre` is the first that fails to load, the faces of `pre` are uploaded as before, the
failing face is the last one handed to `stbi_load` (no later face is loaded), and the value
returned is `(unsigned int)(-1) = 4294967295`. -/
theorem loadCubemap_faces (env : Env) (faces : List String) (s : Sys) :
    ((∀ f ∈ faces, env.stbi_load f ≠ none) →
      ∃ new, (loadCubemap env faces s).2.calls = s.calls ++ new ∧
        (loadCubemap env faces s).1 = env.texName s.generated ∧
        new.head? = some (LoaderCall.glGenTextures (loadCubemap env faces s).1) ∧
        loadsOf new = faces ∧
        (uploadsOf new).length = faces.length ∧
        ∀ i face data, faces[i]? = some face → env.stbi_load face = some data →
          (uploadsOf new)[i]? = some (GL_TEXTURE_CUBE_MAP_POSITIVE_X + i, data)) ∧
    (∀ pre f post, faces = pre ++ f :: post → (∀ g ∈ pre, env.stbi_load g ≠ none) →
      env.stbi_load f = none →
      ∃ new, (loadCubemap env faces s).2.calls = s.calls ++ new ∧
        (loadCubemap env faces s).1 = 4294967295 ∧
        loadsOf new = pre ++ [f] ∧
        (uploadsOf new).length = pre.length ∧
        ∀ i face data, pre[i]? = some face → env.stbi_load face = some data →
          (uploadsOf new)[i]? = some (GL_TEXTURE_CUBE_MAP_POSITIVE_X + i, data)) := by
  constructor
  · intro h
    obtain ⟨h1, h2⟩ := loadCubemap_ok env faces s h
    obtain ⟨u1, u2⟩ := uploadsOf_okCalls env faces 0 h
    refine ⟨_, h2, h1, ?_, ?_, ?_, ?_⟩
    · rw [h1]; rfl
    · rw [loadsOf_append, loadsOf_append, loadsOf_okCalls env faces 0 h]
      exact List.append_nil _
    · rw [uploadsOf_append, uploadsOf_append]
      exact (congrArg List.length (List.append_nil _)).trans u1
    · intro i face data hi hl
      rw [uploadsOf_append, uploadsOf_append]
      refine (congrArg (fun l => l[i]?) (List.append_nil _)).trans ?_
      show (uploadsOf (okCalls env faces 0))[i]? = _
      rw [u2 i face data hi hl, Nat.zero_add]
  · intro pre f post hfaces h hf
    subst hfaces
    obtain ⟨h1, h2⟩ := loadCubemap_fail env pre f post s h hf
    obtain ⟨u1, u2⟩ := uploadsOf_okCalls env pre 0 h
    refine ⟨_, h2, ?_, ?_, ?_, ?_⟩
    · rw [h1]; decide
    · rw [loadsOf_append, loadsOf_append, loadsOf_okCalls env pre 0 h]
      rfl
    · rw [uploadsOf_append, uploadsOf_append]
      exact (congrArg List.length (List.append_nil _)).trans u1
    · intro i face data hi hl
      rw [uploadsOf_append, uploadsOf_append]
      refine (congrArg (fun l => l[i]?) (List.append_nil _)).trans ?_
      show (uploadsOf (okCalls env pre 0))[i]? = _
      rw [u2 i face data hi hl, Nat.zero_add]

/-- C13 (witness): the faces `right.jpg`, `missing.jpg`, `top.jpg`, of which the second fails
to load: the value returned is 4294967295, and `missing.jpg` is the last face loaded. -/
theorem loadCubemap_faces_witness :
    sampleEnv.stbi_load "right.jpg" ≠ none ∧ sampleEnv.stbi_load "missing.jpg" = none ∧
    ∃ new, (loadCubemap sampleEnv ["right.jpg", "missing.jpg", "top.jpg"] Sys.initial).2.calls
        = Sys.initial.calls ++ new ∧
      (loadCubemap sampleEnv ["right.jpg", "missing.jpg", "top.jpg"] Sys.initial).1
        = 4294967295 ∧
      loadsOf new = ["right.jpg"] ++ ["missing.jpg"] ∧
      (uploadsOf new).length = ["right.jpg"].length ∧
      ∀ i face data, ["right.jpg"][i]? = some face → sampleEnv.stbi_load face = some data →
        (uploadsOf new)[i]? = some (GL_TEXTURE_CUBE_MAP_POSITIVE_X + i, data) :=
  ⟨by decide, by decide,
    (loadCubemap_faces sampleEnv ["right.jpg", "missing.jpg", "top.jpg"] Sys.initial).2
      ["right.jpg"] "missing.jpg" ["top.jpg"] rfl (by decide) (by decide)⟩

/-- C14 (counterexample): a skybox face that fails to load. With `top.jpg` of the skybox
missing and everything else in order, the one message the set-up of `main` writes goes to
standard error (`std::cerr`), and nothing is written to standard output. -/
theorem cubemap_failure_goes_to_cerr :
    cubemapMissingEnv.stbi_load "resources/textures/skybox/newSkyBox/top.jpg" = none ∧
    (mainSetup cubemapMissingEnv).2.out
      = [(OStream.cerr, "Failed to load cube map texture face\n")] ∧
    (∀ e ∈ (mainSetup cubemapMissingEnv).2.out, e.1 ≠ OStream.cout) ∧
    (loadCubemap cubemapMissingEnv skyboxFaces Sys.initial).2.out
      = [(OStream.cerr, "Failed to load cube map texture face\n")] := by
  decide

/-- C14 (amended): every detected failure path writes its message to one stream and to no
other: a window creation failure, a GLAD initialisation failure, a texture file that fails to
load and an incomplete HDR or ping-pong framebuffer write to standard output, a cubemap face
that fails to load writes to standard error. Once the window and the OpenGL functions are
there, what the set-up of `main` writes is the reports of the three framebuffer checks, of the
two `loadTexture` calls and of `loadCubemap`, in this order, each empty when nothing failed. -/
theorem failure_streams (env : Env) (path : String) (faces : List String) (s : Sys) :
    (env.windowCreated = false →
      mainSetup env = (some (-1),
        { calls := [], out := [(OStream.cout, "Failed to create GLFW window\n")],
          generated := 0 })) ∧
    (env.windowCreated = true → env.gladLoaded = false →
      mainSetup env = (some (-1),
        { calls := [], out := [(OStream.cout, "Failed to initialize GLAD\n")],
          generated := 0 })) ∧
    (env.stbi_load path = none →
      (loadTexture env path s).2.out
        = s.out ++ [(OStream.cout, "Texture failed to load at path: " ++ path ++ "\n")]) ∧
    (checkFramebuffer false s).out = s.out ++ [(OStream.cout, "Framebuffer not complete!\n")] ∧
    ((∃ f ∈ faces, env.stbi_load f = none) →
      (loadCubemap env faces s).2.out
        = s.out ++ [(OStream.cerr, "Failed to load cube map texture face\n")]) ∧
    ((env.stbi_load path ≠ none → (loadTexture env path s).2.out = s.out) ∧
     (checkFramebuffer true s).out = s.out ∧
     ((∀ f ∈ faces, env.stbi_load f ≠ none) → (loadCubemap env faces s).2.out = s.out)) ∧
    (env.windowCreated = true → env.gladLoaded = true →
      (mainSetup env).1 = none ∧
      (mainSetup env).2.out
        = framebufferReport env.hdrComplete ++ (framebufferReport (env.pingpongComplete 0) ++
          (framebufferReport (env.pingpongComplete 1) ++
          (textureReport env (env.getPath "resources/textures/grass/grass-min.png") ++
          (textureReport env (env.getPath "resources/textures/grass/grass-min_specular.png") ++
          cubemapReport env skyboxFaces))))) := by
  refine ⟨?_, ?_, ?_, rfl, ?_, ⟨?_, rfl, ?_⟩, mainSetup_out env⟩
  · intro h
    unfold mainSetup
    simp [h, Sys.initial, Sys.write]
  · intro h1 h2
    unfold mainSetup
    simp [h1, h2, Sys.initial, Sys.write]
  · intro h
    rw [loadTexture_none env path s h]
    rfl
  · intro h
    rw [loadCubemap_out]
    have : ¬ (faces.all (fun f => (env.stbi_load f).isSome) = true) := by
      rw [all_loaded_iff]
      obtain ⟨f, hf, hn⟩ := h
      exact fun hall => hall f hf hn
    unfold cubemapReport
    rw [if_neg this]
  · intro h
    rw [(loadTexture_out env path s).1]
    unfold textureReport
    cases hd : env.stbi_load path with
    | none => exact absurd hd h
    | some d => simp
  · intro h
    rw [loadCubemap_out]
    have : faces.all (fun f => (env.stbi_load f).isSome) = true := (all_loaded_iff env faces).2 h
    unfold cubemapReport
    rw [if_pos this, List.append_nil]

/-- C14 (witness): in the sample outside the file `missing.jpg` fails to load; `loadTexture`
reports it on standard output and `loadCubemap` on standard error. -/
theorem failure_streams_witness :
    sampleEnv.stbi_load "missing.jpg" = none ∧
    (loadTexture sampleEnv "missing.jpg" Sys.initial).2.out
      = Sys.initial.out
        ++ [(OStream.cout, "Texture failed to load at path: " ++ "missing.jpg" ++ "\n")] ∧
    (loadCubemap sampleEnv ["right.jpg", "missing.jpg"] Sys.initial).2.out
      = Sys.initial.out ++ [(OStream.cerr, "Failed to load cube map texture face\n")] :=
  ⟨by decide,
    (failure_streams sampleEnv "missing.jpg" ["right.jpg", "missing.jpg"] Sys.initial).2.2.1
      (by decide),
    (failure_streams sampleEnv "missing.jpg" ["right.jpg", "missing.jpg"] Sys.initial).2.2.2.2.1
      ⟨"missing.jpg", by decide, by decide⟩⟩

/-- C15: `loadTexture` returns in every case, with the texture name `glGenTextures` stored as
its value, whether the image loads or not. When the image fails to load it writes the path, in
the line `Texture failed to load at path: <path>`, to standard output, and the only calls it
issues are `glGenTextures`, `stbi_load` and `stbi_image_free`: no image data is uploaded and no
texture parameter is set. -/
theorem loadTexture_missing_file (env : Env) (path : String) (s : Sys) :
    (loadTexture env path s).1 = env.texName s.generated ∧
    (∃ rest, (loadTexture env path s).2.calls
      = s.calls ++ LoaderCall.glGenTextures (loadTexture env path s).1 :: rest) ∧
    (env.stbi_load path = none →
      (loadTexture env path s).2.out
        = s.out ++ [(OStream.cout, "Texture failed to load at path: " ++ path ++ "\n")] ∧
      ∃ new, (loadTexture env path s).2.calls = s.calls ++ new ∧
        new = [LoaderCall.glGenTextures (loadTexture env path s).1, LoaderCall.stbi_load path,
               LoaderCall.stbi_image_free none] ∧
        uploadsOf new = [] ∧ parametersOf new = []) := by
  cases h : env.stbi_load path with
  | none =>
    rw [loadTexture_none env path s h]
    exact ⟨rfl, ⟨_, rfl⟩, fun _ => ⟨rfl, _, rfl, rfl, rfl, rfl⟩⟩
  | some data =>
    rw [loadTexture_some env path s data h]
    exact ⟨rfl, ⟨_, rfl⟩, fun h' => by cases h'⟩

/-- C15 (witness): in the sample outside `missing.jpg` fails to load; `loadTexture` writes the
line with the path and issues three calls, no upload among them. -/
theorem loadTexture_missing_file_witness :
    sampleEnv.stbi_load "missing.jpg" = none ∧
    (loadTexture sampleEnv "missing.jpg" Sys.initial).2.out
      = Sys.initial.out
        ++ [(OStream.cout, "Texture failed to load at path: " ++ "missing.jpg" ++ "\n")] ∧
    ∃ new, (loadTexture sampleEnv "missing.jpg" Sys.initial).2.calls = Sys.initial.calls ++ new ∧
      new = [LoaderCall.glGenTextures (loadTexture sampleEnv "missing.jpg" Sys.initial).1,
             LoaderCall.stbi_load "missing.jpg", LoaderCall.stbi_image_free none] ∧
      uploadsOf new = [] ∧ parametersOf new = [] :=
  ⟨by decide,
    (loadTexture_missing_file sampleEnv "missing.jpg" Sys.initial).2.2 (by decide)⟩

/-- The format `loadTexture` selects: `GL_RED`, `GL_RGB` and `GL_RGBA` for 1, 3 and 4
components, with the wrap mode `GL_CLAMP_TO_EDGE` for `GL_RGBA` and `GL_REPEAT` for the other
two, and no assignment for any other component count. -/
theorem textureFormat_spec (n : Int) :
    textureFormat 1 = some GL_RED ∧ textureFormat 3 = some GL_RGB ∧
    textureFormat 4 = some GL_RGBA ∧
    wrapMode (some GL_RED) = some GL_REPEAT ∧ wrapMode (some GL_RGB) = some GL_REPEAT ∧
    wrapMode (some GL_RGBA) = some GL_CLAMP_TO_EDGE ∧
    (textureFormat n = none ↔ n ≠ 1 ∧ n ≠ 3 ∧ n ≠ 4) := by
  refine ⟨rfl, rfl, rfl, by decide, by decide, by decide, ?_⟩
  unfold textureFormat
  by_cases h1 : n = 1
  · simp [h1]
  · by_cases h3 : n = 3
    · simp [h3]
    · by_cases h4 : n = 4
      · simp [h4]
      · simp [h1, h3, h4]

/-- C20 (counterexample): an image with two components (grey and alpha), which `stbi_load`
reports for a file of that kind. No branch of the chain assigns `format`, and the upload and
the two wrap-mode calls are issued with the indeterminate value. -/
theorem loadTexture_two_components_unassigned :
    sampleEnv.stbi_load "grey_alpha.png" = some (sampleImage 2) ∧
    (sampleImage 2).nrComponents = 2 ∧
    textureFormat 2 = none ∧
    (loadTexture sampleEnv "grey_alpha.png" Sys.initial).2.calls
      = [LoaderCall.glGenTextures 1,
         LoaderCall.stbi_load "grey_alpha.png",
         LoaderCall.glBindTexture GL_TEXTURE_2D 1,
         LoaderCall.glTexImage2D GL_TEXTURE_2D 0 none 4 4 0 none GL_UNSIGNED_BYTE (sampleImage 2),
         LoaderCall.glGenerateMipmap GL_TEXTURE_2D,
         LoaderCall.glTexParameteri GL_TEXTURE_2D GL_TEXTURE_WRAP_S none,
         LoaderCall.glTexParameteri GL_TEXTURE_2D GL_TEXTURE_WRAP_T none,
         LoaderCall.glTexParameteri GL_TEXTURE_2D GL_TEXTURE_MIN_FILTER
           (some GL_LINEAR_MIPMAP_LINEAR),
         LoaderCall.glTexParameteri GL_TEXTURE_2D GL_TEXTURE_MAG_FILTER (some GL_LINEAR),
         LoaderCall.stbi_image_free (some (sampleImage 2))] := by
  decide

end RgProject
